import Mathlib

/-!
# AI_Trader quote gateway (`server.js`): shallow embedding and verified properties

The embedding follows `src/server.js`.  Conventions:

* The wall clock (`Date.now()`, `new Date()`) is an explicit argument `now : Nat`
  (epoch milliseconds); one top-level call reads one clock value.
* JavaScript objects and `Map`s keyed by strings are association lists in
  insertion order (`Object.entries` order); `jsGet` is property read, `jsSet`
  is property write.  Provider names are ordinary (non index-like) keys.
* Numbers are exact: `JsNum` carries a rational, `NaN` or a signed infinity;
  binary floating-point rounding and negative zero are not modelled.
* The outcomes of the outside world (the upstream HTTP call, storage faults,
  `Math.random`) are explicit arguments collected in `World`.
* A thrown exception is `Except.error`; the state reached when it was thrown
  is returned next to it.
-/

namespace AITrader

/-! ## JavaScript values -/

/-- A JavaScript number: `NaN`, a finite value, or an infinity (`neg = true`
for `-Infinity`). -/
inductive JsNum where
  | nan
  | val (q : Rat)
  | inf (neg : Bool)
  deriving DecidableEq, Repr

/-- A JavaScript value as far as the gateway inspects one (JSON payloads,
quote fields). -/
inductive JsValue where
  | undefined
  | null
  | bool (b : Bool)
  | num (n : JsNum)
  | str (s : String)
  | arr (xs : List JsValue)
  | obj (fields : List (String × JsValue))

/-- A thrown `Error`: its `message` and, for system errors, its `code`. -/
structure JsError where
  message : String
  code : Option String := none
  deriving DecidableEq, Repr

/-- Property read on a string-keyed object or `Map`: `o[k]`, `m.get(k)`. -/
def jsGet {α : Type} (k : String) : List (String × α) → Option α
  | [] => none
  | (k', v) :: rest => if k' = k then some v else jsGet k rest

/-- Property write `o[k] = v`, `m.set(k, v)`: an existing key keeps its place,
a new key is appended. -/
def jsSet {α : Type} (k : String) (v : α) : List (String × α) → List (String × α)
  | [] => [(k, v)]
  | (k', v') :: rest => if k' = k then (k', v) :: rest else (k', v') :: jsSet k v rest

/-- Property removal `delete o[k]`, `m.delete(k)`. -/
def jsDelete {α : Type} (k : String) (o : List (String × α)) : List (String × α) :=
  o.filter (fun e => decide (e.1 ≠ k))

/-- Key test `m.has(k)`. -/
def jsHas {α : Type} (k : String) (o : List (String × α)) : Bool :=
  (jsGet k o).isSome

/-- JavaScript truthiness of a number. -/
def JsNum.truthy : JsNum → Bool
  | .nan => false
  | .val q => decide (q ≠ 0)
  | .inf _ => true

/-- JavaScript truthiness (`ToBoolean`). -/
def JsValue.truthy : JsValue → Bool
  | .undefined => false
  | .null => false
  | .bool b => b
  | .num n => n.truthy
  | .str s => decide (s ≠ "")
  | .arr _ => true
  | .obj _ => true

/-- Truthiness of an optional epoch-millisecond field (`null` or a number). -/
def timeTruthy : Option Int → Bool
  | none => false
  | some t => decide (t ≠ 0)

/-- Error thrown by reading a property of `undefined` or `null`. -/
def typeError (prop : String) : JsError :=
  { message := "Cannot read properties of undefined (reading '" ++ prop ++ "')" }

/-- Member access `v[k]` / `v.k`: throws on `undefined` and `null`, looks the key
up in an object, and is `undefined` on primitives and arrays (whose built-in
members are read through `JsValue.length` and `JsValue.first`). -/
def JsValue.get (v : JsValue) (k : String) : Except JsError JsValue :=
  match v with
  | .undefined => .error (typeError k)
  | .null => .error (typeError k)
  | .obj fields => .ok ((jsGet k fields).getD .undefined)
  | _ => .ok .undefined

/-- Optional chaining `v?.k`. -/
def JsValue.getOpt (v : JsValue) (k : String) : JsValue :=
  match v with
  | .obj fields => (jsGet k fields).getD .undefined
  | _ => .undefined

/-- Value of `v.length` for a value that is not `undefined`/`null`. -/
def JsValue.length : JsValue → JsValue
  | .arr xs => .num (.val xs.length)
  | .str s => .num (.val s.length)
  | .obj fields => (jsGet "length" fields).getD .undefined
  | _ => .undefined

/-- Value of `v[0]` for a value that is not `undefined`/`null`. -/
def JsValue.first : JsValue → JsValue
  | .arr (x :: _) => x
  | .str s => match s.toList with
    | c :: _ => .str (String.mk [c])
    | [] => .undefined
  | .obj fields => (jsGet "0" fields).getD .undefined
  | _ => .undefined

/-! ## Numbers: `parseFloat`, `ToNumber`, arithmetic -/

/-- Value of a run of decimal digits. -/
def digitsValue (ds : List Char) : Nat :=
  ds.foldl (fun n c => 10 * n + (c.toNat - 48)) 0

/-- Strip an optional sign: returns whether it was `-`, and the rest. -/
def scanSign : List Char → Bool × List Char
  | '-' :: r => (true, r)
  | '+' :: r => (false, r)
  | cs => (false, cs)

/-- Optional exponent part `e[+-]ddd` of a decimal literal: its value and the rest. -/
def scanExponent (cs : List Char) : Int × List Char :=
  match cs with
  | c :: r =>
    if c = 'e' ∨ c = 'E' then
      let sr := scanSign r
      let ed := sr.2.takeWhile Char.isDigit
      if ed.isEmpty then (0, cs)
      else ((if sr.1 then -(digitsValue ed : Int) else (digitsValue ed : Int)),
            sr.2.dropWhile Char.isDigit)
    else (0, cs)
  | [] => (0, cs)

/-- Longest prefix of `cs` that is a `StrDecimalLiteral` (sign, `Infinity` or
digits with optional fraction and exponent): its value and the unread rest;
`NaN` when there is none. -/
def scanNumber (cs : List Char) : JsNum × List Char :=
  let sb := scanSign cs
  if ("Infinity".toList).isPrefixOf sb.2 then (.inf sb.1, sb.2.drop 8) else
  let ip := sb.2.takeWhile Char.isDigit
  let r1 := sb.2.dropWhile Char.isDigit
  let fr : List Char × List Char := match r1 with
    | '.' :: r => (r.takeWhile Char.isDigit, r.dropWhile Char.isDigit)
    | _ => ([], r1)
  if ip.isEmpty && fr.1.isEmpty then (.nan, cs) else
  let mant : Rat := (digitsValue (ip ++ fr.1) : Rat) / (10 : Rat) ^ fr.1.length
  let ex := scanExponent fr.2
  (.val ((if sb.1 then -mant else mant) * (10 : Rat) ^ ex.1), ex.2)

/-- The global `parseFloat(v)`: the argument is converted to a string, leading
white space is skipped and the longest numeric prefix is read.  (Array
arguments, whose string form joins the elements, are not modelled.) -/
def parseFloat : JsValue → JsNum
  | .num n => n
  | .str s => (scanNumber (s.toList.dropWhile Char.isWhitespace)).1
  | _ => .nan

/-- JavaScript `ToNumber`, as applied by the arithmetic operators. -/
def toNumber : JsValue → JsNum
  | .undefined => .nan
  | .null => .val 0
  | .bool b => .val (if b then 1 else 0)
  | .num n => n
  | .str s =>
    let cs := s.toList.dropWhile Char.isWhitespace
    if cs.isEmpty then .val 0 else
    let r := scanNumber cs
    if r.2.all Char.isWhitespace then r.1 else .nan
  | _ => .nan

/-- Subtraction `a - b` on numbers. -/
def JsNum.sub : JsNum → JsNum → JsNum
  | .val a, .val b => .val (a - b)
  | .inf s, .inf t => if s = t then .nan else .inf s
  | .inf s, .val _ => .inf s
  | .val _, .inf t => .inf (!t)
  | _, _ => .nan

/-- Multiplication `a * b` on numbers. -/
def JsNum.mul : JsNum → JsNum → JsNum
  | .val a, .val b => .val (a * b)
  | .inf s, .val b => if b = 0 then .nan else .inf (xor s (decide (b < 0)))
  | .val a, .inf t => if a = 0 then .nan else .inf (xor t (decide (a < 0)))
  | .inf s, .inf t => .inf (xor s t)
  | _, _ => .nan

/-- Division `a / b` on numbers. -/
def JsNum.div : JsNum → JsNum → JsNum
  | .val a, .val b =>
    if b = 0 then (if a = 0 then .nan else .inf (decide (a < 0))) else .val (a / b)
  | .inf s, .val b => .inf (xor s (decide (b < 0)))
  | .val _, .inf _ => .val 0
  | _, _ => .nan

/-- The comparison `v > 0`. -/
def gtZero (v : JsValue) : Bool :=
  match toNumber v with
  | .val q => decide (0 < q)
  | .inf neg => !neg
  | .nan => false

/-- Value of `Math.round(x)`: the nearest integer, halves rounded up. -/
def mathRound (x : Rat) : Rat := (⌊x + 1 / 2⌋ : Int)

/-! ## Data model -/

/-- The canonical quote object returned by the adapters and by the gateway.
`note` is `none` when the object has no `note` property. -/
structure Quote where
  symbol : JsValue
  price : JsValue
  change : JsValue
  changePercent : JsValue
  timestamp : Nat
  provider : String
  note : Option String := none

/-- One entry of `config.providers`. -/
structure ProviderConfig where
  enabled : Bool
  priority : Int
  apiKey : Option String
  baseUrl : String
  dailyLimit : Int
  minuteLimit : Int
  supportsBulk : Bool
  bulkLimit : Option Int := none
  callsToday : Int
  callsThisMinute : Option Int := none
  resetTime : Option Int
  disabledUntil : Option Int := none
  disabledReason : Option String := none
  deriving DecidableEq, Repr

/-- The `api_config` record: the provider table in `Object.entries` order and
the time of the last save. -/
structure Config where
  providers : List (String × ProviderConfig)
  lastUpdated : Nat
  deriving DecidableEq, Repr

/-- One entry of the rate-limit ledger `rateLimits`. -/
structure RateLimitState where
  requests : Int
  lastReset : Int
  deriving DecidableEq, Repr

/-- The `rate_limits` record as persisted. -/
structure RateLimitData where
  entries : List (String × RateLimitState)
  lastUpdated : Nat
  deriving DecidableEq, Repr

/-- One entry of the durable cache (`cache_data`). -/
structure CacheEntry where
  data : Quote
  expiresAt : Int

/-- The provider names the ledger is built for. -/
def providerNames : List String :=
  ["alphavantage", "twelvedata", "finnhub", "iexcloud", "polygon", "quandl",
   "worldtradingdata", "marketstack"]

/-- Process state of the gateway together with its durable stores.
`useMongoDb` stands for `useMongoDb && db`; `env` maps a provider name to the
value of its `<NAME>_API_KEY` environment variable; `mongo*` are the three
collections and `file*` the three JSON files (`none`: no document / no
readable file).  `fetchCalls` is a ghost counter of the upstream requests issued
by `makeApiCall`; no function reads it. -/
structure Gateway where
  useMongoDb : Bool
  env : List (String × String)
  mongoConfig : Option Config
  fileConfig : Option Config
  mongoRateLimits : Option RateLimitData
  fileRateLimits : Option RateLimitData
  mongoCache : List (String × CacheEntry)
  fileCache : Option (List (String × CacheEntry))
  cache : List (String × Quote)
  rateLimits : List (String × RateLimitState)
  providerFailureCount : List (String × Nat)
  fetchCalls : Nat := 0

/-- Outcome of `response.json()` after an HTTP response was received. -/
inductive FetchResult where
  | throws (err : JsError)
  | response (ok : Bool) (status : Nat) (statusText : String) (body : Except JsError JsValue)

/-- What the outside world does during one top-level call: storage faults
(`mongoThrows`: driver calls reject; `fileReadFails`: `fs.readFile` or
`JSON.parse` throws; `fileWriteFails`: `fs.writeFile` throws), the outcome of
the upstream `fetch(url)`, the three `Math.random()` draws, and the host's time
zone as `Date` sees it, in milliseconds: `tzOffset t` is the offset of local
time from UTC at the instant `t`, `tzOffsetLocal t` the offset in force at the
local time `t`; both are 0 under UTC. -/
structure World where
  mongoThrows : Bool := false
  fileReadFails : Bool := false
  fileWriteFails : Bool := false
  fetch : String → FetchResult := fun _ => .throws { message := "fetch failed" }
  random : Rat × Rat × Rat := (0, 0, 0)
  tzOffset : Int → Int := fun _ => 0
  tzOffsetLocal : Int → Int := fun _ => 0

/-! ## Durable store: files and configuration -/

/-- Result of `readJsonFile(filePath, defaultData)`: the parsed content, or the default
when the file is absent or reading throws. -/
def readJsonFile {α : Type} (w : World) (file : Option α) (defaultData : α) : α :=
  if w.fileReadFails then defaultData else file.getD defaultData

/-- Effect of `writeJsonFile(filePath, data)` on the file: a write error is
logged and swallowed, leaving the file as it was. -/
def writeJsonFile {α : Type} (w : World) (file : Option α) (data : α) : Option α :=
  if w.fileWriteFails then file else some data

/-- The table `defaultConfig.providers` of `getApiConfig`. -/
def defaultProviders (env : List (String × String)) (now : Nat) : List (String × ProviderConfig) :=
  [ ("alphavantage",
      { enabled := true, priority := 1, apiKey := jsGet "alphavantage" env,
        baseUrl := "https://www.alphavantage.co/query", dailyLimit := 25, minuteLimit := 5,
        supportsBulk := false, callsToday := 25,
        resetTime := some ((now : Int) + 24 * 60 * 60 * 1000) }),
    ("twelvedata",
      { enabled := true, priority := 2, apiKey := jsGet "twelvedata" env,
        baseUrl := "https://api.twelvedata.com", dailyLimit := 800, minuteLimit := 8,
        supportsBulk := true, bulkLimit := some 120, callsToday := 0, resetTime := none }),
    ("finnhub",
      { enabled := true, priority := 4, apiKey := jsGet "finnhub" env,
        baseUrl := "https://finnhub.io/api/v1", dailyLimit := 60, minuteLimit := 60,
        supportsBulk := false, callsToday := 0, resetTime := none }),
    ("iexcloud",
      { enabled := true, priority := 5, apiKey := jsGet "iexcloud" env,
        baseUrl := "https://cloud.iexapis.com/stable", dailyLimit := 500000, minuteLimit := 100,
        supportsBulk := true, bulkLimit := some 100, callsToday := 0, resetTime := none }),
    ("polygon",
      { enabled := true, priority := 6, apiKey := jsGet "polygon" env,
        baseUrl := "https://api.polygon.io/v2", dailyLimit := 5, minuteLimit := 5,
        supportsBulk := false, callsToday := 0, resetTime := none }),
    ("quandl",
      { enabled := true, priority := 7, apiKey := jsGet "quandl" env,
        baseUrl := "https://data.nasdaq.com/api/v3", dailyLimit := 50, minuteLimit := 20,
        supportsBulk := false, callsToday := 0, resetTime := none }),
    ("worldtradingdata",
      { enabled := true, priority := 8, apiKey := jsGet "worldtradingdata" env,
        baseUrl := "https://api.worldtradingdata.com/api/v1", dailyLimit := 250, minuteLimit := 5,
        supportsBulk := true, bulkLimit := some 5, callsToday := 0, resetTime := none }),
    ("marketstack",
      { enabled := true, priority := 9, apiKey := jsGet "marketstack" env,
        baseUrl := "http://api.marketstack.com/v1", dailyLimit := 1000, minuteLimit := 10,
        supportsBulk := false, callsToday := 0, resetTime := none }) ]

/-- The object `defaultConfig` of `getApiConfig`. -/
def defaultConfig (env : List (String × String)) (now : Nat) : Config :=
  { providers := defaultProviders env now, lastUpdated := now }

/-- One environment override of `getApiConfig`:
`if (process.env.X_API_KEY) config.providers.x.apiKey = process.env.X_API_KEY`.
Writing through a missing provider record throws a `TypeError`. -/
def applyEnvOverride (env : List (String × String)) (name : String) (config : Config) :
    Except JsError Config :=
  match jsGet name env with
  | none => .ok config
  | some key =>
    if key = "" then .ok config else
    match jsGet name config.providers with
    | none => .error { message := "Cannot set properties of undefined (setting 'apiKey')" }
    | some pc => .ok { config with providers := jsSet name { pc with apiKey := some key } config.providers }

/-- The eight overrides of `getApiConfig`, in source order. -/
def applyEnvOverrides (env : List (String × String)) :
    List String → Config → Except JsError Config
  | [], config => .ok config
  | name :: rest, config =>
    match applyEnvOverride env name config with
    | .error e => .error e
    | .ok config' => applyEnvOverrides env rest config'

/-- Function `getApiConfig()`: the Mongo document when the document store is in use and
holds one, else the JSON file (or the default table) with the environment
credentials written over it. -/
def getApiConfig (g : Gateway) (w : World) (now : Nat) : Except JsError Config :=
  match (if g.useMongoDb && !w.mongoThrows then g.mongoConfig else none) with
  | some config => .ok config
  | none => applyEnvOverrides g.env providerNames
      (readJsonFile w g.fileConfig (defaultConfig g.env now))

/-- Function `saveApiConfig(config)`: stamps `lastUpdated`, then replaces the Mongo
document or, when Mongo is not in use or throws, rewrites the file.  Returns the
stamped object and the new store. -/
def saveApiConfig (g : Gateway) (w : World) (now : Nat) (config : Config) : Config × Gateway :=
  let config' := { config with lastUpdated := now }
  if g.useMongoDb && !w.mongoThrows then (config', { g with mongoConfig := some config' })
  else (config', { g with fileConfig := writeJsonFile w g.fileConfig config' })

/-! ## Response cache -/

/-- Function `getCachedData(key)`: the in-process map first, then the Mongo collection,
then the cache file; a durable hit that has not expired repopulates the map. -/
def getCachedData (g : Gateway) (w : World) (now : Nat) (key : String) : Option Quote × Gateway :=
  if jsHas key g.cache then (jsGet key g.cache, g) else
  match (if g.useMongoDb && !w.mongoThrows then
          (jsGet key g.mongoCache).filter (fun c => decide ((now : Int) < c.expiresAt))
         else none) with
  | some cached => (some cached.data, { g with cache := jsSet key cached.data g.cache })
  | none =>
    match (jsGet key (readJsonFile w g.fileCache [])).filter
            (fun c => decide ((now : Int) < c.expiresAt)) with
    | some cached => (some cached.data, { g with cache := jsSet key cached.data g.cache })
    | none => (none, g)

/-- Function `setCachedData(key, data, ttlMinutes)`: stores in the in-process map, then in
Mongo or, when Mongo is not in use or throws, in the cache file. -/
def setCachedData (g : Gateway) (w : World) (now : Nat) (key : String) (data : Quote)
    (ttlMinutes : Int) : Gateway :=
  let expiresAt : Int := (now : Int) + ttlMinutes * 60 * 1000
  let g1 := { g with cache := jsSet key data g.cache }
  if g.useMongoDb && !w.mongoThrows then
    { g1 with mongoCache := jsSet key { data := data, expiresAt := expiresAt } g.mongoCache }
  else
    let cacheData := jsSet key { data := data, expiresAt := expiresAt } (readJsonFile w g.fileCache [])
    { g1 with fileCache := writeJsonFile w g.fileCache cacheData }

/-- One pass of the hourly clean-up started by `startServer`: every entry of the
cache file that has expired is deleted from the file and from the in-process map;
the file is rewritten only when something was deleted. -/
def cacheCleanup (g : Gateway) (w : World) (now : Nat) : Gateway :=
  let cacheData := readJsonFile w g.fileCache []
  let expired := cacheData.filter (fun e => decide (e.2.expiresAt ≤ (now : Int)))
  let kept := cacheData.filter (fun e => !decide (e.2.expiresAt ≤ (now : Int)))
  let cache' := expired.foldl (fun c e => jsDelete e.1 c) g.cache
  if expired.isEmpty then g
  else { g with cache := cache', fileCache := writeJsonFile w g.fileCache kept }

/-! ## Rate-limit ledger -/

/-- Function `saveRateLimitData(rateLimits)`: replaces the Mongo document or, when Mongo is
not in use or throws, rewrites the file with the records of the eight providers. -/
def saveRateLimitData (g : Gateway) (w : World) (now : Nat) : Gateway :=
  if g.useMongoDb && !w.mongoThrows then
    { g with mongoRateLimits := some { entries := g.rateLimits, lastUpdated := now } }
  else
    let saveData : RateLimitData :=
      { entries := providerNames.filterMap (fun p => (jsGet p g.rateLimits).map (fun r => (p, r))),
        lastUpdated := now }
    { g with fileRateLimits := writeJsonFile w g.fileRateLimits saveData }

/-- The object `defaultData` of `getRateLimitData`. -/
def defaultRateLimitData (now : Nat) : RateLimitData :=
  { entries := providerNames.map (fun p => (p, { requests := 0, lastReset := (now : Int) })),
    lastUpdated := now }

/-- Function `getRateLimitData()`: the Mongo document when the document store is in
use and holds one, else the JSON file or the default data. -/
def getRateLimitData (g : Gateway) (w : World) (now : Nat) : RateLimitData :=
  match (if g.useMongoDb && !w.mongoThrows then g.mongoRateLimits else none) with
  | some data => data
  | none => readJsonFile w g.fileRateLimits (defaultRateLimitData now)

/-- Function `loadRateLimits()`: rebuilds the in-memory ledger for the eight
providers from the persisted data; the Alpha Vantage count is forced to 25. -/
def loadRateLimits (g : Gateway) (w : World) (now : Nat) : Gateway :=
  let data := getRateLimitData g w now
  { g with rateLimits := providerNames.map (fun provider =>
      match jsGet provider data.entries with
      | some r =>
        (provider, { requests := if provider = "alphavantage" then 25 else r.requests,
                     lastReset := r.lastReset })
      | none => (provider, { requests := 0, lastReset := (now : Int) })) }

/-- Function `shouldResetRateLimit(lastReset)`: `hoursSinceReset >= 24` where
`hoursSinceReset = (now - resetTime) / (1000 * 60 * 60)`, written without the
division (see `shouldResetRateLimit_hours`). -/
def shouldResetRateLimit (now : Nat) (lastReset : Int) : Bool :=
  decide (24 * (1000 * 60 * 60) ≤ (now : Int) - lastReset)

/-- Body of the `forEach` of `checkAndResetRateLimits` for one provider: the new
ledger and the `updated` flag. -/
def resetStep (now : Nat) (acc : List (String × RateLimitState) × Bool) (provider : String) :
    List (String × RateLimitState) × Bool :=
  match jsGet provider acc.1 with
  | some r =>
    if shouldResetRateLimit now r.lastReset then
      (jsSet provider { requests := 0, lastReset := (now : Int) } acc.1, true)
    else acc
  | none => acc

/-- Function `checkAndResetRateLimits()`. -/
def checkAndResetRateLimits (g : Gateway) (w : World) (now : Nat) : Gateway :=
  let r := providerNames.foldl (resetStep now) (g.rateLimits, false)
  let g1 := { g with rateLimits := r.1 }
  if r.2 then saveRateLimitData g1 w now else g1

/-- Function `checkProviderReset(providerName, config)`: clears a `resetTime` that has
passed.  Returns the return value and the mutated configuration. -/
def checkProviderReset (now : Nat) (providerName : String) (config : Config) :
    Except JsError (Bool × Config) :=
  match jsGet providerName config.providers with
  | none => .error (typeError "resetTime")
  | some pc =>
    if timeTruthy pc.resetTime && decide ((now : Int) ≥ pc.resetTime.getD 0) then
      let pc' := { pc with resetTime := none, callsToday := 0, callsThisMinute := some 0 }
      .ok (true, { config with providers := jsSet providerName pc' config.providers })
    else .ok (false, config)

/-- Function `hasCapacity(provider, config)`.  Returns the return value (or the `TypeError`
of reading `requests` from a missing ledger record) and the configuration as
mutated by `checkProviderReset`. -/
def hasCapacity (g : Gateway) (now : Nat) (provider : String) (config : Config) :
    Except JsError Bool × Config :=
  match jsGet provider config.providers with
  | none => (.ok false, config)
  | some pc0 =>
    if !pc0.enabled then (.ok false, config) else
    match checkProviderReset now provider config with
    | .error e => (.error e, config)
    | .ok (_, config1) =>
      match jsGet provider config1.providers with
      | none => (.error (typeError "resetTime"), config1)
      | some pc =>
        if timeTruthy pc.resetTime && decide ((now : Int) < pc.resetTime.getD 0) then
          (.ok false, config1)
        else
          match jsGet provider g.rateLimits with
          | none => (.error (typeError "requests"), config1)
          | some limits => (.ok (decide (limits.requests < pc.dailyLimit)), config1)

/-- Function `incrementRateLimit(provider)`. -/
def incrementRateLimit (g : Gateway) (w : World) (now : Nat) (provider : String) : Gateway :=
  match jsGet provider g.rateLimits with
  | some r =>
    saveRateLimitData
      { g with rateLimits := jsSet provider { r with requests := r.requests + 1 } g.rateLimits } w now
  | none => g

/-! ## Availability tracking -/

/-- The constant `MAX_FAILURES_BEFORE_DISABLE`. -/
def MAX_FAILURES_BEFORE_DISABLE : Nat := 3

/-- The constant `PROVIDER_DISABLE_DURATION` (30 minutes, in milliseconds). -/
def PROVIDER_DISABLE_DURATION : Int := 30 * 60 * 1000

/-- String search `s.includes(sub)`. -/
def strIncludes (s sub : String) : Bool := decide (sub.toList <:+: s.toList)

/-- The list `networkErrors` of `isNetworkError`. -/
def networkErrors : List String :=
  ["ENOTFOUND", "getaddrinfo", "ECONNREFUSED", "ETIMEDOUT", "ECONNRESET", "EHOSTUNREACH",
   "ENETUNREACH"]

/-- Function `isNetworkError(error)`. -/
def isNetworkError (error : JsError) : Bool :=
  networkErrors.any (fun errorType =>
    strIncludes error.message errorType || decide (error.code = some errorType))

/-- Function `checkProviderAvailability(providerName, config)`.  Returns the return value,
the configuration as mutated, and the store after a possible `saveApiConfig`. -/
def checkProviderAvailability (g : Gateway) (w : World) (now : Nat) (providerName : String)
    (config : Config) : Bool × Config × Gateway :=
  match jsGet providerName config.providers with
  | none => (false, config, g)
  | some provider =>
    if !provider.enabled then (false, config, g) else
    if timeTruthy provider.disabledUntil && decide ((now : Int) < provider.disabledUntil.getD 0) then
      (false, config, g)
    else if timeTruthy provider.disabledUntil && decide ((now : Int) ≥ provider.disabledUntil.getD 0) then
      let provider' := { provider with enabled := true, disabledUntil := none, disabledReason := none }
      let saved := saveApiConfig g w now
        { config with providers := jsSet providerName provider' config.providers }
      (provider'.enabled, saved.1, saved.2)
    else (provider.enabled, config, g)

/-- Function `handleProviderFailure(providerName, error)`.  A network-class error raises the
provider's failure count; the third one disables the provider in a freshly loaded
configuration, saves it and clears the count. -/
def handleProviderFailure (g : Gateway) (w : World) (now : Nat) (providerName : String)
    (error : JsError) : Except JsError Unit × Gateway :=
  match getApiConfig g w now with
  | .error e => (.error e, g)
  | .ok config =>
    if isNetworkError error then
      let currentCount := (jsGet providerName g.providerFailureCount).getD 0
      let newCount := currentCount + 1
      let g1 := { g with providerFailureCount := jsSet providerName newCount g.providerFailureCount }
      if newCount ≥ MAX_FAILURES_BEFORE_DISABLE then
        match jsGet providerName config.providers with
        | none => (.error { message := "Cannot set properties of undefined (setting 'enabled')" }, g1)
        | some pc =>
          let pc' := { pc with enabled := false,
                               disabledUntil := some ((now : Int) + PROVIDER_DISABLE_DURATION),
                               disabledReason := some "Network/Firewall restrictions detected" }
          let saved := saveApiConfig g1 w now
            { config with providers := jsSet providerName pc' config.providers }
          (.ok (), { saved.2 with
            providerFailureCount := jsSet providerName 0 saved.2.providerFailureCount })
      else (.ok (), g1)
    else (.ok (), g)

/-! ## Upstream calls and adapters -/

/-- The object returned by `makeApiCall`: `{ success: true, data }` or
`{ success: false, error }`. -/
inductive ApiResult where
  | success (data : JsValue)
  | failure (error : String)

/-- Function `makeApiCall(url, provider)`.  The `try` block fetches, rejects a non-OK
status, parses the body, counts the call and clears the failure count; the
`catch` block hands the error to `handleProviderFailure` (whose own exception
escapes) and reports failure. -/
def makeApiCall (g0 : Gateway) (w : World) (now : Nat) (url : String) (provider : String) :
    Except JsError ApiResult × Gateway :=
  let g := { g0 with fetchCalls := g0.fetchCalls + 1 }
  let attempt : Except JsError JsValue :=
    match w.fetch url with
    | .throws err => .error err
    | .response ok status statusText body =>
      if !ok then .error { message := "HTTP " ++ toString status ++ ": " ++ statusText }
      else body
  match attempt with
  | .ok data =>
    let g1 := incrementRateLimit g w now provider
    (.ok (.success data),
      { g1 with providerFailureCount := jsSet provider 0 g1.providerFailureCount })
  | .error error =>
    match handleProviderFailure g w now provider error with
    | (.error e, g1) => (.error e, g1)
    | (.ok _, g1) => (.ok (.failure error.message), g1)

/-- The error of the adapters' final `throw new Error(result.error || 'Invalid response format')`. -/
def invalidResponse : ApiResult → JsError
  | .failure msg => { message := if msg = "" then "Invalid response format" else msg }
  | .success _ => { message := "Invalid response format" }

/-- String form of a value inside a logged message (composite values and numbers
are abbreviated, the text is only logged). -/
def JsValue.toStr : JsValue → String
  | .undefined => "undefined"
  | .null => "null"
  | .bool b => if b then "true" else "false"
  | .str s => s
  | _ => "[value]"

/-- The message thrown when Alpha Vantage reports its quota as used up. -/
def alphaVantageLimitError : JsError :=
  { message := "Alpha Vantage daily limit exceeded. Resets tomorrow." }

/-- Value of `tomorrow.getTime()` after `const tomorrow = new Date()` and
`tomorrow.setDate(tomorrow.getDate() + 1)`: the local time of `now` is moved one
calendar day ahead, keeping the time within the day, and converted back to UTC
with the offset in force at that local time.  It is `now` + 24 hours when the
offset does not change, and 23 or 25 hours across a daylight-saving change. -/
def tomorrowTime (w : World) (now : Nat) : Int :=
  let localNow : Int := (now : Int) + w.tzOffset (now : Int)
  let localTomorrow : Int := localNow + 24 * 60 * 60 * 1000
  localTomorrow - w.tzOffsetLocal localTomorrow

/-- Function `handleAlphaVantageRateLimit(config)`: marks the provider as exhausted until
the same local time on the next calendar day. -/
def handleAlphaVantageRateLimit (w : World) (now : Nat) (config : Config) :
    Except JsError Config :=
  match jsGet "alphavantage" config.providers with
  | none => .error (typeError "dailyLimit")
  | some pc =>
    let tomorrow : Int := tomorrowTime w now
    let pc' := { pc with callsToday := pc.dailyLimit, resetTime := some tomorrow }
    .ok { config with providers := jsSet "alphavantage" pc' config.providers }

/-- The part of `getAlphaVantageQuote` that runs on a successful call: payload
checks and the mapping to a quote. -/
def alphaVantagePayload (w : World) (now : Nat) (config : Config) (data : JsValue) :
    Except JsError Quote × Config :=
  match data.get "Error Message" with
  | .error e => (.error e, config)
  | .ok errorMessage =>
    if errorMessage.truthy then
      (.error { message := "Alpha Vantage Error: " ++ errorMessage.toStr }, config)
    else if (data.getOpt "Note").truthy || (data.getOpt "Information").truthy then
      match handleAlphaVantageRateLimit w now config with
      | .error e => (.error e, config)
      | .ok config' => (.error alphaVantageLimitError, config')
    else
      let quote := data.getOpt "Global Quote"
      if quote.truthy then
        match quote.getOpt "10. change percent" with
        | .str pct =>
          (.ok { symbol := quote.getOpt "01. symbol",
                 price := .num (parseFloat (quote.getOpt "05. price")),
                 change := .num (parseFloat (quote.getOpt "09. change")),
                 changePercent := .num (parseFloat (.str (String.mk (pct.toList.erase '%')))),
                 timestamp := now, provider := "alphavantage" }, config)
        | .undefined => (.error (typeError "replace"), config)
        | .null => (.error (typeError "replace"), config)
        | _ => (.error { message := "quote['10. change percent'].replace is not a function" }, config)
      else (.error { message := "Invalid response format" }, config)

/-- Function `getAlphaVantageQuote(symbol, config)`. -/
def getAlphaVantageQuote (g : Gateway) (w : World) (now : Nat) (symbol : String) (config : Config) :
    Except JsError Quote × Config × Gateway :=
  match jsGet "alphavantage" config.providers with
  | none => (.error (typeError "resetTime"), config, g)
  | some pc =>
    if timeTruthy pc.resetTime && decide ((now : Int) < pc.resetTime.getD 0) then
      (.error alphaVantageLimitError, config, g)
    else
      let url := pc.baseUrl ++ "?function=GLOBAL_QUOTE&symbol=" ++ symbol ++ "&apikey="
        ++ pc.apiKey.getD "undefined"
      match makeApiCall g w now url "alphavantage" with
      | (.error e, g1) => (.error e, config, g1)
      | (.ok (.failure msg), g1) => (.error (invalidResponse (.failure msg)), config, g1)
      | (.ok (.success data), g1) =>
        let r := alphaVantagePayload w now config data
        (r.1, r.2, g1)

/-- Function `getTwelveDataQuote(symbol, config)`. -/
def getTwelveDataQuote (g : Gateway) (w : World) (now : Nat) (symbol : String) (config : Config) :
    Except JsError Quote × Gateway :=
  match jsGet "twelvedata" config.providers with
  | none => (.error (typeError "baseUrl"), g)
  | some pc =>
    let url := pc.baseUrl ++ "/quote?symbol=" ++ symbol ++ "&apikey=" ++ pc.apiKey.getD "undefined"
    match makeApiCall g w now url "twelvedata" with
    | (.error e, g1) => (.error e, g1)
    | (.ok (.failure msg), g1) => (.error (invalidResponse (.failure msg)), g1)
    | (.ok (.success data), g1) =>
      if data.truthy then
        (.ok { symbol := data.getOpt "symbol",
               price := .num (parseFloat (data.getOpt "close")),
               change := .num (parseFloat (data.getOpt "change")),
               changePercent := .num (parseFloat (data.getOpt "percent_change")),
               timestamp := now, provider := "twelvedata" }, g1)
      else (.error (invalidResponse (.success data)), g1)

/-- Function `getFinnhubQuote(symbol, config)`. -/
def getFinnhubQuote (g : Gateway) (w : World) (now : Nat) (symbol : String) (config : Config) :
    Except JsError Quote × Gateway :=
  match jsGet "finnhub" config.providers with
  | none => (.error (typeError "baseUrl"), g)
  | some pc =>
    let url := pc.baseUrl ++ "/quote?symbol=" ++ symbol ++ "&token=" ++ pc.apiKey.getD "undefined"
    match makeApiCall g w now url "finnhub" with
    | (.error e, g1) => (.error e, g1)
    | (.ok (.failure msg), g1) => (.error (invalidResponse (.failure msg)), g1)
    | (.ok (.success data), g1) =>
      if data.truthy then
        (.ok { symbol := .str symbol,
               price := .num (parseFloat (data.getOpt "c")),
               change := .num (parseFloat (data.getOpt "d")),
               changePercent := .num (parseFloat (data.getOpt "dp")),
               timestamp := now, provider := "finnhub" }, g1)
      else (.error (invalidResponse (.success data)), g1)

/-- Function `getIEXCloudQuote(symbol, config)`. -/
def getIEXCloudQuote (g : Gateway) (w : World) (now : Nat) (symbol : String) (config : Config) :
    Except JsError Quote × Gateway :=
  match jsGet "iexcloud" config.providers with
  | none => (.error (typeError "baseUrl"), g)
  | some pc =>
    let url := pc.baseUrl ++ "/stock/" ++ symbol ++ "/quote?token=" ++ pc.apiKey.getD "undefined"
    match makeApiCall g w now url "iexcloud" with
    | (.error e, g1) => (.error e, g1)
    | (.ok (.failure msg), g1) => (.error (invalidResponse (.failure msg)), g1)
    | (.ok (.success data), g1) =>
      if data.truthy then
        (.ok { symbol := data.getOpt "symbol",
               price := .num (parseFloat (data.getOpt "latestPrice")),
               change := .num (parseFloat (data.getOpt "change")),
               changePercent := .num ((parseFloat (data.getOpt "changePercent")).mul (.val 100)),
               timestamp := now, provider := "iexcloud" }, g1)
      else (.error (invalidResponse (.success data)), g1)

/-- Function `getPolygonQuote(symbol, config)`. -/
def getPolygonQuote (g : Gateway) (w : World) (now : Nat) (symbol : String) (config : Config) :
    Except JsError Quote × Gateway :=
  match jsGet "polygon" config.providers with
  | none => (.error (typeError "baseUrl"), g)
  | some pc =>
    let url := pc.baseUrl ++ "/last/trade/" ++ symbol ++ "?apiKey=" ++ pc.apiKey.getD "undefined"
    match makeApiCall g w now url "polygon" with
    | (.error e, g1) => (.error e, g1)
    | (.ok (.failure msg), g1) => (.error (invalidResponse (.failure msg)), g1)
    | (.ok (.success data), g1) =>
      let trade := data.getOpt "results"
      if trade.truthy then
        (.ok { symbol := .str symbol,
               price := .num (parseFloat (trade.getOpt "p")),
               change := .num (.val 0),
               changePercent := .num (.val 0),
               timestamp := now, provider := "polygon",
               note := some "Last trade price only - change data not available" }, g1)
      else (.error (invalidResponse (.success data)), g1)

/-- Function `getWorldTradingDataQuote(symbol, config)`. -/
def getWorldTradingDataQuote (g : Gateway) (w : World) (now : Nat) (symbol : String)
    (config : Config) : Except JsError Quote × Gateway :=
  match jsGet "worldtradingdata" config.providers with
  | none => (.error (typeError "baseUrl"), g)
  | some pc =>
    let url := pc.baseUrl ++ "/stock?symbol=" ++ symbol ++ "&api_token=" ++ pc.apiKey.getD "undefined"
    match makeApiCall g w now url "worldtradingdata" with
    | (.error e, g1) => (.error e, g1)
    | (.ok (.failure msg), g1) => (.error (invalidResponse (.failure msg)), g1)
    | (.ok (.success data), g1) =>
      let rows := data.getOpt "data"
      if rows.truthy && gtZero rows.length then
        let stock := rows.first
        match stock.get "symbol" with
        | .error e => (.error e, g1)
        | .ok sym =>
          (.ok { symbol := sym,
                 price := .num (parseFloat (stock.getOpt "price")),
                 change := .num (parseFloat (stock.getOpt "day_change")),
                 changePercent := .num (parseFloat (stock.getOpt "change_pct")),
                 timestamp := now, provider := "worldtradingdata" }, g1)
      else (.error (invalidResponse (.success data)), g1)

/-- Function `getMarketStackQuote(symbol, config)`. -/
def getMarketStackQuote (g : Gateway) (w : World) (now : Nat) (symbol : String) (config : Config) :
    Except JsError Quote × Gateway :=
  match jsGet "marketstack" config.providers with
  | none => (.error (typeError "baseUrl"), g)
  | some pc =>
    let url := pc.baseUrl ++ "/eod/latest?access_key=" ++ pc.apiKey.getD "undefined"
      ++ "&symbols=" ++ symbol
    match makeApiCall g w now url "marketstack" with
    | (.error e, g1) => (.error e, g1)
    | (.ok (.failure msg), g1) => (.error (invalidResponse (.failure msg)), g1)
    | (.ok (.success data), g1) =>
      let rows := data.getOpt "data"
      if rows.truthy && gtZero rows.length then
        let stock := rows.first
        match stock.get "symbol" with
        | .error e => (.error e, g1)
        | .ok sym =>
          let close := toNumber (stock.getOpt "close")
          let stockOpen := toNumber (stock.getOpt "open")
          (.ok { symbol := sym,
                 price := .num (parseFloat (stock.getOpt "close")),
                 change := .num (close.sub stockOpen),
                 changePercent := .num (((close.sub stockOpen).div stockOpen).mul (.val 100)),
                 timestamp := now, provider := "marketstack" }, g1)
      else (.error (invalidResponse (.success data)), g1)

/-! ## Provider selection -/

/-- The sort `availableProviders.sort((a, b) => a[1].priority - b[1].priority)`:
`Array.prototype.sort` is stable, so entries of equal priority keep their order. -/
def sortByPriority (l : List (String × ProviderConfig)) : List (String × ProviderConfig) :=
  l.insertionSort (fun a b => a.2.priority ≤ b.2.priority)

/-- The loop of `getBestProvider` over the remaining entry names: each provider
that is available and has capacity is pushed with its record. -/
def collectAvailable (w : World) (now : Nat) :
    List String → Config → Gateway → List (String × ProviderConfig) →
    Except JsError (List (String × ProviderConfig)) × Config × Gateway
  | [], config, g, acc => (.ok acc, config, g)
  | name :: rest, config, g, acc =>
    let a := checkProviderAvailability g w now name config
    if a.1 then
      match hasCapacity a.2.2 now name a.2.1 with
      | (.error e, config2) => (.error e, config2, a.2.2)
      | (.ok true, config2) =>
        match jsGet name config2.providers with
        | some providerConfig =>
          collectAvailable w now rest config2 a.2.2 (acc ++ [(name, providerConfig)])
        | none => collectAvailable w now rest config2 a.2.2 acc
      | (.ok false, config2) => collectAvailable w now rest config2 a.2.2 acc
    else collectAvailable w now rest a.2.1 a.2.2 acc

/-- Function `getBestProvider(config)`: the name of the first entry after sorting the
eligible providers by priority, or `none` for `null`. -/
def getBestProvider (g : Gateway) (w : World) (now : Nat) (config : Config) :
    Except JsError (Option String) × Config × Gateway :=
  match collectAvailable w now (config.providers.map Prod.fst) config g [] with
  | (.error e, config', g') => (.error e, config', g')
  | (.ok availableProviders, config', g') =>
    (.ok ((sortByPriority availableProviders).head?.map Prod.fst), config', g')

/-! ## Offline sample and the gateway operation -/

/-- The table `sampleQuotes`: price, change, changePercent. -/
def sampleQuotes : List (String × (Rat × Rat × Rat)) :=
  [ ("AAPL", (195.89, 2.45, 1.27)),
    ("MSFT", (415.26, -3.22, -0.77)),
    ("GOOGL", (175.43, 1.85, 1.07)),
    ("TSLA", (248.50, -5.30, -2.09)),
    ("AMZN", (186.37, 4.12, 2.26)),
    ("NVDA", (915.75, 12.43, 1.38)),
    ("META", (495.82, -7.18, -1.43)),
    ("NFLX", (642.11, 8.95, 1.41)),
    ("CRM", (284.33, 3.67, 1.31)),
    ("UBER", (72.18, -1.22, -1.66)) ]

/-- Names that every object literal inherits from `Object.prototype`: for these
`sampleQuotes[symbol]` is a truthy built-in without `price`, `change` or
`changePercent`. -/
def objectPrototypeMembers : List String :=
  ["constructor", "hasOwnProperty", "isPrototypeOf", "propertyIsEnumerable", "toLocaleString",
   "toString", "valueOf", "__proto__", "__defineGetter__", "__defineSetter__",
   "__lookupGetter__", "__lookupSetter__"]

/-- The note carried by every offline sample quote. -/
def offlineNote : String :=
  "Sample data - External APIs currently unavailable due to network restrictions"

/-- Function `getOfflineSampleQuote(symbol)`; `random` holds the three `Math.random()`
draws used when the symbol is not in the table. -/
def getOfflineSampleQuote (symbol : String) (now : Nat) (random : Rat × Rat × Rat) : Quote :=
  let baseData : JsValue × JsValue × JsValue :=
    match jsGet symbol sampleQuotes with
    | some d => (.num (.val d.1), .num (.val d.2.1), .num (.val d.2.2))
    | none =>
      if symbol ∈ objectPrototypeMembers then (.undefined, .undefined, .undefined)
      else
        (.num (.val (mathRound ((random.1 * 500 + 50) * 100) / 100)),
         .num (.val (mathRound ((random.2.1 * 20 - 10) * 100) / 100)),
         .num (.val (mathRound ((random.2.2 * 4 - 2) * 100) / 100)))
  { symbol := .str symbol,
    price := baseData.1,
    change := baseData.2.1,
    changePercent := baseData.2.2,
    timestamp := now,
    provider := "offline-sample",
    note := some offlineNote }

/-- The `switch (provider)` of `getStockQuote`: the adapter call for the selected
provider; a name without a case throws `Unknown provider`. -/
def callAdapter (g : Gateway) (w : World) (now : Nat) (symbol : String) (config : Config)
    (provider : String) : Except JsError Quote × Gateway :=
  if provider = "alphavantage" then
    let r := getAlphaVantageQuote g w now symbol config
    (r.1, r.2.2)
  else if provider = "twelvedata" then getTwelveDataQuote g w now symbol config
  else if provider = "finnhub" then getFinnhubQuote g w now symbol config
  else if provider = "iexcloud" then getIEXCloudQuote g w now symbol config
  else if provider = "polygon" then getPolygonQuote g w now symbol config
  else if provider = "worldtradingdata" then getWorldTradingDataQuote g w now symbol config
  else if provider = "marketstack" then getMarketStackQuote g w now symbol config
  else (.error { message := "Unknown provider: " ++ provider }, g)

/-- The error thrown by `getStockQuote` when `getBestProvider` returns `null`. -/
def noProviderError : JsError :=
  { message := "No available API providers with remaining capacity" }

/-- Function `getStockQuote(symbol)`.  Returns the quote or the exception that escapes to
the caller, and the state left behind. -/
def getStockQuote (g : Gateway) (w : World) (now : Nat) (symbol : String) :
    Except JsError Quote × Gateway :=
  let cacheKey := "quote_" ++ symbol
  match getCachedData g w now cacheKey with
  | (some cached, g1) => (.ok cached, g1)
  | (none, g1) =>
    let g2 := checkAndResetRateLimits g1 w now
    match getApiConfig g2 w now with
    | .error e => (.error e, g2)
    | .ok config =>
      match getBestProvider g2 w now config with
      | (.error e, _, g3) => (.error e, g3)
      | (.ok none, _, g3) => (.error noProviderError, g3)
      | (.ok (some provider), config', g3) =>
        if provider = "" then (.error noProviderError, g3) else
        match callAdapter g3 w now symbol config' provider with
        | (.ok quote, g4) => (.ok quote, setCachedData g4 w now cacheKey quote 5)
        | (.error _, g4) => (.ok (getOfflineSampleQuote symbol now w.random), g4)

/-! ## Vocabulary of the statements and sample states -/

/-- The part of a provider record that the eligibility checks and the sort read
at time `now`: the `enabled` flag, `priority`, `dailyLimit`, whether an
auto-disable window is running and whether a `resetTime` is pending. -/
structure ProviderView where
  enabled : Bool
  priority : Int
  dailyLimit : Int
  disabledNow : Bool
  limitedNow : Bool
  deriving DecidableEq

/-- The view of a record at time `now`. -/
def ProviderConfig.view (now : Nat) (pc : ProviderConfig) : ProviderView :=
  { enabled := pc.enabled,
    priority := pc.priority,
    dailyLimit := pc.dailyLimit,
    disabledNow := timeTruthy pc.disabledUntil && decide ((now : Int) < pc.disabledUntil.getD 0),
    limitedNow := timeTruthy pc.resetTime && decide ((now : Int) < pc.resetTime.getD 0) }

/-- The view of the record a configuration holds under `name`. -/
def viewOf (now : Nat) (config : Config) (name : String) : Option ProviderView :=
  (jsGet name config.providers).map (ProviderConfig.view now)

/-- Two configurations whose records look the same to the eligibility checks. -/
def SameViews (now : Nat) (c c' : Config) : Prop :=
  ∀ name, viewOf now c name = viewOf now c' name

/-- The value `checkProviderAvailability` returns, read off a view. -/
def availableOf : Option ProviderView → Bool
  | none => false
  | some v => v.enabled && !v.disabledNow

/-- The value `hasCapacity` returns, read off a view and the ledger record. -/
def capacityOf : Option ProviderView → Option RateLimitState → Except JsError Bool
  | none, _ => .ok false
  | some v, limits =>
    if !v.enabled then .ok false
    else if v.limitedNow then .ok false
    else match limits with
      | none => .error (typeError "requests")
      | some l => .ok (decide (l.requests < v.dailyLimit))

/-- Outcome of the two checks of `getBestProvider` for `name`, read off the
views of `config` and the ledger `rl`. -/
def eligibleOf (now : Nat) (config : Config) (rl : List (String × RateLimitState))
    (name : String) : Except JsError Bool :=
  if availableOf (viewOf now config name) then
    capacityOf (viewOf now config name) (jsGet name rl)
  else .ok false

/-- Whether `name` passes both checks. -/
def isEligible (now : Nat) (config : Config) (rl : List (String × RateLimitState))
    (name : String) : Bool :=
  match eligibleOf now config rl name with
  | .ok true => true
  | _ => false

/-- The `priority` of the record `config` holds under `name` (`0` without one). -/
def priorityOf (config : Config) (name : String) : Int :=
  ((jsGet name config.providers).map (fun pc => pc.priority)).getD 0

/-- Name and priority of a pushed entry: all that the sort and the result read. -/
def entryKey (e : String × ProviderConfig) : String × Int := (e.1, e.2.priority)

/-- Provider `name` passes both checks of `getBestProvider` on `config`:
`checkProviderAvailability` returns `true` and `hasCapacity` returns `true`. -/
def PassesChecks (g : Gateway) (w : World) (now : Nat) (config : Config) (name : String) : Prop :=
  (checkProviderAvailability g w now name config).1 = true
    ∧ (hasCapacity g now name config).1 = .ok true

/-- The record's `resetTime` is non-null and still in the future. -/
def ResetPending (now : Nat) (pc : ProviderConfig) : Prop :=
  ∃ t, pc.resetTime = some t ∧ (now : Int) < t

/-- A sequence of `incrementRateLimit(provider)` calls, each with its own
world and clock reading. -/
def incrementMany (g : Gateway) (provider : String) (calls : List (World × Nat)) : Gateway :=
  calls.foldl (fun st c => incrementRateLimit st c.1 c.2 provider) g

/-- The upstream call fails: `fetch` rejects, the status is not OK, or the body
does not parse. -/
def FetchResult.failed : FetchResult → Bool
  | .throws _ => true
  | .response ok _ _ body =>
    !ok || (match body with
      | .error _ => true
      | .ok _ => false)

/-- A provider record with a daily limit of 10 and no pending reset. -/
def sampleProvider (enabled : Bool) (priority : Int) : ProviderConfig :=
  { enabled := enabled, priority := priority, apiKey := none, baseUrl := "https://example.test",
    dailyLimit := 10, minuteLimit := 5, supportsBulk := false, callsToday := 0,
    resetTime := none }

/-- A configuration with `providerA` before `providerB`. -/
def sampleConfig (a b : ProviderConfig) : Config :=
  { providers := [("providerA", a), ("providerB", b)], lastUpdated := 0 }

/-- A file-backed gateway with empty caches and the given ledger and
configuration file. -/
def sampleGateway (rateLimits : List (String × RateLimitState)) (fileConfig : Option Config) :
    Gateway :=
  { useMongoDb := false, env := [], mongoConfig := none, fileConfig := fileConfig,
    mongoRateLimits := none, fileRateLimits := none, mongoCache := [], fileCache := none,
    cache := [], rateLimits := rateLimits, providerFailureCount := [] }

/-- A ledger for `providerA` and `providerB` with the given request counts. -/
def sampleLedger (a b : Int) : List (String × RateLimitState) :=
  [("providerA", { requests := a, lastReset := 0 }), ("providerB", { requests := b, lastReset := 0 })]

/-- A ledger in which each of the eight providers has a record with zero
requests in a window that started at `now` (the ledger right after every window
was reset). -/
def freshLedger (now : Nat) : List (String × RateLimitState) :=
  providerNames.map (fun p => (p, { requests := 0, lastReset := (now : Int) }))

/-- A ledger in which each of the eight providers has used `n` requests. -/
def usedLedger (now : Nat) (n : Int) : List (String × RateLimitState) :=
  providerNames.map (fun p => (p, { requests := n, lastReset := (now : Int) }))

/-- The default provider table with every provider switched off. -/
def allDisabledConfig : Config :=
  { providers := (defaultProviders [] 0).map (fun e => (e.1, { e.2 with enabled := false })),
    lastUpdated := 0 }

/-- A world in which every upstream request dies with a DNS failure. -/
def networkDown : World :=
  { fetch := fun _ => .throws
      { message := "request failed, reason: getaddrinfo ENOTFOUND api.twelvedata.com",
        code := some "ENOTFOUND" } }

/-- A quote as a provider adapter would return it. -/
def sampleQuote : Quote :=
  { symbol := .str "MSFT", price := .num (.val 415), change := .num (.val 1),
    changePercent := .num (.val 2), timestamp := 0, provider := "twelvedata" }

/-- What `checkAndResetRateLimits` does to one ledger record at time `now`:
a record whose window has elapsed restarts at zero, any other is kept. -/
def resetRecord (now : Nat) (r : RateLimitState) : RateLimitState :=
  if shouldResetRateLimit now r.lastReset then { requests := 0, lastReset := (now : Int) } else r

/-- Twenty-four hours in milliseconds. -/
def dayMs : Int := 24 * 60 * 60 * 1000

/-- What one environment override does to the record of `name`: the `apiKey`
becomes the (non-empty) environment value. -/
def overrideRecord (env : List (String × String)) (name : String) (pc : ProviderConfig) :
    ProviderConfig :=
  match jsGet name env with
  | some key => if key = "" then pc else { pc with apiKey := some key }
  | none => pc

/-- Whether the environment supplies a (truthy) credential for `name`. -/
def needsOverride (env : List (String × String)) (name : String) : Bool :=
  match jsGet name env with
  | some key => decide (key ≠ "")
  | none => false

/-- The consecutive-failure count `providerFailureCount.get(provider) || 0`. -/
def failureCount (g : Gateway) (provider : String) : Nat :=
  (jsGet provider g.providerFailureCount).getD 0

/-- A sequence of `handleProviderFailure(provider, error)` calls, each with its
own world, clock reading and error. -/
def failMany (g : Gateway) (provider : String) (calls : List (World × Nat × JsError)) : Gateway :=
  calls.foldl (fun st c => (handleProviderFailure st c.1 c.2.1 provider c.2.2).2) g

/-- A world without storage faults. -/
def World.reliable (w : World) : Bool :=
  !w.mongoThrows && !w.fileReadFails && !w.fileWriteFails

/-- The reason text written by the auto-disable trip. -/
def autoDisableReason : String := "Network/Firewall restrictions detected"

/-- The configuration loaded from the store of `g` (by any fault-free
`getApiConfig`) holds `provider` with `enabled = true`. -/
def EnabledIn (g : Gateway) (provider : String) : Prop :=
  ∀ (w : World) (now : Nat), w.reliable = true →
    ∃ config pc, getApiConfig g w now = .ok config
      ∧ jsGet provider config.providers = some pc ∧ pc.enabled = true

/-- The configuration loaded from the store of `g` (by any fault-free
`getApiConfig`) holds `provider` auto-disabled up to time `tEnd`: `enabled = false`,
`disabledUntil = tEnd`, the reason set, and `checkProviderAvailability` false. -/
def AutoDisabled (g : Gateway) (provider : String) (tEnd : Int) : Prop :=
  ∀ (w : World) (now : Nat), w.reliable = true →
    ∃ config pc, getApiConfig g w now = .ok config
      ∧ jsGet provider config.providers = some pc ∧ pc.enabled = false
      ∧ pc.disabledUntil = some tEnd ∧ pc.disabledReason = some autoDisableReason
      ∧ (checkProviderAvailability g w now provider config).1 = false

/-- The state after a counted network failure that does not trip. -/
def countState (g : Gateway) (p : String) : Gateway :=
  { g with providerFailureCount := jsSet p (failureCount g p + 1) g.providerFailureCount }

/-- The record written by the auto-disable trip at time `now`. -/
def tripRecord (now : Nat) (pc : ProviderConfig) : ProviderConfig :=
  { pc with enabled := false,
            disabledUntil := some ((now : Int) + PROVIDER_DISABLE_DURATION),
            disabledReason := some autoDisableReason }

/-- The state after the failure that trips the auto-disable of `p`, whose
record in the freshly loaded `config` is `pc`. -/
def tripState (g : Gateway) (w : World) (now : Nat) (p : String) (config : Config)
    (pc : ProviderConfig) : Gateway :=
  let config' : Config := { config with providers := jsSet p (tripRecord now pc) config.providers }
  let saved := saveApiConfig (countState g p) w now config'
  { saved.2 with providerFailureCount := jsSet p 0 saved.2.providerFailureCount }

/-- The clock reading of the last failure that tripped the auto-disable in a
run of `k` counted failures: call number `k - k % 3` (index `k - k % 3 - 1`). -/
def lastTripIndex (k : Nat) : Nat := k - k % 3 - 1

/-- A gateway whose configuration file is `sampleConfig` with both providers
enabled, and whose ledger has a record for both. -/
def abGateway : Gateway :=
  sampleGateway (sampleLedger 0 0) (some (sampleConfig (sampleProvider true 2) (sampleProvider true 1)))

/-- A timeout error as `fetch` raises it. -/
def timeoutError : JsError :=
  { message := "network timeout at: https://example.test/quote", code := some "ETIMEDOUT" }

/-- Three network failures at times 1000, 2000 and 3000. -/
def threeFailures : List (World × Nat × JsError) :=
  [({}, 1000, timeoutError), ({}, 2000, timeoutError), ({}, 3000, timeoutError)]

/-- A sequence of `makeApiCall(url, provider)` calls, each with its own world,
clock reading and URL. -/
def callMany (g : Gateway) (provider : String) (calls : List (World × Nat × String)) : Gateway :=
  calls.foldl (fun st c => (makeApiCall st c.1 c.2.1 c.2.2 provider).2) g

/-- The upstream call succeeds with body `data`: an OK status and a body that parses. -/
def FetchResult.succeeded (r : FetchResult) (data : JsValue) : Prop :=
  ∃ status statusText, r = .response true status statusText (.ok data)

/-- The state after a successful `makeApiCall`: one request sent, the call
recorded in the ledger, the failure count of the provider cleared. -/
def successState (g : Gateway) (w : World) (now : Nat) (p : String) : Gateway :=
  let g1 := incrementRateLimit { g with fetchCalls := g.fetchCalls + 1 } w now p
  { g1 with providerFailureCount := jsSet p 0 g1.providerFailureCount }

/-- A world whose upstream answers every request with `200 OK` and body `body`. -/
def respondsWith (body : JsValue) : World :=
  { fetch := fun _ => .response true 200 "OK" (.ok body) }

/-- A TwelveData quote payload. -/
def twelveDataBody : JsValue :=
  .obj [("symbol", .str "MSFT"), ("close", .str "415.26"), ("change", .str "-3.22"),
        ("percent_change", .str "-0.77")]

/-- The record written by `handleAlphaVantageRateLimit` at time `now`. -/
def limitedRecord (w : World) (now : Nat) (pc : ProviderConfig) : ProviderConfig :=
  { pc with callsToday := pc.dailyLimit, resetTime := some (tomorrowTime w now) }

/-- An Alpha Vantage rate-limit payload as the provider sends it with status 200. -/
def alphaVantageNoteBody : JsValue :=
  .obj [("Note", .str "Thank you for using Alpha Vantage! Our standard API rate limit is 25 requests per day.")]

/-- A world in which Alpha Vantage answers with its rate-limit note and the host
is five hours behind UTC today and four hours behind tomorrow (the day on which
daylight-saving time starts in New York). -/
def springForwardWorld : World :=
  { fetch := fun _ => .response true 200 "OK" (.ok alphaVantageNoteBody),
    tzOffset := fun _ => -18000000,
    tzOffsetLocal := fun _ => -14400000 }

/-- A configuration file holding only an Alpha Vantage record without pending reset. -/
def alphaVantageOnlyConfig : Config :=
  { providers := [("alphavantage", sampleProvider true 1)], lastUpdated := 0 }

/-- A file-backed gateway whose configuration file holds only an enabled Alpha
Vantage record without pending reset, with a fresh ledger. -/
def alphaVantageGateway : Gateway :=
  sampleGateway (freshLedger 0) (some alphaVantageOnlyConfig)

/-- A stored configuration whose TwelveData record holds the key `stored-key`. -/
def storedKeyConfig : Config :=
  { providers := [("twelvedata", { sampleProvider true 1 with apiKey := some "stored-key" })],
    lastUpdated := 0 }

/-- A gateway whose environment supplies `env-key` for TwelveData while both
the configuration document and the configuration file hold `storedKeyConfig`;
the flag selects the document store or the file. -/
def envKeyGateway (useMongoDb : Bool) : Gateway :=
  { sampleGateway (freshLedger 0) (some storedKeyConfig) with
    useMongoDb := useMongoDb, env := [("twelvedata", "env-key")],
    mongoConfig := some storedKeyConfig }

/-- What an adapter may do to the state `g`: nothing, or one `makeApiCall` for
the provider `name`. -/
def AtMostOneCall (g : Gateway) (w : World) (now : Nat) (name : String) (s : Gateway) : Prop :=
  s = g ∨ ∃ url, s = (makeApiCall g w now url name).2

/-- A Finnhub quote payload. -/
def finnhubBody : JsValue :=
  .obj [("c", .num (.val 415)), ("d", .num (.val 1)), ("dp", .num (.val 2))]

/-- A world in which requests to TwelveData time out and every other upstream
answers `200 OK` with a Finnhub quote. -/
def twelveDataDown : World :=
  { fetch := fun url =>
      if ("https://api.twelvedata.com".toList).isPrefixOf url.toList then .throws timeoutError
      else .response true 200 "OK" (.ok finnhubBody) }

/-- The character of a decimal digit. -/
def digitChar (d : Fin 10) : Char := Char.ofNat (48 + d.val)

/-- A decimal numeral: an optional minus sign, the digits before the point and
the digits after it (no point is written when there are none). -/
structure Numeral where
  neg : Bool
  intDigits : List (Fin 10)
  fracDigits : List (Fin 10)

/-- The characters of a numeral as it is written. -/
def Numeral.chars (n : Numeral) : List Char :=
  (if n.neg then ['-'] else []) ++ (n.intDigits.map digitChar ++
    (if n.fracDigits.isEmpty then [] else '.' :: n.fracDigits.map digitChar))

/-- The number a numeral denotes: its digit string read in base ten, divided by
ten to the number of fraction digits, with the sign. -/
def Numeral.value (n : Numeral) : Rat :=
  let m : Rat := ((Nat.ofDigits 10 ((n.intDigits ++ n.fracDigits).reverse.map Fin.val) : Nat) : Rat)
    / (10 : Rat) ^ n.fracDigits.length
  if n.neg then -m else m

/-- An Alpha Vantage quote payload as the provider sends it. -/
def alphaVantageQuoteFields : List (String × JsValue) :=
  [("01. symbol", .str "MSFT"), ("05. price", .str "415.2600"), ("09. change", .str "-3.2200"),
   ("10. change percent", .str "-0.7700%")]

/-- The response body carrying `alphaVantageQuoteFields`. -/
def alphaVantageQuoteBody : JsValue :=
  .obj [("Global Quote", .obj alphaVantageQuoteFields)]

/-- The advisory note of a Polygon quote. -/
def polygonNote : String := "Last trade price only - change data not available"

/-- A Polygon last-trade payload. -/
def polygonBody : JsValue :=
  .obj [("status", .str "OK"), ("results", .obj [("T", .str "MSFT"), ("p", .num (.val 415))])]

/-- A configuration file holding only an enabled Polygon record. -/
def polygonOnlyConfig : Config :=
  { providers := [("polygon", sampleProvider true 1)], lastUpdated := 0 }

/-- The entry the Mongo cache collection offers for `key`: none when the
document store is not in use or the read throws. -/
def mongoEntry (g : Gateway) (w : World) (key : String) : Option CacheEntry :=
  if g.useMongoDb && !w.mongoThrows then jsGet key g.mongoCache else none

/-- The entry the cache file offers for `key`. -/
def fileEntry (g : Gateway) (w : World) (key : String) : Option CacheEntry :=
  jsGet key (readJsonFile w g.fileCache [])

/-- An entry that exists and whose `expiresAt` is later than `now`. -/
def LiveEntry (now : Nat) (e : Option CacheEntry) (c : CacheEntry) : Prop :=
  e = some c ∧ (now : Int) < c.expiresAt

/-- A gateway whose cache file holds `sampleQuote` for MSFT until time 5000. -/
def fileCachedGateway : Gateway :=
  { sampleGateway (freshLedger 0) none with
    fileCache := some [("quote_MSFT", { data := sampleQuote, expiresAt := 5000 })] }

/-- Persisted rate-limit data with records for Alpha Vantage (3 requests) and
TwelveData (7 requests) only. -/
def partialRateLimitData : RateLimitData :=
  { entries := [("alphavantage", { requests := 3, lastReset := 500 }),
                ("twelvedata", { requests := 7, lastReset := 600 })],
    lastUpdated := 700 }

/-- The seven provider names with a case in the `switch` of `getStockQuote`. -/
def adapterNames : List String :=
  ["alphavantage", "twelvedata", "finnhub", "iexcloud", "polygon", "worldtradingdata",
   "marketstack"]

/-- An Alpha Vantage error payload, sent with status 200. -/
def alphaVantageErrorBody : JsValue :=
  .obj [("Error Message", .str "Invalid API call. Please retry or visit the documentation.")]

/-- A payload with an empty `data` array, as WorldTradingData and MarketStack
send for an unknown symbol. -/
def emptyDataBody : JsValue := .obj [("data", .arr [])]

/-- A configuration file holding only an enabled WorldTradingData record. -/
def worldTradingDataOnlyConfig : Config :=
  { providers := [("worldtradingdata", sampleProvider true 1)], lastUpdated := 0 }

/-- A configuration file holding only an enabled Quandl record. -/
def quandlOnlyConfig : Config :=
  { providers := [("quandl", sampleProvider true 7)], lastUpdated := 0 }

/-- A ledger in which every provider but Quandl is far above its daily limit. -/
def quandlLedger : List (String × RateLimitState) :=
  providerNames.map (fun p =>
    (p, { requests := if p = "quandl" then 0 else 1000000, lastReset := 0 }))

/-! ## Facts about the embedding -/

/-- The integer form of `shouldResetRateLimit` is the source's test on hours. -/
theorem shouldResetRateLimit_hours (now : Nat) (lastReset : Int) :
    shouldResetRateLimit now lastReset
      = decide ((((now : Int) - lastReset : Int) : Rat) / (1000 * 60 * 60) ≥ 24) := by
  unfold shouldResetRateLimit
  have h : (24 * (1000 * 60 * 60) ≤ (now : Int) - lastReset)
      ↔ ((((now : Int) - lastReset : Int) : Rat) / (1000 * 60 * 60) ≥ 24) := by
    rw [ge_iff_le, le_div_iff₀ (by norm_num)]
    constructor
    · intro h
      have : ((24 * (1000 * 60 * 60) : Int) : Rat) ≤ (((now : Int) - lastReset : Int) : Rat) := by
        exact_mod_cast h
      push_cast at this ⊢
      linarith
    · intro h
      have : ((24 * (1000 * 60 * 60) : Int) : Rat) ≤ (((now : Int) - lastReset : Int) : Rat) := by
        push_cast at h ⊢
        linarith
      exact_mod_cast this
  simp only [h]

theorem jsGet_jsSet {α : Type} (k k' : String) (v : α) (o : List (String × α)) :
    jsGet k' (jsSet k v o) = if k' = k then some v else jsGet k' o := by
  induction o with
  | nil =>
    by_cases h : k' = k
    · simp [jsSet, jsGet, h]
    · have h' : ¬ k = k' := fun e => h e.symm
      simp [jsSet, jsGet, h, h']
  | cons e rest ih =>
    obtain ⟨k0, v0⟩ := e
    by_cases h0 : k0 = k
    · by_cases h : k' = k
      · simp [jsSet, jsGet, h0, h]
      · have h' : ¬ k = k' := fun e => h e.symm
        simp [jsSet, jsGet, h0, h, h']
    · by_cases h : k' = k
      · subst h
        simp [jsSet, jsGet, h0, ih]
      · by_cases h1 : k0 = k'
        · simp [jsSet, jsGet, h0, h, h1]
        · simp [jsSet, jsGet, h0, h, h1, ih]

theorem jsGet_jsSet_self {α : Type} (k : String) (v : α) (o : List (String × α)) :
    jsGet k (jsSet k v o) = some v := by
  simp [jsGet_jsSet]

theorem jsGet_jsSet_other {α : Type} (k k' : String) (v : α) (o : List (String × α))
    (h : k' ≠ k) : jsGet k' (jsSet k v o) = jsGet k' o := by
  simp [jsGet_jsSet, h]

theorem jsHas_jsSet_self {α : Type} (k : String) (v : α) (o : List (String × α)) :
    jsHas k (jsSet k v o) = true := by
  simp [jsHas, jsGet_jsSet_self]

theorem SameViews.refl (now : Nat) (c : Config) : SameViews now c c := fun _ => rfl

theorem SameViews.trans {now : Nat} {a b c : Config} (h1 : SameViews now a b)
    (h2 : SameViews now b c) : SameViews now a c := fun n => (h1 n).trans (h2 n)

theorem viewOf_jsSet (now : Nat) (config : Config) (name n : String) (pc pc' : ProviderConfig)
    (lastUpdated : Nat) (hget : jsGet name config.providers = some pc)
    (hview : pc'.view now = pc.view now) :
    viewOf now { providers := jsSet name pc' config.providers, lastUpdated := lastUpdated } n
      = viewOf now config n := by
  unfold viewOf
  simp only [jsGet_jsSet]
  by_cases h : n = name
  · subst h
    simp [hget, hview]
  · simp [h]

theorem saveApiConfig_providers (g : Gateway) (w : World) (now : Nat) (config : Config) :
    (saveApiConfig g w now config).1.providers = config.providers := by
  unfold saveApiConfig
  split <;> rfl

theorem saveApiConfig_rateLimits (g : Gateway) (w : World) (now : Nat) (config : Config) :
    (saveApiConfig g w now config).2.rateLimits = g.rateLimits := by
  unfold saveApiConfig
  split <;> rfl

theorem checkProviderAvailability_result (g : Gateway) (w : World) (now : Nat) (name : String)
    (config : Config) :
    (checkProviderAvailability g w now name config).1 = availableOf (viewOf now config name) := by
  unfold checkProviderAvailability viewOf
  cases hget : jsGet name config.providers with
  | none => simp [availableOf]
  | some pc =>
    simp only [Option.map_some', availableOf, ProviderConfig.view]
    cases hen : pc.enabled
    · simp
    · cases ht : timeTruthy pc.disabledUntil
      · simp
      · by_cases hlt : (now : Int) < pc.disabledUntil.getD 0
        · simp [hlt]
        · simp [hlt, not_lt.mp hlt]

theorem checkProviderAvailability_rateLimits (g : Gateway) (w : World) (now : Nat)
    (name : String) (config : Config) :
    (checkProviderAvailability g w now name config).2.2.rateLimits = g.rateLimits := by
  unfold checkProviderAvailability
  split
  · rfl
  · split
    · rfl
    · split
      · rfl
      · split
        · simp [saveApiConfig_rateLimits]
        · rfl

theorem checkProviderAvailability_sameViews (g : Gateway) (w : World) (now : Nat)
    (name : String) (config : Config) :
    SameViews now (checkProviderAvailability g w now name config).2.1 config := by
  intro n
  unfold checkProviderAvailability
  cases hget : jsGet name config.providers with
  | none => rfl
  | some pc =>
    simp only
    cases hen : pc.enabled
    · rfl
    · cases ht : timeTruthy pc.disabledUntil
      · rfl
      · by_cases hlt : (now : Int) < pc.disabledUntil.getD 0
        · simp [hlt]
        · simp only [hlt, not_lt.mp hlt, decide_False, decide_True, Bool.and_false,
            Bool.and_true, Bool.not_true, Bool.false_eq_true, if_false, if_true]
          have hv : ({ pc with enabled := true, disabledUntil := none, disabledReason := none } :
              ProviderConfig).view now = pc.view now := by
            simp [ProviderConfig.view, hen, ht, hlt, timeTruthy]
          have := viewOf_jsSet now config name n pc _ now hget hv
          unfold viewOf at this ⊢
          rw [saveApiConfig_providers]
          exact this

theorem checkProviderReset_sameViews (now : Nat) (name : String) (config : Config)
    (r : Bool × Config) (h : checkProviderReset now name config = .ok r) :
    SameViews now r.2 config := by
  intro n
  unfold checkProviderReset at h
  cases hget : jsGet name config.providers with
  | none => simp [hget] at h
  | some pc =>
    simp only [hget] at h
    cases ht : timeTruthy pc.resetTime
    · simp [ht] at h
      subst h
      rfl
    · by_cases hge : (now : Int) ≥ pc.resetTime.getD 0
      · simp only [ht, hge, decide_True, Bool.and_true, if_true] at h
        injection h with h
        subst h
        have hv : ({ pc with resetTime := none, callsToday := 0, callsThisMinute := some 0 } :
            ProviderConfig).view now = pc.view now := by
          have : ¬ ((now : Int) < pc.resetTime.getD 0) := not_lt.mpr hge
          simp [ProviderConfig.view, ht, this, timeTruthy]
        exact viewOf_jsSet now config name n pc _ config.lastUpdated hget hv
      · simp [ht, hge] at h
        subst h
        rfl

theorem checkProviderReset_ok (now : Nat) (name : String) (config : Config)
    (pc : ProviderConfig) (hget : jsGet name config.providers = some pc) :
    ∃ r, checkProviderReset now name config = .ok r := by
  unfold checkProviderReset
  simp only [hget]
  split <;> exact ⟨_, rfl⟩

theorem hasCapacity_sameViews (g : Gateway) (now : Nat) (name : String) (config : Config) :
    SameViews now (hasCapacity g now name config).2 config := by
  unfold hasCapacity
  cases hget : jsGet name config.providers with
  | none => exact SameViews.refl _ _
  | some pc0 =>
    simp only
    cases hen : pc0.enabled
    · exact SameViews.refl _ _
    · obtain ⟨r, hr⟩ := checkProviderReset_ok now name config pc0 hget
      have hs := checkProviderReset_sameViews now name config r hr
      simp only [hr, Bool.not_true, Bool.false_eq_true, if_false]
      split
      · exact hs
      · split
        · exact hs
        · split <;> exact hs

theorem hasCapacity_result (g : Gateway) (now : Nat) (name : String) (config : Config) :
    (hasCapacity g now name config).1
      = capacityOf (viewOf now config name) (jsGet name g.rateLimits) := by
  unfold hasCapacity
  cases hget : jsGet name config.providers with
  | none => simp [viewOf, hget, capacityOf]
  | some pc0 =>
    simp only
    cases hen : pc0.enabled
    · simp [viewOf, hget, capacityOf, ProviderConfig.view, hen]
    · obtain ⟨r, hr⟩ := checkProviderReset_ok now name config pc0 hget
      have hs := checkProviderReset_sameViews now name config r hr name
      simp only [hr, Bool.not_true, Bool.false_eq_true, if_false]
      have hv0 : viewOf now config name = some (pc0.view now) := by simp [viewOf, hget]
      rw [hv0] at hs
      cases hget1 : jsGet name r.2.providers with
      | none => simp [viewOf, hget1] at hs
      | some pc =>
        have hv : pc.view now = pc0.view now := by simpa [viewOf, hget1] using hs
        have hlim : (timeTruthy pc.resetTime && decide ((now : Int) < pc.resetTime.getD 0))
            = (pc0.view now).limitedNow := by
          rw [← hv]; rfl
        have hdl : pc.dailyLimit = (pc0.view now).dailyLimit := by
          rw [← hv]; rfl
        have hen' : (pc0.view now).enabled = true := hen
        simp only [hlim, hdl, hv0, capacityOf, hen', Bool.not_true, Bool.false_eq_true, if_false]
        cases hl : (pc0.view now).limitedNow
        · cases hrl : jsGet name g.rateLimits <;> simp
        · simp

theorem priorityOf_of_viewOf {now : Nat} {c c0 : Config} {name : String} {pc : ProviderConfig}
    (hget : jsGet name c.providers = some pc) (hv : viewOf now c name = viewOf now c0 name) :
    pc.priority = priorityOf c0 name := by
  unfold viewOf at hv
  rw [hget] at hv
  unfold priorityOf
  cases h0 : jsGet name c0.providers with
  | none => simp [h0] at hv
  | some pc0 =>
    simp only [h0, Option.map_some', Option.some.injEq] at hv
    have : (pc.view now).priority = (pc0.view now).priority := by rw [hv]
    simpa [ProviderConfig.view] using this

theorem collectAvailable_spec (w : World) (now : Nat) (c0 : Config)
    (rl : List (String × RateLimitState)) :
    ∀ (names : List String) (c : Config) (g : Gateway) (acc : List (String × ProviderConfig))
      (res : List (String × ProviderConfig)) (c' : Config) (g' : Gateway),
      SameViews now c c0 → g.rateLimits = rl →
      collectAvailable w now names c g acc = (.ok res, c', g') →
      res.map entryKey
        = acc.map entryKey
          ++ (names.filter (isEligible now c0 rl)).map (fun n => (n, priorityOf c0 n)) := by
  intro names
  induction names with
  | nil =>
    intro c g acc res c' g' _ _ h
    simp only [collectAvailable, Prod.mk.injEq, Except.ok.injEq] at h
    simp [h.1]
  | cons name rest ih =>
    intro c g acc res c' g' hc hg h
    rw [collectAvailable] at h
    have ha1 := checkProviderAvailability_result g w now name c
    have ha2 := checkProviderAvailability_sameViews g w now name c
    have ha3 := checkProviderAvailability_rateLimits g w now name c
    rw [hc name] at ha1
    have hc1 : SameViews now (checkProviderAvailability g w now name c).2.1 c0 := ha2.trans hc
    have hg1 : (checkProviderAvailability g w now name c).2.2.rateLimits = rl := ha3.trans hg
    cases hav : availableOf (viewOf now c0 name) with
    | false =>
      rw [ha1, hav] at h
      simp only [Bool.false_eq_true, if_false] at h
      have hne : isEligible now c0 rl name = false := by
        simp [isEligible, eligibleOf, hav]
      rw [ih _ _ _ _ _ _ hc1 hg1 h]
      simp [List.filter_cons, hne]
    | true =>
      rw [ha1, hav] at h
      simp only [if_true] at h
      have hr := hasCapacity_result (checkProviderAvailability g w now name c).2.2 now name
        (checkProviderAvailability g w now name c).2.1
      have hs := hasCapacity_sameViews (checkProviderAvailability g w now name c).2.2 now name
        (checkProviderAvailability g w now name c).2.1
      rw [hc1 name, hg1] at hr
      have hc2 := hs.trans hc1
      have hel : eligibleOf now c0 rl name
          = capacityOf (viewOf now c0 name) (jsGet name rl) := by
        simp [eligibleOf, hav]
      revert h hr hc2
      generalize hasCapacity (checkProviderAvailability g w now name c).2.2 now name
        (checkProviderAvailability g w now name c).2.1 = hcres
      obtain ⟨r, c2⟩ := hcres
      intro h hr hc2
      simp only at hr hc2
      cases r with
      | error e => simp at h
      | ok b =>
        cases b with
        | false =>
          simp only at h
          have hne : isEligible now c0 rl name = false := by
            simp [isEligible, hel, ← hr]
          rw [ih _ _ _ _ _ _ hc2 hg1 h]
          simp [List.filter_cons, hne]
        | true =>
          simp only at h
          have hne : isEligible now c0 rl name = true := by
            simp [isEligible, hel, ← hr]
          cases hget : jsGet name c2.providers with
          | none =>
            have hv := hc2 name
            simp only [viewOf, hget, Option.map_none'] at hv
            have : viewOf now c0 name = none := by simpa [viewOf] using hv.symm
            rw [this] at hav
            simp [availableOf] at hav
          | some pc2 =>
            rw [hget] at h
            simp only at h
            have hp := priorityOf_of_viewOf hget (hc2 name)
            rw [ih _ _ _ _ _ _ hc2 hg1 h]
            simp [List.filter_cons, hne, entryKey, hp]

theorem capacityOf_some (v : Option ProviderView) (l : RateLimitState) :
    ∃ b, capacityOf v (some l) = .ok b := by
  cases v with
  | none => exact ⟨false, rfl⟩
  | some v =>
    simp only [capacityOf]
    cases v.enabled <;> cases v.limitedNow <;> simp

theorem collectAvailable_total (w : World) (now : Nat) (rl : List (String × RateLimitState)) :
    ∀ (names : List String) (c : Config) (g : Gateway) (acc : List (String × ProviderConfig)),
      g.rateLimits = rl → (∀ n ∈ names, (jsGet n rl).isSome = true) →
      ∃ res c' g', collectAvailable w now names c g acc = (.ok res, c', g') := by
  intro names
  induction names with
  | nil =>
    intro c g acc _ _
    exact ⟨acc, c, g, rfl⟩
  | cons name rest ih =>
    intro c g acc hg hled
    have hrest : ∀ n ∈ rest, (jsGet n rl).isSome = true :=
      fun n hn => hled n (List.mem_cons_of_mem _ hn)
    have hg1 : (checkProviderAvailability g w now name c).2.2.rateLimits = rl :=
      (checkProviderAvailability_rateLimits g w now name c).trans hg
    rw [collectAvailable]
    cases hav : (checkProviderAvailability g w now name c).1 with
    | false =>
      simp only [Bool.false_eq_true, if_false]
      exact ih _ _ _ hg1 hrest
    | true =>
      simp only [if_true]
      have hr := hasCapacity_result (checkProviderAvailability g w now name c).2.2 now name
        (checkProviderAvailability g w now name c).2.1
      rw [hg1] at hr
      obtain ⟨l, hl⟩ := Option.isSome_iff_exists.mp (hled name (List.mem_cons_self _ _))
      rw [hl] at hr
      obtain ⟨b, hb⟩ := capacityOf_some
        (viewOf now (checkProviderAvailability g w now name c).2.1 name) l
      rw [hb] at hr
      revert hr
      generalize hasCapacity (checkProviderAvailability g w now name c).2.2 now name
        (checkProviderAvailability g w now name c).2.1 = hcres
      obtain ⟨r, c2⟩ := hcres
      intro hr
      simp only at hr
      subst hr
      cases b with
      | false => exact ih _ _ _ hg1 hrest
      | true =>
        simp only
        cases jsGet name c2.providers with
        | none => exact ih _ _ _ hg1 hrest
        | some pc2 => exact ih _ _ _ hg1 hrest

theorem head_sortByPriority (l : List (String × ProviderConfig)) (x : String × ProviderConfig)
    (h : (sortByPriority l).head? = some x) :
    ∃ l1 l2, l = l1 ++ x :: l2 ∧ (∀ y ∈ l1, x.2.priority < y.2.priority)
      ∧ (∀ y ∈ l2, x.2.priority ≤ y.2.priority) := by
  induction l generalizing x with
  | nil => simp [sortByPriority] at h
  | cons a l ih =>
    unfold sortByPriority at h ih
    rw [List.insertionSort] at h
    cases hs : List.insertionSort (fun a b => a.2.priority ≤ b.2.priority) l with
    | nil =>
      have hl : l = [] := by
        have := congrArg List.length hs
        rw [List.length_insertionSort] at this
        exact List.length_eq_zero.mp this
      subst hl
      rw [hs] at h
      simp only [List.orderedInsert, List.head?_cons, Option.some.injEq] at h
      subst h
      exact ⟨[], [], rfl, by simp, by simp⟩
    | cons b s =>
      obtain ⟨l1, l2, hl, h1, h2⟩ := ih b (by rw [hs]; rfl)
      rw [hs, List.orderedInsert] at h
      by_cases hab : a.2.priority ≤ b.2.priority
      · simp only [hab, if_true, List.head?_cons, Option.some.injEq] at h
        subst h
        refine ⟨[], l, rfl, by simp, ?_⟩
        intro y hy
        rw [hl] at hy
        rcases List.mem_append.mp hy with hy | hy
        · exact le_trans hab (le_of_lt (h1 y hy))
        · rcases List.mem_cons.mp hy with hy | hy
          · subst hy; exact hab
          · exact le_trans hab (h2 y hy)
      · simp only [hab, if_false, List.head?_cons, Option.some.injEq] at h
        subst h
        refine ⟨a :: l1, l2, by rw [hl]; rfl, ?_, h2⟩
        intro y hy
        rcases List.mem_cons.mp hy with hy | hy
        · subst hy; exact not_le.mp hab
        · exact h1 y hy

theorem head_sortByPriority_none (l : List (String × ProviderConfig))
    (h : (sortByPriority l).head? = none) : l = [] := by
  unfold sortByPriority at h
  have hnil : List.insertionSort (fun a b => a.2.priority ≤ b.2.priority) l = [] := by
    cases hs : List.insertionSort (fun a b => a.2.priority ≤ b.2.priority) l with
    | nil => rfl
    | cons b s => rw [hs] at h; simp at h
  have := congrArg List.length hnil
  rw [List.length_insertionSort] at this
  exact List.length_eq_zero.mp this

theorem filter_map_split {α β : Type} (P : α → Bool) (f : α → β) :
    ∀ (names : List α) (k1 : List β) (y : β) (k2 : List β),
      (names.filter P).map f = k1 ++ y :: k2 →
      ∃ n1 p n2, names = n1 ++ p :: n2 ∧ P p = true ∧ f p = y
        ∧ (n1.filter P).map f = k1 ∧ (n2.filter P).map f = k2 := by
  intro names
  induction names with
  | nil => intro k1 y k2 h; simp at h
  | cons a rest ih =>
    intro k1 y k2 h
    cases hP : P a with
    | false =>
      rw [List.filter_cons, hP] at h
      simp only [Bool.false_eq_true, if_false] at h
      obtain ⟨n1, p, n2, hn, hp, hf, h1, h2⟩ := ih k1 y k2 h
      refine ⟨a :: n1, p, n2, by rw [hn]; rfl, hp, hf, ?_, h2⟩
      rw [List.filter_cons, hP]
      simpa using h1
    | true =>
      rw [List.filter_cons, hP] at h
      simp only [if_true, List.map_cons] at h
      cases k1 with
      | nil =>
        simp only [List.nil_append, List.cons.injEq] at h
        exact ⟨[], a, rest, rfl, hP, h.1, rfl, h.2⟩
      | cons b k1' =>
        simp only [List.cons_append, List.cons.injEq] at h
        obtain ⟨n1, p, n2, hn, hp, hf, h1, h2⟩ := ih k1' y k2 h.2
        refine ⟨a :: n1, p, n2, by rw [hn]; rfl, hp, hf, ?_, h2⟩
        rw [List.filter_cons, hP]
        simp [h.1, h1]

theorem isEligible_iff (g : Gateway) (w : World) (now : Nat) (config : Config) (name : String) :
    isEligible now config g.rateLimits name = true ↔
      (checkProviderAvailability g w now name config).1 = true
        ∧ (hasCapacity g now name config).1 = .ok true := by
  rw [checkProviderAvailability_result, hasCapacity_result]
  unfold isEligible eligibleOf
  cases hav : availableOf (viewOf now config name) with
  | false => simp
  | true =>
    simp only [if_true, true_and]
    cases hc : capacityOf (viewOf now config name) (jsGet name g.rateLimits) with
    | error e => simp
    | ok b => cases b <;> simp

theorem getBestProvider_some_spec (g : Gateway) (w : World) (now : Nat) (config : Config)
    (p : String) (c' : Config) (g' : Gateway)
    (h : getBestProvider g w now config = (.ok (some p), c', g')) :
    ∃ n1 n2, config.providers.map Prod.fst = n1 ++ p :: n2
      ∧ isEligible now config g.rateLimits p = true
      ∧ (∀ q ∈ n1, isEligible now config g.rateLimits q = true →
          priorityOf config p < priorityOf config q)
      ∧ (∀ q ∈ n2, isEligible now config g.rateLimits q = true →
          priorityOf config p ≤ priorityOf config q) := by
  unfold getBestProvider at h
  revert h
  cases hcol : collectAvailable w now (config.providers.map Prod.fst) config g [] with
  | mk r rest =>
    obtain ⟨c2, g2⟩ := rest
    cases r with
    | error e => intro h; simp at h
    | ok res =>
      intro h
      simp only [Prod.mk.injEq, Except.ok.injEq] at h
      have hspec := collectAvailable_spec w now config g.rateLimits _ config g [] res c2 g2
        (SameViews.refl _ _) rfl hcol
      simp only [List.map_nil, List.nil_append] at hspec
      cases hhead : (sortByPriority res).head? with
      | none => rw [hhead] at h; simp at h
      | some x =>
        rw [hhead] at h
        simp only [Option.map_some', Option.some.injEq] at h
        obtain ⟨l1, l2, hres, hl1, hl2⟩ := head_sortByPriority res x hhead
        rw [hres, List.map_append, List.map_cons] at hspec
        obtain ⟨n1, p', n2, hn, hp, hf, h1, h2⟩ :=
          filter_map_split (isEligible now config g.rateLimits)
            (fun n => (n, priorityOf config n)) _ _ _ _ hspec.symm
        simp only [entryKey, Prod.mk.injEq] at hf
        have hpp : p' = p := hf.1.trans h.1
        subst hpp
        refine ⟨n1, n2, hn, hp, ?_, ?_⟩
        · intro q hq hqe
          have hmem : (q, priorityOf config q) ∈ l1.map entryKey := by
            rw [← h1]
            exact List.mem_map.mpr ⟨q, List.mem_filter.mpr ⟨hq, hqe⟩, rfl⟩
          obtain ⟨y, hy, hye⟩ := List.mem_map.mp hmem
          simp only [entryKey, Prod.mk.injEq] at hye
          rw [hf.2, ← hye.2]
          exact hl1 y hy
        · intro q hq hqe
          have hmem : (q, priorityOf config q) ∈ l2.map entryKey := by
            rw [← h2]
            exact List.mem_map.mpr ⟨q, List.mem_filter.mpr ⟨hq, hqe⟩, rfl⟩
          obtain ⟨y, hy, hye⟩ := List.mem_map.mp hmem
          simp only [entryKey, Prod.mk.injEq] at hye
          rw [hf.2, ← hye.2]
          exact hl2 y hy

theorem getBestProvider_none_spec (g : Gateway) (w : World) (now : Nat) (config : Config)
    (c' : Config) (g' : Gateway)
    (h : getBestProvider g w now config = (.ok none, c', g')) :
    ∀ q ∈ config.providers.map Prod.fst, isEligible now config g.rateLimits q = false := by
  unfold getBestProvider at h
  revert h
  cases hcol : collectAvailable w now (config.providers.map Prod.fst) config g [] with
  | mk r rest =>
    obtain ⟨c2, g2⟩ := rest
    cases r with
    | error e => intro h; simp at h
    | ok res =>
      intro h
      simp only [Prod.mk.injEq, Except.ok.injEq, Option.map_eq_none'] at h
      have hspec := collectAvailable_spec w now config g.rateLimits _ config g [] res c2 g2
        (SameViews.refl _ _) rfl hcol
      have hnil := head_sortByPriority_none res h.1
      subst hnil
      simp only [List.map_nil, List.nil_append] at hspec
      intro q hq
      by_contra hne
      have hqe : isEligible now config g.rateLimits q = true := by
        cases he : isEligible now config g.rateLimits q with
        | true => rfl
        | false => exact absurd he hne
      have hmem : (q, priorityOf config q)
          ∈ ((config.providers.map Prod.fst).filter (isEligible now config g.rateLimits)).map
              (fun n => (n, priorityOf config n)) :=
        List.mem_map.mpr ⟨q, List.mem_filter.mpr ⟨hq, hqe⟩, rfl⟩
      rw [← hspec] at hmem
      simp at hmem

theorem getBestProvider_total (g : Gateway) (w : World) (now : Nat) (config : Config)
    (hled : ∀ n ∈ config.providers.map Prod.fst, (jsGet n g.rateLimits).isSome = true) :
    ∃ r c' g', getBestProvider g w now config = (.ok r, c', g') := by
  obtain ⟨res, c', g', h⟩ :=
    collectAvailable_total w now g.rateLimits _ config g [] rfl hled
  exact ⟨_, c', g', by unfold getBestProvider; rw [h]⟩

theorem saveRateLimitData_rateLimits (g : Gateway) (w : World) (now : Nat) :
    (saveRateLimitData g w now).rateLimits = g.rateLimits := by
  unfold saveRateLimitData
  split <;> rfl

theorem incrementRateLimit_get (g : Gateway) (w : World) (now : Nat) (provider : String)
    (r : RateLimitState) (h : jsGet provider g.rateLimits = some r) :
    jsGet provider (incrementRateLimit g w now provider).rateLimits
      = some { r with requests := r.requests + 1 } := by
  unfold incrementRateLimit
  simp only [h, saveRateLimitData_rateLimits, jsGet_jsSet_self]

theorem incrementMany_get (provider : String) (lastReset : Int) :
    ∀ (calls : List (World × Nat)) (g : Gateway) (n : Int),
      jsGet provider g.rateLimits = some { requests := n, lastReset := lastReset } →
      jsGet provider (incrementMany g provider calls).rateLimits
        = some { requests := n + calls.length, lastReset := lastReset } := by
  intro calls
  induction calls with
  | nil => intro g n h; simpa [incrementMany] using h
  | cons c rest ih =>
    intro g n h
    have h1 := incrementRateLimit_get g c.1 c.2 provider _ h
    have h2 := ih (incrementRateLimit g c.1 c.2 provider) (n + 1) h1
    simp only [incrementMany, List.foldl_cons] at h2 ⊢
    rw [h2]
    simp only [List.length_cons]
    push_cast
    congr 2
    ring

theorem setCachedData_cache (g : Gateway) (w : World) (now : Nat) (key : String) (data : Quote)
    (ttlMinutes : Int) :
    (setCachedData g w now key data ttlMinutes).cache = jsSet key data g.cache := by
  unfold setCachedData
  simp only
  split <;> rfl

theorem hasCapacity_of_no_pending (g : Gateway) (now : Nat) (provider : String) (config : Config)
    (pc : ProviderConfig) (limits : RateLimitState)
    (hpc : jsGet provider config.providers = some pc) (hen : pc.enabled = true)
    (hrt : ¬ ResetPending now pc) (hl : jsGet provider g.rateLimits = some limits) :
    (hasCapacity g now provider config).1 = .ok (decide (limits.requests < pc.dailyLimit)) := by
  rw [hasCapacity_result, hl]
  have hlim : (pc.view now).limitedNow = false := by
    simp only [ProviderConfig.view]
    cases hr : pc.resetTime with
    | none => simp [timeTruthy]
    | some t =>
      have : ¬ ((now : Int) < t) := fun hlt => hrt ⟨t, hr, hlt⟩
      simp [this]
  have hen' : (pc.view now).enabled = true := hen
  simp only [viewOf, hpc, Option.map_some', capacityOf, hen', hlim, Bool.not_true,
    Bool.false_eq_true, if_false]
  rfl

theorem getCachedData_miss_state (g : Gateway) (w : World) (now : Nat) (key : String)
    (h : (getCachedData g w now key).1 = none) : (getCachedData g w now key).2 = g := by
  unfold getCachedData at h ⊢
  split at h
  · next h1 => rw [if_pos h1]
  · next h1 =>
    rw [if_neg h1]
    split at h
    · simp at h
    · split at h
      · simp at h
      · rfl

theorem makeApiCall_of_failed (g : Gateway) (w : World) (now : Nat) (url provider : String)
    (hf : (w.fetch url).failed = true) :
    (∃ e g1, makeApiCall g w now url provider = (.error e, g1))
      ∨ (∃ msg g1, makeApiCall g w now url provider = (.ok (.failure msg), g1)) := by
  have hatt : ∃ err, (match w.fetch url with
      | .throws err => (Except.error err : Except JsError JsValue)
      | .response ok status statusText body =>
        if !ok then .error { message := "HTTP " ++ toString status ++ ": " ++ statusText }
        else body) = .error err := by
    cases hfetch : w.fetch url with
    | throws err => exact ⟨err, rfl⟩
    | response ok status statusText body =>
      rw [hfetch] at hf
      cases ok with
      | false => exact ⟨_, rfl⟩
      | true =>
        cases body with
        | error e => exact ⟨e, rfl⟩
        | ok d => simp [FetchResult.failed] at hf
  obtain ⟨err, herr⟩ := hatt
  unfold makeApiCall
  simp only [herr]
  cases hh : handleProviderFailure { g with fetchCalls := g.fetchCalls + 1 } w now provider err with
  | mk r g1 =>
    cases r with
    | error e => exact Or.inl ⟨e, g1, rfl⟩
    | ok u => exact Or.inr ⟨err.message, g1, rfl⟩

theorem callAdapter_of_failed (g : Gateway) (w : World) (now : Nat) (symbol : String)
    (config : Config) (provider : String) (hf : ∀ url, (w.fetch url).failed = true) :
    ∃ e g1, callAdapter g w now symbol config provider = (.error e, g1) := by
  unfold callAdapter
  split
  · unfold getAlphaVantageQuote
    cases jsGet "alphavantage" config.providers with
    | none => exact ⟨_, _, rfl⟩
    | some pc =>
      simp only
      split
      · exact ⟨_, _, rfl⟩
      · rcases makeApiCall_of_failed g w now _ "alphavantage" (hf _) with
          ⟨e, g1, h⟩ | ⟨msg, g1, h⟩
        · rw [h]; exact ⟨_, _, rfl⟩
        · rw [h]; exact ⟨_, _, rfl⟩
  · split
    · unfold getTwelveDataQuote
      cases jsGet "twelvedata" config.providers with
      | none => exact ⟨_, _, rfl⟩
      | some pc =>
        simp only
        rcases makeApiCall_of_failed g w now _ "twelvedata" (hf _) with
          ⟨e, g1, h⟩ | ⟨msg, g1, h⟩
        · rw [h]; exact ⟨_, _, rfl⟩
        · rw [h]; exact ⟨_, _, rfl⟩
    · split
      · unfold getFinnhubQuote
        cases jsGet "finnhub" config.providers with
        | none => exact ⟨_, _, rfl⟩
        | some pc =>
          simp only
          rcases makeApiCall_of_failed g w now _ "finnhub" (hf _) with
            ⟨e, g1, h⟩ | ⟨msg, g1, h⟩
          · rw [h]; exact ⟨_, _, rfl⟩
          · rw [h]; exact ⟨_, _, rfl⟩
      · split
        · unfold getIEXCloudQuote
          cases jsGet "iexcloud" config.providers with
          | none => exact ⟨_, _, rfl⟩
          | some pc =>
            simp only
            rcases makeApiCall_of_failed g w now _ "iexcloud" (hf _) with
              ⟨e, g1, h⟩ | ⟨msg, g1, h⟩
            · rw [h]; exact ⟨_, _, rfl⟩
            · rw [h]; exact ⟨_, _, rfl⟩
        · split
          · unfold getPolygonQuote
            cases jsGet "polygon" config.providers with
            | none => exact ⟨_, _, rfl⟩
            | some pc =>
              simp only
              rcases makeApiCall_of_failed g w now _ "polygon" (hf _) with
                ⟨e, g1, h⟩ | ⟨msg, g1, h⟩
              · rw [h]; exact ⟨_, _, rfl⟩
              · rw [h]; exact ⟨_, _, rfl⟩
          · split
            · unfold getWorldTradingDataQuote
              cases jsGet "worldtradingdata" config.providers with
              | none => exact ⟨_, _, rfl⟩
              | some pc =>
                simp only
                rcases makeApiCall_of_failed g w now _ "worldtradingdata" (hf _) with
                  ⟨e, g1, h⟩ | ⟨msg, g1, h⟩
                · rw [h]; exact ⟨_, _, rfl⟩
                · rw [h]; exact ⟨_, _, rfl⟩
            · split
              · unfold getMarketStackQuote
                cases jsGet "marketstack" config.providers with
                | none => exact ⟨_, _, rfl⟩
                | some pc =>
                  simp only
                  rcases makeApiCall_of_failed g w now _ "marketstack" (hf _) with
                    ⟨e, g1, h⟩ | ⟨msg, g1, h⟩
                  · rw [h]; exact ⟨_, _, rfl⟩
                  · rw [h]; exact ⟨_, _, rfl⟩
              · exact ⟨_, _, rfl⟩

theorem getStockQuote_of_adapter_error (g : Gateway) (w : World) (now : Nat) (symbol : String)
    (config config' : Config) (g3 g4 : Gateway) (provider : String) (e : JsError)
    (hmiss : (getCachedData g w now ("quote_" ++ symbol)).1 = none)
    (hcfg : getApiConfig (checkAndResetRateLimits g w now) w now = .ok config)
    (hbest : getBestProvider (checkAndResetRateLimits g w now) w now config
      = (.ok (some provider), config', g3))
    (hname : provider ≠ "")
    (hfail : callAdapter g3 w now symbol config' provider = (.error e, g4)) :
    getStockQuote g w now symbol = (.ok (getOfflineSampleQuote symbol now w.random), g4) := by
  have hst := getCachedData_miss_state g w now _ hmiss
  unfold getStockQuote
  simp only
  cases hc : getCachedData g w now ("quote_" ++ symbol) with
  | mk r g1 =>
    rw [hc] at hmiss hst
    simp only at hmiss hst
    subst hmiss
    subst hst
    simp only [hcfg, hbest, hname, if_false, hfail]

theorem resetRecord_idem (now : Nat) (r : RateLimitState) :
    resetRecord now (resetRecord now r) = resetRecord now r := by
  unfold resetRecord
  by_cases h : shouldResetRateLimit now r.lastReset = true
  · have h0 : shouldResetRateLimit now (now : Int) = false := by
      simp [shouldResetRateLimit]
    simp [h, h0]
  · simp [h]

theorem resetStep_get (now : Nat) (acc : List (String × RateLimitState) × Bool)
    (n p : String) :
    jsGet p (resetStep now acc n).1
      = if p = n then (jsGet p acc.1).map (resetRecord now) else jsGet p acc.1 := by
  unfold resetStep
  by_cases hpn : p = n
  · subst hpn
    cases hget : jsGet p acc.1 with
    | none => simp [hget]
    | some r =>
      by_cases h : shouldResetRateLimit now r.lastReset = true
      · simp [hget, h, resetRecord, jsGet_jsSet_self]
      · simp [hget, h, resetRecord]
  · cases hget : jsGet n acc.1 with
    | none => simp [hpn]
    | some r =>
      by_cases h : shouldResetRateLimit now r.lastReset = true
      · simp [h, hpn, jsGet_jsSet_other]
      · simp [h, hpn]

theorem resetFold_get (now : Nat) (p : String) :
    ∀ (names : List String) (acc : List (String × RateLimitState) × Bool),
      jsGet p (names.foldl (resetStep now) acc).1
        = if p ∈ names then (jsGet p acc.1).map (resetRecord now) else jsGet p acc.1 := by
  intro names
  induction names with
  | nil => intro acc; simp
  | cons n rest ih =>
    intro acc
    rw [List.foldl_cons, ih, resetStep_get]
    by_cases hpn : p = n
    · subst hpn
      by_cases hr : p ∈ rest
      · cases hget : jsGet p acc.1 with
        | none => simp [hr]
        | some r => simp [hr, resetRecord_idem]
      · simp [hr]
    · by_cases hr : p ∈ rest
      · simp [hpn, hr]
      · simp [hpn, hr]

theorem checkAndResetRateLimits_get (g : Gateway) (w : World) (now : Nat) (p : String) :
    jsGet p (checkAndResetRateLimits g w now).rateLimits
      = if p ∈ providerNames then (jsGet p g.rateLimits).map (resetRecord now)
        else jsGet p g.rateLimits := by
  unfold checkAndResetRateLimits
  simp only
  split
  · rw [saveRateLimitData_rateLimits]
    exact resetFold_get now p providerNames (g.rateLimits, false)
  · exact resetFold_get now p providerNames (g.rateLimits, false)

theorem shouldResetRateLimit_iff (now : Nat) (lastReset : Int) :
    shouldResetRateLimit now lastReset = true ↔ dayMs ≤ (now : Int) - lastReset := by
  simp [shouldResetRateLimit, dayMs]

theorem incrementRateLimit_get_other (g : Gateway) (w : World) (now : Nat) (p q : String)
    (h : q ≠ p) :
    jsGet q (incrementRateLimit g w now p).rateLimits = jsGet q g.rateLimits := by
  unfold incrementRateLimit
  cases hget : jsGet p g.rateLimits with
  | none => rfl
  | some r => simp only [saveRateLimitData_rateLimits, jsGet_jsSet_other _ _ _ _ h]

theorem overrideRecord_idem (env : List (String × String)) (name : String)
    (pc : ProviderConfig) :
    overrideRecord env name (overrideRecord env name pc) = overrideRecord env name pc := by
  unfold overrideRecord
  cases jsGet name env with
  | none => rfl
  | some key =>
    by_cases h : key = ""
    · simp [h]
    · simp [h]

theorem applyEnvOverride_get (env : List (String × String)) (n : String) (c c' : Config)
    (h : applyEnvOverride env n c = .ok c') (q : String) :
    jsGet q c'.providers
      = if q = n then (jsGet q c.providers).map (overrideRecord env q) else jsGet q c.providers := by
  unfold applyEnvOverride at h
  cases henv : jsGet n env with
  | none =>
    simp only [henv, Except.ok.injEq] at h
    subst h
    by_cases hq : q = n
    · subst hq
      cases hg : jsGet q c.providers <;> simp [overrideRecord, henv]
    · simp [hq]
  | some key =>
    simp only [henv] at h
    by_cases hk : key = ""
    · simp only [hk, if_true, Except.ok.injEq] at h
      subst h
      by_cases hq : q = n
      · subst hq
        cases hg : jsGet q c.providers <;> simp [overrideRecord, henv, hk]
      · simp [hq]
    · simp only [hk, if_false] at h
      cases hg : jsGet n c.providers with
      | none => simp [hg] at h
      | some pc =>
        simp only [hg, Except.ok.injEq] at h
        subst h
        simp only [jsGet_jsSet]
        by_cases hq : q = n
        · subst hq
          simp [hg, overrideRecord, henv, hk]
        · simp [hq]

theorem applyEnvOverride_needs (env : List (String × String)) (n : String) (c c' : Config)
    (h : applyEnvOverride env n c = .ok c') (hn : needsOverride env n = true) :
    (jsGet n c.providers).isSome = true := by
  unfold applyEnvOverride at h
  unfold needsOverride at hn
  cases henv : jsGet n env with
  | none => simp [henv] at hn
  | some key =>
    simp only [henv, decide_eq_true_eq] at hn
    simp only [henv, hn, if_false] at h
    cases hg : jsGet n c.providers with
    | none => simp [hg] at h
    | some pc => rfl

theorem applyEnvOverride_ok (env : List (String × String)) (n : String) (c : Config)
    (h : needsOverride env n = true → (jsGet n c.providers).isSome = true) :
    ∃ c', applyEnvOverride env n c = .ok c' := by
  unfold applyEnvOverride
  unfold needsOverride at h
  cases henv : jsGet n env with
  | none => exact ⟨c, rfl⟩
  | some key =>
    simp only [henv, decide_eq_true_eq] at h
    simp only
    by_cases hk : key = ""
    · exact ⟨c, by simp [hk]⟩
    · obtain ⟨pc, hpc⟩ := Option.isSome_iff_exists.mp (h hk)
      simp only [hk, if_false, hpc]
      exact ⟨_, rfl⟩

theorem applyEnvOverrides_get (env : List (String × String)) (q : String) :
    ∀ (names : List String) (c c' : Config), applyEnvOverrides env names c = .ok c' →
      jsGet q c'.providers
        = if q ∈ names then (jsGet q c.providers).map (overrideRecord env q)
          else jsGet q c.providers := by
  intro names
  induction names with
  | nil =>
    intro c c' h
    simp only [applyEnvOverrides, Except.ok.injEq] at h
    subst h
    simp
  | cons n rest ih =>
    intro c c' h
    rw [applyEnvOverrides] at h
    cases h1 : applyEnvOverride env n c with
    | error e => simp [h1] at h
    | ok c1 =>
      simp only [h1] at h
      rw [ih c1 c' h, applyEnvOverride_get env n c c1 h1 q]
      by_cases hq : q = n
      · subst hq
        by_cases hr : q ∈ rest
        · cases hg : jsGet q c.providers with
          | none => simp [hr]
          | some pc => simp [hr, overrideRecord_idem]
        · simp [hr]
      · by_cases hr : q ∈ rest
        · simp [hq, hr]
        · simp [hq, hr]

theorem applyEnvOverrides_needs (env : List (String × String)) :
    ∀ (names : List String) (c c' : Config), applyEnvOverrides env names c = .ok c' →
      ∀ n ∈ names, needsOverride env n = true → (jsGet n c.providers).isSome = true := by
  intro names
  induction names with
  | nil => intro c c' _ n hn; simp at hn
  | cons m rest ih =>
    intro c c' h n hn hneed
    rw [applyEnvOverrides] at h
    cases h1 : applyEnvOverride env m c with
    | error e => simp [h1] at h
    | ok c1 =>
      simp only [h1] at h
      rcases List.mem_cons.mp hn with hnm | hnr
      · subst hnm
        exact applyEnvOverride_needs env n c c1 h1 hneed
      · have := ih c1 c' h n hnr hneed
        rw [applyEnvOverride_get env m c c1 h1 n] at this
        by_cases hq : n = m
        · simpa [hq] using this
        · simpa [hq] using this

theorem applyEnvOverrides_ok (env : List (String × String)) :
    ∀ (names : List String) (c : Config),
      (∀ n ∈ names, needsOverride env n = true → (jsGet n c.providers).isSome = true) →
      ∃ c', applyEnvOverrides env names c = .ok c' := by
  intro names
  induction names with
  | nil => intro c _; exact ⟨c, rfl⟩
  | cons m rest ih =>
    intro c h
    obtain ⟨c1, h1⟩ := applyEnvOverride_ok env m c (h m (List.mem_cons_self _ _))
    have hrest : ∀ n ∈ rest, needsOverride env n = true →
        (jsGet n c1.providers).isSome = true := by
      intro n hn hneed
      rw [applyEnvOverride_get env m c c1 h1 n]
      have := h n (List.mem_cons_of_mem _ hn) hneed
      by_cases hq : n = m
      · simpa [hq] using this
      · simpa [hq] using this
    obtain ⟨c', h'⟩ := ih c1 hrest
    exact ⟨c', by rw [applyEnvOverrides, h1]; exact h'⟩

theorem World.reliable_iff (w : World) :
    w.reliable = true
      ↔ w.mongoThrows = false ∧ w.fileReadFails = false ∧ w.fileWriteFails = false := by
  unfold World.reliable
  cases w.mongoThrows <;> cases w.fileReadFails <;> cases w.fileWriteFails <;> simp

theorem getApiConfig_congr (g g' : Gateway) (w : World) (now : Nat)
    (h1 : g'.useMongoDb = g.useMongoDb) (h2 : g'.env = g.env)
    (h3 : g'.mongoConfig = g.mongoConfig) (h4 : g'.fileConfig = g.fileConfig) :
    getApiConfig g' w now = getApiConfig g w now := by
  unfold getApiConfig
  rw [h1, h2, h3, h4]

theorem overrideRecord_status (env : List (String × String)) (name : String)
    (pc : ProviderConfig) :
    (overrideRecord env name pc).enabled = pc.enabled
      ∧ (overrideRecord env name pc).disabledUntil = pc.disabledUntil
      ∧ (overrideRecord env name pc).disabledReason = pc.disabledReason
      ∧ (overrideRecord env name pc).resetTime = pc.resetTime := by
  unfold overrideRecord
  cases jsGet name env with
  | none => exact ⟨rfl, rfl, rfl, rfl⟩
  | some key =>
    by_cases h : key = ""
    · simp [h]
    · simp [h]

theorem checkProviderAvailability_of_disabled (g : Gateway) (w : World) (now : Nat)
    (name : String) (config : Config) (pc : ProviderConfig)
    (hpc : jsGet name config.providers = some pc) (hen : pc.enabled = false) :
    checkProviderAvailability g w now name config = (false, config, g) := by
  unfold checkProviderAvailability
  simp [hpc, hen]

theorem handleProviderFailure_not_network (g : Gateway) (w : World) (now : Nat) (p : String)
    (err : JsError) (hnet : isNetworkError err = false) :
    (handleProviderFailure g w now p err).2 = g := by
  unfold handleProviderFailure
  cases getApiConfig g w now with
  | error e => rfl
  | ok config => simp [hnet]

theorem handleProviderFailure_count (g : Gateway) (w : World) (now : Nat) (p : String)
    (err : JsError) (config : Config) (hcfg : getApiConfig g w now = .ok config)
    (hnet : isNetworkError err = true) (hlt : failureCount g p + 1 < 3) :
    handleProviderFailure g w now p err = (.ok (), countState g p) := by
  unfold handleProviderFailure
  have hlt' : ¬ ((jsGet p g.providerFailureCount).getD 0 + 1 ≥ MAX_FAILURES_BEFORE_DISABLE) := by
    unfold failureCount at hlt
    unfold MAX_FAILURES_BEFORE_DISABLE
    omega
  simp only [hcfg, hnet, if_true, hlt', if_false]
  rfl

theorem handleProviderFailure_trip (g : Gateway) (w : World) (now : Nat) (p : String)
    (err : JsError) (config : Config) (pc : ProviderConfig)
    (hcfg : getApiConfig g w now = .ok config) (hnet : isNetworkError err = true)
    (hge : 3 ≤ failureCount g p + 1) (hpc : jsGet p config.providers = some pc) :
    handleProviderFailure g w now p err = (.ok (), tripState g w now p config pc) := by
  unfold handleProviderFailure
  have hge' : (jsGet p g.providerFailureCount).getD 0 + 1 ≥ MAX_FAILURES_BEFORE_DISABLE := by
    unfold failureCount at hge
    unfold MAX_FAILURES_BEFORE_DISABLE
    omega
  simp only [hcfg, hnet, if_true, hge', hpc]
  rfl

theorem tripState_store (g : Gateway) (w : World) (now : Nat) (p : String) (config : Config)
    (pc : ProviderConfig) (hw : w.reliable = true) :
    (tripState g w now p config pc).useMongoDb = g.useMongoDb
      ∧ (tripState g w now p config pc).env = g.env
      ∧ (g.useMongoDb = true → (tripState g w now p config pc).mongoConfig
          = some { providers := jsSet p (tripRecord now pc) config.providers, lastUpdated := now })
      ∧ (g.useMongoDb = false → (tripState g w now p config pc).fileConfig
          = some { providers := jsSet p (tripRecord now pc) config.providers, lastUpdated := now })
      ∧ failureCount (tripState g w now p config pc) p = 0 := by
  obtain ⟨hm, _, hfw⟩ := (World.reliable_iff w).mp hw
  unfold tripState saveApiConfig countState writeJsonFile failureCount
  cases hu : g.useMongoDb <;> simp [hm, hfw, jsGet_jsSet_self]

theorem tripState_autoDisabled (g : Gateway) (w : World) (now : Nat) (p : String)
    (config : Config) (pc : ProviderConfig) (hw : w.reliable = true)
    (hcfg : getApiConfig g w now = .ok config) :
    AutoDisabled (tripState g w now p config pc) p ((now : Int) + PROVIDER_DISABLE_DURATION) := by
  intro w' now' hw'
  obtain ⟨hm, hfr, _⟩ := (World.reliable_iff w).mp hw
  obtain ⟨hm', hfr', _⟩ := (World.reliable_iff w').mp hw'
  obtain ⟨hs1, hs2, hs3, hs4, _⟩ := tripState_store g w now p config pc hw
  cases hu : g.useMongoDb with
  | true =>
    have hload : getApiConfig (tripState g w now p config pc) w' now'
        = .ok { providers := jsSet p (tripRecord now pc) config.providers, lastUpdated := now } := by
      unfold getApiConfig
      simp [hs1, hu, hm', hs3 hu]
    refine ⟨_, tripRecord now pc, hload, jsGet_jsSet_self _ _ _, rfl, rfl, rfl, ?_⟩
    rw [checkProviderAvailability_of_disabled _ _ _ _ _ (tripRecord now pc)
      (jsGet_jsSet_self _ _ _) rfl]
  | false =>
    have hsrc : applyEnvOverrides g.env providerNames
        (readJsonFile w g.fileConfig (defaultConfig g.env now)) = .ok config := by
      unfold getApiConfig at hcfg
      simpa [hu] using hcfg
    have hneeds := applyEnvOverrides_needs g.env providerNames _ config hsrc
    have hok : ∀ n ∈ providerNames, needsOverride g.env n = true →
        (jsGet n ({ providers := jsSet p (tripRecord now pc) config.providers,
                    lastUpdated := now } : Config).providers).isSome = true := by
      intro n hn hneed
      simp only [jsGet_jsSet]
      by_cases hnp : n = p
      · simp [hnp]
      · simp only [hnp, if_false]
        rw [applyEnvOverrides_get g.env n providerNames _ config hsrc]
        have := hneeds n hn hneed
        simp only [hn, if_true, Option.isSome_map']
        exact this
    obtain ⟨c3, hc3⟩ := applyEnvOverrides_ok g.env providerNames _ hok
    have hload : getApiConfig (tripState g w now p config pc) w' now' = .ok c3 := by
      unfold getApiConfig
      simp only [hs1, hu, Bool.false_and, Bool.false_eq_true, if_false, hs2, hs4 hu]
      unfold readJsonFile
      simp only [hfr', Bool.false_eq_true, if_false, Option.getD_some]
      exact hc3
    have hget := applyEnvOverrides_get g.env p providerNames _ c3 hc3
    simp only [jsGet_jsSet_self, Option.map_some'] at hget
    obtain ⟨he, hd, hr, _⟩ := overrideRecord_status g.env p (tripRecord now pc)
    by_cases hp : p ∈ providerNames
    · simp only [hp, if_true] at hget
      refine ⟨c3, _, hload, hget, he.trans rfl, hd.trans rfl, hr.trans rfl, ?_⟩
      rw [checkProviderAvailability_of_disabled _ _ _ _ _ _ hget (he.trans rfl)]
    · simp only [hp, if_false] at hget
      refine ⟨c3, _, hload, hget, rfl, rfl, rfl, ?_⟩
      rw [checkProviderAvailability_of_disabled _ _ _ _ _ _ hget rfl]

theorem autoDisabled_congr {g g' : Gateway} {p : String} {t : Int} (h : AutoDisabled g p t)
    (h1 : g'.useMongoDb = g.useMongoDb) (h2 : g'.env = g.env)
    (h3 : g'.mongoConfig = g.mongoConfig) (h4 : g'.fileConfig = g.fileConfig) :
    AutoDisabled g' p t := by
  intro w now hw
  obtain ⟨config, pc, hc, hpc, he, hd, hr, _⟩ := h w now hw
  refine ⟨config, pc, ?_, hpc, he, hd, hr, ?_⟩
  · rw [getApiConfig_congr g g' w now h1 h2 h3 h4]; exact hc
  · rw [checkProviderAvailability_of_disabled _ _ _ _ _ pc hpc he]

theorem enabledIn_congr {g g' : Gateway} {p : String} (h : EnabledIn g p)
    (h1 : g'.useMongoDb = g.useMongoDb) (h2 : g'.env = g.env)
    (h3 : g'.mongoConfig = g.mongoConfig) (h4 : g'.fileConfig = g.fileConfig) :
    EnabledIn g' p := by
  intro w now hw
  obtain ⟨config, pc, hc, hpc, he⟩ := h w now hw
  exact ⟨config, pc, by rw [getApiConfig_congr g g' w now h1 h2 h3 h4]; exact hc, hpc, he⟩

theorem failureCount_countState (g : Gateway) (p : String) :
    failureCount (countState g p) p = failureCount g p + 1 := by
  simp [failureCount, countState, jsGet_jsSet_self]

theorem failMany_snoc (g : Gateway) (p : String) (l : List (World × Nat × JsError))
    (a : World × Nat × JsError) :
    failMany g p (l ++ [a]) = (handleProviderFailure (failMany g p l) a.1 a.2.1 p a.2.2).2 := by
  simp [failMany, List.foldl_append]

theorem failMany_inv (g : Gateway) (p : String) (hen : EnabledIn g p)
    (h0 : failureCount g p = 0) :
    ∀ calls : List (World × Nat × JsError),
      (∀ c ∈ calls, c.1.reliable = true ∧ isNetworkError c.2.2 = true) →
      (failMany g p calls).useMongoDb = g.useMongoDb
        ∧ (failMany g p calls).env = g.env
        ∧ failureCount (failMany g p calls) p = calls.length % 3
        ∧ (calls.length < 3 → (failMany g p calls).mongoConfig = g.mongoConfig
            ∧ (failMany g p calls).fileConfig = g.fileConfig)
        ∧ (3 ≤ calls.length → ∃ c, calls[lastTripIndex calls.length]? = some c
            ∧ AutoDisabled (failMany g p calls) p ((c.2.1 : Int) + PROVIDER_DISABLE_DURATION)) := by
  intro calls
  induction calls using List.reverseRecOn with
  | nil =>
    intro _
    exact ⟨rfl, rfl, by simpa [failMany] using h0, fun _ => ⟨rfl, rfl⟩, fun h => by simp at h⟩
  | append_singleton l a ih =>
    intro hall
    have hl : ∀ c ∈ l, c.1.reliable = true ∧ isNetworkError c.2.2 = true :=
      fun c hc => hall c (List.mem_append_left _ hc)
    obtain ⟨hwa, hneta⟩ := hall a (List.mem_append_right _ (List.mem_singleton_self a))
    obtain ⟨i1, i2, i3, i4, i5⟩ := ih hl
    rw [failMany_snoc]
    have hload : ∃ config pc, getApiConfig (failMany g p l) a.1 a.2.1 = .ok config
        ∧ jsGet p config.providers = some pc := by
      by_cases hk : l.length < 3
      · obtain ⟨config, pc, hc, hpc, _⟩ := (enabledIn_congr hen i1 i2 (i4 hk).1 (i4 hk).2) a.1 a.2.1 hwa
        exact ⟨config, pc, hc, hpc⟩
      · obtain ⟨c, _, hc⟩ := i5 (not_lt.mp hk)
        obtain ⟨config, pc, hcfg, hpc, _⟩ := hc a.1 a.2.1 hwa
        exact ⟨config, pc, hcfg, hpc⟩
    obtain ⟨config, pc, hcfg, hpc⟩ := hload
    have hmod : l.length % 3 < 3 := Nat.mod_lt _ (by decide)
    by_cases hsmall : failureCount (failMany g p l) p + 1 < 3
    · rw [handleProviderFailure_count _ _ _ _ _ config hcfg hneta hsmall]
      rw [i3] at hsmall
      refine ⟨i1, i2, ?_, ?_, ?_⟩
      · rw [failureCount_countState, i3]
        simp only [List.length_append, List.length_singleton]
        omega
      · intro hk
        simp only [List.length_append, List.length_singleton] at hk
        exact i4 (by omega)
      · intro hk
        simp only [List.length_append, List.length_singleton] at hk ⊢
        have hk3 : 3 ≤ l.length := by omega
        obtain ⟨c, hc, hdis⟩ := i5 hk3
        refine ⟨c, ?_, autoDisabled_congr hdis rfl rfl rfl rfl⟩
        have hidx : lastTripIndex (l.length + 1) = lastTripIndex l.length := by
          unfold lastTripIndex; omega
        have hlt : lastTripIndex l.length < l.length := by
          unfold lastTripIndex; omega
        rw [hidx, List.getElem?_append_left hlt]
        exact hc
    · have hge : 3 ≤ failureCount (failMany g p l) p + 1 := not_lt.mp hsmall
      rw [handleProviderFailure_trip _ _ _ _ _ config pc hcfg hneta hge hpc]
      rw [i3] at hge
      obtain ⟨s1, s2, _, _, s5⟩ := tripState_store (failMany g p l) a.1 a.2.1 p config pc hwa
      refine ⟨s1.trans i1, s2.trans i2, ?_, ?_, ?_⟩
      · rw [s5]
        simp only [List.length_append, List.length_singleton]
        omega
      · intro hk
        simp only [List.length_append, List.length_singleton] at hk
        omega
      · intro _
        simp only [List.length_append, List.length_singleton]
        have hidx : lastTripIndex (l.length + 1) = l.length := by
          unfold lastTripIndex; omega
        refine ⟨a, ?_, tripState_autoDisabled _ _ _ _ _ _ hwa hcfg⟩
        rw [hidx]
        simp

theorem abGateway_enabledIn : EnabledIn abGateway "providerA" := by
  intro w now hw
  obtain ⟨_, hfr, _⟩ := (World.reliable_iff w).mp hw
  refine ⟨sampleConfig (sampleProvider true 2) (sampleProvider true 1), sampleProvider true 2,
    ?_, rfl, rfl⟩
  unfold getApiConfig readJsonFile
  simp [abGateway, sampleGateway, hfr]
  rfl

theorem isNetworkError_eq_false_iff (err : JsError) :
    isNetworkError err = false
      ↔ ∀ t ∈ networkErrors, strIncludes err.message t = false ∧ err.code ≠ some t := by
  unfold isNetworkError
  rw [List.any_eq_false]
  constructor
  · intro h t ht
    have := h t ht
    simpa using this
  · intro h t ht
    have := h t ht
    simpa using this

theorem failMany_not_network (g : Gateway) (p : String) :
    ∀ calls : List (World × Nat × JsError),
      (∀ c ∈ calls, isNetworkError c.2.2 = false) → failMany g p calls = g := by
  intro calls
  induction calls using List.reverseRecOn with
  | nil => intro _; rfl
  | append_singleton l a ih =>
    intro h
    rw [failMany_snoc, ih (fun c hc => h c (List.mem_append_left _ hc))]
    exact handleProviderFailure_not_network g a.1 a.2.1 p a.2.2
      (h a (List.mem_append_right _ (List.mem_singleton_self a)))

theorem saveRateLimitData_frame (g : Gateway) (w : World) (now : Nat) :
    (saveRateLimitData g w now).useMongoDb = g.useMongoDb
      ∧ (saveRateLimitData g w now).env = g.env
      ∧ (saveRateLimitData g w now).mongoConfig = g.mongoConfig
      ∧ (saveRateLimitData g w now).fileConfig = g.fileConfig
      ∧ (saveRateLimitData g w now).cache = g.cache
      ∧ (saveRateLimitData g w now).mongoCache = g.mongoCache
      ∧ (saveRateLimitData g w now).fileCache = g.fileCache
      ∧ (saveRateLimitData g w now).providerFailureCount = g.providerFailureCount
      ∧ (saveRateLimitData g w now).fetchCalls = g.fetchCalls := by
  unfold saveRateLimitData
  split <;> exact ⟨rfl, rfl, rfl, rfl, rfl, rfl, rfl, rfl, rfl⟩

theorem incrementRateLimit_frame (g : Gateway) (w : World) (now : Nat) (p : String) :
    (incrementRateLimit g w now p).useMongoDb = g.useMongoDb
      ∧ (incrementRateLimit g w now p).env = g.env
      ∧ (incrementRateLimit g w now p).mongoConfig = g.mongoConfig
      ∧ (incrementRateLimit g w now p).fileConfig = g.fileConfig
      ∧ (incrementRateLimit g w now p).cache = g.cache
      ∧ (incrementRateLimit g w now p).mongoCache = g.mongoCache
      ∧ (incrementRateLimit g w now p).fileCache = g.fileCache
      ∧ (incrementRateLimit g w now p).providerFailureCount = g.providerFailureCount
      ∧ (incrementRateLimit g w now p).fetchCalls = g.fetchCalls := by
  unfold incrementRateLimit
  cases jsGet p g.rateLimits with
  | none => exact ⟨rfl, rfl, rfl, rfl, rfl, rfl, rfl, rfl, rfl⟩
  | some r => exact saveRateLimitData_frame _ w now

theorem makeApiCall_success (g : Gateway) (w : World) (now : Nat) (url p : String)
    (data : JsValue) (h : (w.fetch url).succeeded data) :
    makeApiCall g w now url p = (.ok (.success data), successState g w now p) := by
  obtain ⟨status, statusText, hf⟩ := h
  unfold makeApiCall successState
  simp [hf]

theorem successState_frame (g : Gateway) (w : World) (now : Nat) (p : String) :
    (successState g w now p).useMongoDb = g.useMongoDb
      ∧ (successState g w now p).env = g.env
      ∧ (successState g w now p).mongoConfig = g.mongoConfig
      ∧ (successState g w now p).fileConfig = g.fileConfig
      ∧ (successState g w now p).cache = g.cache
      ∧ (successState g w now p).mongoCache = g.mongoCache
      ∧ (successState g w now p).fileCache = g.fileCache
      ∧ failureCount (successState g w now p) p = 0
      ∧ (successState g w now p).fetchCalls = g.fetchCalls + 1 := by
  obtain ⟨h1, h2, h3, h4, h5, h6, h7, _, h9⟩ :=
    incrementRateLimit_frame { g with fetchCalls := g.fetchCalls + 1 } w now p
  unfold successState
  refine ⟨h1, h2, h3, h4, h5, h6, h7, ?_, h9⟩
  simp [failureCount, jsGet_jsSet_self]

theorem successState_rateLimits (g : Gateway) (w : World) (now : Nat) (p : String) :
    (successState g w now p).rateLimits = (incrementRateLimit g w now p).rateLimits := by
  unfold successState incrementRateLimit
  cases jsGet p g.rateLimits with
  | none => rfl
  | some r => simp only [saveRateLimitData_rateLimits]

theorem handleProviderFailure_small (g : Gateway) (w : World) (now : Nat) (p : String)
    (err : JsError) (hlt : failureCount g p + 1 < 3) :
    (handleProviderFailure g w now p err).2 = g
      ∨ (handleProviderFailure g w now p err).2 = countState g p := by
  cases hcfg : getApiConfig g w now with
  | error e =>
    left
    unfold handleProviderFailure
    rw [hcfg]
  | ok config =>
    cases hnet : isNetworkError err with
    | false => exact Or.inl (handleProviderFailure_not_network g w now p err hnet)
    | true =>
      right
      rw [handleProviderFailure_count g w now p err config hcfg hnet hlt]

theorem makeApiCall_failed_state (g : Gateway) (w : World) (now : Nat) (url p : String)
    (hf : (w.fetch url).failed = true) :
    ∃ err, (makeApiCall g w now url p).2
      = (handleProviderFailure { g with fetchCalls := g.fetchCalls + 1 } w now p err).2 := by
  unfold makeApiCall
  cases hfetch : w.fetch url with
  | throws err =>
    refine ⟨err, ?_⟩
    simp only
    cases handleProviderFailure { g with fetchCalls := g.fetchCalls + 1 } w now p err with
    | mk r g1 => cases r <;> rfl
  | response ok status statusText body =>
    rw [hfetch] at hf
    cases ok with
    | false =>
      refine ⟨{ message := "HTTP " ++ toString status ++ ": " ++ statusText }, ?_⟩
      simp only [Bool.not_false, if_true]
      cases handleProviderFailure { g with fetchCalls := g.fetchCalls + 1 } w now p
        { message := "HTTP " ++ toString status ++ ": " ++ statusText } with
      | mk r g1 => cases r <;> rfl
    | true =>
      cases body with
      | ok d => simp [FetchResult.failed] at hf
      | error e =>
        refine ⟨e, ?_⟩
        simp only [Bool.not_true, Bool.false_eq_true, if_false]
        cases handleProviderFailure { g with fetchCalls := g.fetchCalls + 1 } w now p e with
        | mk r g1 => cases r <;> rfl

theorem makeApiCall_failed_small (g : Gateway) (w : World) (now : Nat) (url p : String)
    (hf : (w.fetch url).failed = true) (hlt : failureCount g p + 1 < 3) :
    (makeApiCall g w now url p).2.mongoConfig = g.mongoConfig
      ∧ (makeApiCall g w now url p).2.fileConfig = g.fileConfig
      ∧ failureCount (makeApiCall g w now url p).2 p ≤ failureCount g p + 1 := by
  obtain ⟨err, herr⟩ := makeApiCall_failed_state g w now url p hf
  rw [herr]
  have hlt' : failureCount { g with fetchCalls := g.fetchCalls + 1 } p + 1 < 3 := hlt
  rcases handleProviderFailure_small { g with fetchCalls := g.fetchCalls + 1 } w now p err hlt'
    with h | h
  · rw [h]
    exact ⟨rfl, rfl, Nat.le_succ _⟩
  · rw [h]
    refine ⟨rfl, rfl, ?_⟩
    rw [failureCount_countState]
    exact le_refl _

theorem saveApiConfig_frame (g : Gateway) (w : World) (now : Nat) (config : Config) :
    (saveApiConfig g w now config).2.useMongoDb = g.useMongoDb
      ∧ (saveApiConfig g w now config).2.env = g.env
      ∧ (saveApiConfig g w now config).2.rateLimits = g.rateLimits
      ∧ (saveApiConfig g w now config).2.providerFailureCount = g.providerFailureCount
      ∧ (saveApiConfig g w now config).2.fetchCalls = g.fetchCalls
      ∧ (saveApiConfig g w now config).2.cache = g.cache
      ∧ (saveApiConfig g w now config).2.mongoCache = g.mongoCache
      ∧ (saveApiConfig g w now config).2.fileCache = g.fileCache := by
  unfold saveApiConfig
  split <;> exact ⟨rfl, rfl, rfl, rfl, rfl, rfl, rfl, rfl⟩

theorem checkProviderAvailability_frame (g : Gateway) (w : World) (now : Nat) (name : String)
    (config : Config) :
    (checkProviderAvailability g w now name config).2.2.useMongoDb = g.useMongoDb
      ∧ (checkProviderAvailability g w now name config).2.2.env = g.env
      ∧ (checkProviderAvailability g w now name config).2.2.rateLimits = g.rateLimits
      ∧ (checkProviderAvailability g w now name config).2.2.providerFailureCount
          = g.providerFailureCount
      ∧ (checkProviderAvailability g w now name config).2.2.fetchCalls = g.fetchCalls
      ∧ (checkProviderAvailability g w now name config).2.2.cache = g.cache
      ∧ (checkProviderAvailability g w now name config).2.2.mongoCache = g.mongoCache
      ∧ (checkProviderAvailability g w now name config).2.2.fileCache = g.fileCache := by
  unfold checkProviderAvailability
  split
  · exact ⟨rfl, rfl, rfl, rfl, rfl, rfl, rfl, rfl⟩
  · split
    · exact ⟨rfl, rfl, rfl, rfl, rfl, rfl, rfl, rfl⟩
    · split
      · exact ⟨rfl, rfl, rfl, rfl, rfl, rfl, rfl, rfl⟩
      · split
        · exact saveApiConfig_frame g w now _
        · exact ⟨rfl, rfl, rfl, rfl, rfl, rfl, rfl, rfl⟩

theorem collectAvailable_frame (w : World) (now : Nat) :
    ∀ (names : List String) (c : Config) (g : Gateway) (acc : List (String × ProviderConfig)),
      (collectAvailable w now names c g acc).2.2.useMongoDb = g.useMongoDb
        ∧ (collectAvailable w now names c g acc).2.2.env = g.env
        ∧ (collectAvailable w now names c g acc).2.2.rateLimits = g.rateLimits
        ∧ (collectAvailable w now names c g acc).2.2.providerFailureCount
            = g.providerFailureCount
        ∧ (collectAvailable w now names c g acc).2.2.fetchCalls = g.fetchCalls
        ∧ (collectAvailable w now names c g acc).2.2.cache = g.cache
        ∧ (collectAvailable w now names c g acc).2.2.mongoCache = g.mongoCache
        ∧ (collectAvailable w now names c g acc).2.2.fileCache = g.fileCache := by
  intro names
  induction names with
  | nil => intro c g acc; exact ⟨rfl, rfl, rfl, rfl, rfl, rfl, rfl, rfl⟩
  | cons name rest ih =>
    intro c g acc
    have hf := checkProviderAvailability_frame g w now name c
    rw [collectAvailable]
    split
    · revert hf
      generalize checkProviderAvailability g w now name c = a
      intro hf
      generalize hasCapacity a.2.2 now name a.2.1 = hc
      obtain ⟨r, c2⟩ := hc
      cases r with
      | error e => exact hf
      | ok b =>
        cases b with
        | false =>
          obtain ⟨h1, h2, h3, h4, h5, h6, h7, h8⟩ := ih c2 a.2.2 acc
          exact ⟨h1.trans hf.1, h2.trans hf.2.1, h3.trans hf.2.2.1, h4.trans hf.2.2.2.1,
            h5.trans hf.2.2.2.2.1, h6.trans hf.2.2.2.2.2.1, h7.trans hf.2.2.2.2.2.2.1,
            h8.trans hf.2.2.2.2.2.2.2⟩
        | true =>
          simp only
          cases jsGet name c2.providers with
          | none =>
            obtain ⟨h1, h2, h3, h4, h5, h6, h7, h8⟩ := ih c2 a.2.2 acc
            exact ⟨h1.trans hf.1, h2.trans hf.2.1, h3.trans hf.2.2.1, h4.trans hf.2.2.2.1,
              h5.trans hf.2.2.2.2.1, h6.trans hf.2.2.2.2.2.1, h7.trans hf.2.2.2.2.2.2.1,
              h8.trans hf.2.2.2.2.2.2.2⟩
          | some pc2 =>
            obtain ⟨h1, h2, h3, h4, h5, h6, h7, h8⟩ := ih c2 a.2.2 (acc ++ [(name, pc2)])
            exact ⟨h1.trans hf.1, h2.trans hf.2.1, h3.trans hf.2.2.1, h4.trans hf.2.2.2.1,
              h5.trans hf.2.2.2.2.1, h6.trans hf.2.2.2.2.2.1, h7.trans hf.2.2.2.2.2.2.1,
              h8.trans hf.2.2.2.2.2.2.2⟩
    · obtain ⟨h1, h2, h3, h4, h5, h6, h7, h8⟩ := ih (checkProviderAvailability g w now name c).2.1
        (checkProviderAvailability g w now name c).2.2 acc
      exact ⟨h1.trans hf.1, h2.trans hf.2.1, h3.trans hf.2.2.1, h4.trans hf.2.2.2.1,
        h5.trans hf.2.2.2.2.1, h6.trans hf.2.2.2.2.2.1, h7.trans hf.2.2.2.2.2.2.1,
        h8.trans hf.2.2.2.2.2.2.2⟩

theorem getBestProvider_frame (g : Gateway) (w : World) (now : Nat) (config : Config) :
    (getBestProvider g w now config).2.2.useMongoDb = g.useMongoDb
      ∧ (getBestProvider g w now config).2.2.env = g.env
      ∧ (getBestProvider g w now config).2.2.rateLimits = g.rateLimits
      ∧ (getBestProvider g w now config).2.2.providerFailureCount = g.providerFailureCount
      ∧ (getBestProvider g w now config).2.2.fetchCalls = g.fetchCalls
      ∧ (getBestProvider g w now config).2.2.cache = g.cache
      ∧ (getBestProvider g w now config).2.2.mongoCache = g.mongoCache
      ∧ (getBestProvider g w now config).2.2.fileCache = g.fileCache := by
  have h := collectAvailable_frame w now (config.providers.map Prod.fst) config g []
  unfold getBestProvider
  revert h
  generalize collectAvailable w now (config.providers.map Prod.fst) config g [] = res
  obtain ⟨r, c', g'⟩ := res
  intro h
  cases r <;> exact h

theorem checkAndResetRateLimits_frame (g : Gateway) (w : World) (now : Nat) :
    (checkAndResetRateLimits g w now).useMongoDb = g.useMongoDb
      ∧ (checkAndResetRateLimits g w now).env = g.env
      ∧ (checkAndResetRateLimits g w now).mongoConfig = g.mongoConfig
      ∧ (checkAndResetRateLimits g w now).fileConfig = g.fileConfig
      ∧ (checkAndResetRateLimits g w now).cache = g.cache
      ∧ (checkAndResetRateLimits g w now).mongoCache = g.mongoCache
      ∧ (checkAndResetRateLimits g w now).fileCache = g.fileCache
      ∧ (checkAndResetRateLimits g w now).providerFailureCount = g.providerFailureCount
      ∧ (checkAndResetRateLimits g w now).fetchCalls = g.fetchCalls := by
  unfold checkAndResetRateLimits
  simp only
  split
  · exact saveRateLimitData_frame _ w now
  · exact ⟨rfl, rfl, rfl, rfl, rfl, rfl, rfl, rfl, rfl⟩

theorem isEligible_ledger (now : Nat) (config : Config) (rl : List (String × RateLimitState))
    (name : String) (h : isEligible now config rl name = true) :
    (jsGet name rl).isSome = true := by
  unfold isEligible eligibleOf at h
  cases hav : availableOf (viewOf now config name) with
  | false => simp [hav] at h
  | true =>
    simp only [hav, if_true] at h
    cases hv : viewOf now config name with
    | none => simp [hv, capacityOf] at h
    | some v =>
      cases hl : jsGet name rl with
      | some l => rfl
      | none =>
        simp only [hv, hl, capacityOf] at h
        cases he : v.enabled <;> cases hlim : v.limitedNow <;> simp [he, hlim] at h

theorem makeApiCall_ok_state (g : Gateway) (w : World) (now : Nat) (url p : String)
    (data : JsValue) (g1 : Gateway)
    (h : makeApiCall g w now url p = (.ok (.success data), g1)) :
    g1 = successState g w now p := by
  cases hfailed : (w.fetch url).failed with
  | true =>
    rcases makeApiCall_of_failed g w now url p hfailed with ⟨e, g2, h2⟩ | ⟨msg, g2, h2⟩
    · rw [h2] at h; simp at h
    · rw [h2] at h; simp at h
  | false =>
    have hs : ∃ d, (w.fetch url).succeeded d := by
      cases hf : w.fetch url with
      | throws err => rw [hf] at hfailed; simp [FetchResult.failed] at hfailed
      | response ok status statusText body =>
        rw [hf] at hfailed
        cases ok with
        | false => simp [FetchResult.failed] at hfailed
        | true =>
          cases body with
          | error e => simp [FetchResult.failed] at hfailed
          | ok d => exact ⟨d, status, statusText, rfl⟩
    obtain ⟨d, hd⟩ := hs
    rw [makeApiCall_success g w now url p d hd] at h
    simp only [Prod.mk.injEq] at h
    exact h.2.symm

theorem getTwelveDataQuote_ok_state (g : Gateway) (w : World) (now : Nat) (symbol : String)
    (config : Config) (q : Quote) (g4 : Gateway)
    (h : getTwelveDataQuote g w now symbol config = (.ok q, g4)) :
    g4 = successState g w now "twelvedata" := by
  unfold getTwelveDataQuote at h
  split at h
  · simp at h
  · dsimp only at h
    split at h
    · simp at h
    · simp at h
    · next heq =>
      have := makeApiCall_ok_state _ _ _ _ _ _ _ heq
      split at h
      · simp only [Prod.mk.injEq] at h
        rw [← h.2, this]
      · simp at h

theorem getFinnhubQuote_ok_state (g : Gateway) (w : World) (now : Nat) (symbol : String)
    (config : Config) (q : Quote) (g4 : Gateway)
    (h : getFinnhubQuote g w now symbol config = (.ok q, g4)) :
    g4 = successState g w now "finnhub" := by
  unfold getFinnhubQuote at h
  split at h
  · simp at h
  · dsimp only at h
    split at h
    · simp at h
    · simp at h
    · next heq =>
      have := makeApiCall_ok_state _ _ _ _ _ _ _ heq
      split at h
      · simp only [Prod.mk.injEq] at h
        rw [← h.2, this]
      · simp at h

theorem getIEXCloudQuote_ok_state (g : Gateway) (w : World) (now : Nat) (symbol : String)
    (config : Config) (q : Quote) (g4 : Gateway)
    (h : getIEXCloudQuote g w now symbol config = (.ok q, g4)) :
    g4 = successState g w now "iexcloud" := by
  unfold getIEXCloudQuote at h
  split at h
  · simp at h
  · dsimp only at h
    split at h
    · simp at h
    · simp at h
    · next heq =>
      have := makeApiCall_ok_state _ _ _ _ _ _ _ heq
      split at h
      · simp only [Prod.mk.injEq] at h
        rw [← h.2, this]
      · simp at h

theorem getPolygonQuote_ok_state (g : Gateway) (w : World) (now : Nat) (symbol : String)
    (config : Config) (q : Quote) (g4 : Gateway)
    (h : getPolygonQuote g w now symbol config = (.ok q, g4)) :
    g4 = successState g w now "polygon" := by
  unfold getPolygonQuote at h
  split at h
  · simp at h
  · dsimp only at h
    split at h
    · simp at h
    · simp at h
    · next heq =>
      have := makeApiCall_ok_state _ _ _ _ _ _ _ heq
      split at h
      · simp only [Prod.mk.injEq] at h
        rw [← h.2, this]
      · simp at h

theorem getWorldTradingDataQuote_ok_state (g : Gateway) (w : World) (now : Nat) (symbol : String)
    (config : Config) (q : Quote) (g4 : Gateway)
    (h : getWorldTradingDataQuote g w now symbol config = (.ok q, g4)) :
    g4 = successState g w now "worldtradingdata" := by
  unfold getWorldTradingDataQuote at h
  split at h
  · simp at h
  · dsimp only at h
    split at h
    · simp at h
    · simp at h
    · next heq =>
      have := makeApiCall_ok_state _ _ _ _ _ _ _ heq
      split at h
      · split at h
        · simp at h
        · simp only [Prod.mk.injEq] at h
          rw [← h.2, this]
      · simp at h

theorem getMarketStackQuote_ok_state (g : Gateway) (w : World) (now : Nat) (symbol : String)
    (config : Config) (q : Quote) (g4 : Gateway)
    (h : getMarketStackQuote g w now symbol config = (.ok q, g4)) :
    g4 = successState g w now "marketstack" := by
  unfold getMarketStackQuote at h
  split at h
  · simp at h
  · dsimp only at h
    split at h
    · simp at h
    · simp at h
    · next heq =>
      have := makeApiCall_ok_state _ _ _ _ _ _ _ heq
      split at h
      · split at h
        · simp at h
        · simp only [Prod.mk.injEq] at h
          rw [← h.2, this]
      · simp at h

theorem getAlphaVantageQuote_ok_state (g : Gateway) (w : World) (now : Nat) (symbol : String)
    (config : Config) (q : Quote) (c4 : Config) (g4 : Gateway)
    (h : getAlphaVantageQuote g w now symbol config = (.ok q, c4, g4)) :
    g4 = successState g w now "alphavantage" := by
  unfold getAlphaVantageQuote at h
  split at h
  · simp at h
  · split at h
    · simp at h
    · dsimp only at h
      split at h
      · simp at h
      · simp at h
      · next heq =>
        have := makeApiCall_ok_state _ _ _ _ _ _ _ heq
        simp only [Prod.mk.injEq] at h
        rw [← h.2.2, this]

theorem callAdapter_ok_state (g : Gateway) (w : World) (now : Nat) (symbol : String)
    (config : Config) (provider : String) (q : Quote) (g4 : Gateway)
    (h : callAdapter g w now symbol config provider = (.ok q, g4)) :
    g4 = successState g w now provider := by
  unfold callAdapter at h
  split at h
  · next hp =>
    subst hp
    simp only [Prod.mk.injEq] at h
    exact getAlphaVantageQuote_ok_state g w now symbol config q
      (getAlphaVantageQuote g w now symbol config).2.1 g4
      (by rw [← h.1, ← h.2])
  · split at h
    · next hp => subst hp; exact getTwelveDataQuote_ok_state g w now symbol config q g4 h
    · split at h
      · next hp => subst hp; exact getFinnhubQuote_ok_state g w now symbol config q g4 h
      · split at h
        · next hp => subst hp; exact getIEXCloudQuote_ok_state g w now symbol config q g4 h
        · split at h
          · next hp => subst hp; exact getPolygonQuote_ok_state g w now symbol config q g4 h
          · split at h
            · next hp =>
              subst hp
              exact getWorldTradingDataQuote_ok_state g w now symbol config q g4 h
            · split at h
              · next hp =>
                subst hp
                exact getMarketStackQuote_ok_state g w now symbol config q g4 h
              · simp at h

theorem getStockQuote_of_adapter_ok (g : Gateway) (w : World) (now : Nat) (symbol : String)
    (config config' : Config) (g3 g4 : Gateway) (provider : String) (q : Quote)
    (hmiss : (getCachedData g w now ("quote_" ++ symbol)).1 = none)
    (hcfg : getApiConfig (checkAndResetRateLimits g w now) w now = .ok config)
    (hbest : getBestProvider (checkAndResetRateLimits g w now) w now config
      = (.ok (some provider), config', g3))
    (hname : provider ≠ "")
    (hok : callAdapter g3 w now symbol config' provider = (.ok q, g4)) :
    getStockQuote g w now symbol
      = (.ok q, setCachedData g4 w now ("quote_" ++ symbol) q 5) := by
  have hst := getCachedData_miss_state g w now _ hmiss
  unfold getStockQuote
  simp only
  cases hc : getCachedData g w now ("quote_" ++ symbol) with
  | mk r g1 =>
    rw [hc] at hmiss hst
    simp only at hmiss hst
    subst hmiss
    subst hst
    simp only [hcfg, hbest, hname, if_false, hok]

theorem getStockQuote_of_hit (g : Gateway) (w : World) (now : Nat) (symbol : String) (q : Quote)
    (hhit : (getCachedData g w now ("quote_" ++ symbol)).1 = some q) :
    getStockQuote g w now symbol = (.ok q, (getCachedData g w now ("quote_" ++ symbol)).2) := by
  unfold getStockQuote
  simp only
  cases hc : getCachedData g w now ("quote_" ++ symbol) with
  | mk r g1 =>
    rw [hc] at hhit
    simp only at hhit
    subst hhit
    rfl

theorem getCachedData_frame (g : Gateway) (w : World) (now : Nat) (key : String) :
    (getCachedData g w now key).2.useMongoDb = g.useMongoDb
      ∧ (getCachedData g w now key).2.env = g.env
      ∧ (getCachedData g w now key).2.mongoConfig = g.mongoConfig
      ∧ (getCachedData g w now key).2.fileConfig = g.fileConfig
      ∧ (getCachedData g w now key).2.mongoRateLimits = g.mongoRateLimits
      ∧ (getCachedData g w now key).2.fileRateLimits = g.fileRateLimits
      ∧ (getCachedData g w now key).2.mongoCache = g.mongoCache
      ∧ (getCachedData g w now key).2.fileCache = g.fileCache
      ∧ (getCachedData g w now key).2.rateLimits = g.rateLimits
      ∧ (getCachedData g w now key).2.providerFailureCount = g.providerFailureCount
      ∧ (getCachedData g w now key).2.fetchCalls = g.fetchCalls := by
  unfold getCachedData
  split
  · exact ⟨rfl, rfl, rfl, rfl, rfl, rfl, rfl, rfl, rfl, rfl, rfl⟩
  · split
    · exact ⟨rfl, rfl, rfl, rfl, rfl, rfl, rfl, rfl, rfl, rfl, rfl⟩
    · split <;> exact ⟨rfl, rfl, rfl, rfl, rfl, rfl, rfl, rfl, rfl, rfl, rfl⟩

theorem setCachedData_frame (g : Gateway) (w : World) (now : Nat) (key : String) (data : Quote)
    (ttlMinutes : Int) :
    (setCachedData g w now key data ttlMinutes).rateLimits = g.rateLimits
      ∧ (setCachedData g w now key data ttlMinutes).providerFailureCount
          = g.providerFailureCount
      ∧ (setCachedData g w now key data ttlMinutes).fetchCalls = g.fetchCalls
      ∧ (setCachedData g w now key data ttlMinutes).mongoConfig = g.mongoConfig
      ∧ (setCachedData g w now key data ttlMinutes).fileConfig = g.fileConfig := by
  unfold setCachedData
  simp only
  split <;> exact ⟨rfl, rfl, rfl, rfl, rfl⟩

theorem setCachedData_durable (g : Gateway) (w : World) (now : Nat) (key : String) (data : Quote)
    (ttlMinutes : Int) :
    ((g.useMongoDb && !w.mongoThrows) = true →
        (jsGet key (setCachedData g w now key data ttlMinutes).mongoCache).map
          (fun c => c.expiresAt) = some ((now : Int) + ttlMinutes * 60 * 1000))
      ∧ ((g.useMongoDb && !w.mongoThrows) = false → w.fileWriteFails = false →
          (jsGet key ((setCachedData g w now key data ttlMinutes).fileCache.getD [])).map
            (fun c => c.expiresAt) = some ((now : Int) + ttlMinutes * 60 * 1000)) := by
  unfold setCachedData writeJsonFile
  constructor
  · intro h
    simp [h, jsGet_jsSet_self]
  · intro h hf
    simp [h, hf, jsGet_jsSet_self]

theorem getStockQuote_success_facts (g : Gateway) (w : World) (now : Nat) (symbol : String)
    (config config' : Config) (g3 g4 : Gateway) (provider : String) (q : Quote)
    (hmiss : (getCachedData g w now ("quote_" ++ symbol)).1 = none)
    (hcfg : getApiConfig (checkAndResetRateLimits g w now) w now = .ok config)
    (hbest : getBestProvider (checkAndResetRateLimits g w now) w now config
      = (.ok (some provider), config', g3))
    (hname : provider ≠ "")
    (hok : callAdapter g3 w now symbol config' provider = (.ok q, g4)) :
    (getStockQuote g w now symbol).1 = .ok q
      ∧ (getStockQuote g w now symbol).2.fetchCalls = g.fetchCalls + 1
      ∧ jsGet ("quote_" ++ symbol) (getStockQuote g w now symbol).2.cache = some q := by
  have hres := getStockQuote_of_adapter_ok g w now symbol config config' g3 g4 provider q
    hmiss hcfg hbest hname hok
  have hg4 := callAdapter_ok_state g3 w now symbol config' provider q g4 hok
  subst hg4
  obtain ⟨_, _, _, _, b5, _, _, _⟩ :=
    getBestProvider_frame (checkAndResetRateLimits g w now) w now config
  rw [hbest] at b5
  simp only at b5
  obtain ⟨_, _, _, _, _, _, _, _, r9⟩ := checkAndResetRateLimits_frame g w now
  obtain ⟨_, _, _, _, _, _, _, _, s9⟩ := successState_frame g3 w now provider
  obtain ⟨_, _, f3, _, _⟩ :=
    setCachedData_frame (successState g3 w now provider) w now ("quote_" ++ symbol) q 5
  rw [hres]
  refine ⟨rfl, ?_, ?_⟩
  · simp only
    rw [f3, s9, b5, r9]
  · simp only
    rw [setCachedData_cache, jsGet_jsSet_self]

theorem getCachedData_of_memory (g : Gateway) (w : World) (now : Nat) (key : String) (q : Quote)
    (h : jsGet key g.cache = some q) : getCachedData g w now key = (some q, g) := by
  unfold getCachedData
  simp [jsHas, h]

theorem hasCapacity_of_pending (g : Gateway) (now : Nat) (provider : String) (config : Config)
    (pc : ProviderConfig) (hpc : jsGet provider config.providers = some pc)
    (hrt : ResetPending now pc) : (hasCapacity g now provider config).1 = .ok false := by
  rw [hasCapacity_result]
  obtain ⟨t, ht, hlt⟩ := hrt
  have ht0 : t ≠ 0 := by
    intro h0
    rw [h0] at hlt
    exact absurd hlt (not_lt.mpr (Int.ofNat_nonneg now))
  have hlim : (pc.view now).limitedNow = true := by
    simp [ProviderConfig.view, ht, timeTruthy, ht0, hlt]
  simp only [viewOf, hpc, Option.map_some', capacityOf, hlim, if_true]
  split <;> rfl

theorem alphaVantagePayload_rate_limit (w : World) (now : Nat) (config : Config)
    (pc : ProviderConfig) (data : JsValue) (hpc : jsGet "alphavantage" config.providers = some pc)
    (herr : (data.getOpt "Error Message").truthy = false)
    (hnote : (data.getOpt "Note").truthy = true ∨ (data.getOpt "Information").truthy = true) :
    alphaVantagePayload w now config data
      = (.error alphaVantageLimitError,
          { config with
            providers := jsSet "alphavantage" (limitedRecord w now pc) config.providers }) := by
  have hobj : ∃ fields, data = .obj fields := by
    cases data with
    | obj fields => exact ⟨fields, rfl⟩
    | undefined => simp [JsValue.getOpt, JsValue.truthy] at hnote
    | null => simp [JsValue.getOpt, JsValue.truthy] at hnote
    | bool b => simp [JsValue.getOpt, JsValue.truthy] at hnote
    | num n => simp [JsValue.getOpt, JsValue.truthy] at hnote
    | str s => simp [JsValue.getOpt, JsValue.truthy] at hnote
    | arr xs => simp [JsValue.getOpt, JsValue.truthy] at hnote
  obtain ⟨fields, hd⟩ := hobj
  subst hd
  have hor : (((JsValue.obj fields).getOpt "Note").truthy
      || ((JsValue.obj fields).getOpt "Information").truthy) = true := by
    rcases hnote with h | h
    · simp [h]
    · simp [h]
  have hget : (JsValue.obj fields).get "Error Message"
      = .ok ((JsValue.obj fields).getOpt "Error Message") := rfl
  unfold alphaVantagePayload
  simp only [hget, herr, Bool.false_eq_true, if_false, hor, if_true]
  unfold handleAlphaVantageRateLimit
  simp only [hpc]
  rfl

theorem getAlphaVantageQuote_rate_limit (g : Gateway) (w : World) (now : Nat) (symbol : String)
    (config : Config) (pc : ProviderConfig) (data : JsValue)
    (hpc : jsGet "alphavantage" config.providers = some pc) (hnp : ¬ ResetPending now pc)
    (hfetch : ∀ url, (w.fetch url).succeeded data)
    (herr : (data.getOpt "Error Message").truthy = false)
    (hnote : (data.getOpt "Note").truthy = true ∨ (data.getOpt "Information").truthy = true) :
    getAlphaVantageQuote g w now symbol config
      = (.error alphaVantageLimitError,
          { config with
            providers := jsSet "alphavantage" (limitedRecord w now pc) config.providers },
          successState g w now "alphavantage") := by
  have hlim : (timeTruthy pc.resetTime && decide ((now : Int) < pc.resetTime.getD 0)) = false := by
    cases hr : pc.resetTime with
    | none => simp [timeTruthy]
    | some t =>
      have : ¬ ((now : Int) < t) := fun hlt => hnp ⟨t, hr, hlt⟩
      simp [this]
  unfold getAlphaVantageQuote
  simp only [hpc, hlim, Bool.false_eq_true, if_false]
  rw [makeApiCall_success g w now _ "alphavantage" data (hfetch _)]
  simp only [alphaVantagePayload_rate_limit w now config pc data hpc herr hnote]

theorem handleProviderFailure_frame (g : Gateway) (w : World) (now : Nat) (p : String)
    (err : JsError) :
    (handleProviderFailure g w now p err).2.useMongoDb = g.useMongoDb
      ∧ (handleProviderFailure g w now p err).2.env = g.env
      ∧ (handleProviderFailure g w now p err).2.rateLimits = g.rateLimits
      ∧ (handleProviderFailure g w now p err).2.fetchCalls = g.fetchCalls
      ∧ (handleProviderFailure g w now p err).2.cache = g.cache
      ∧ (handleProviderFailure g w now p err).2.mongoCache = g.mongoCache
      ∧ (handleProviderFailure g w now p err).2.fileCache = g.fileCache := by
  unfold handleProviderFailure
  split
  · exact ⟨rfl, rfl, rfl, rfl, rfl, rfl, rfl⟩
  · split
    · dsimp only
      split
      · split
        · exact ⟨rfl, rfl, rfl, rfl, rfl, rfl, rfl⟩
        · exact ⟨(saveApiConfig_frame _ _ _ _).1, (saveApiConfig_frame _ _ _ _).2.1,
            (saveApiConfig_frame _ _ _ _).2.2.1, (saveApiConfig_frame _ _ _ _).2.2.2.2.1,
            (saveApiConfig_frame _ _ _ _).2.2.2.2.2.1, (saveApiConfig_frame _ _ _ _).2.2.2.2.2.2.1,
            (saveApiConfig_frame _ _ _ _).2.2.2.2.2.2.2⟩
      · exact ⟨rfl, rfl, rfl, rfl, rfl, rfl, rfl⟩
    · exact ⟨rfl, rfl, rfl, rfl, rfl, rfl, rfl⟩

theorem fetchResult_succeeded_of_not_failed (r : FetchResult) (h : r.failed = false) :
    ∃ data, r.succeeded data := by
  cases r with
  | throws err => simp [FetchResult.failed] at h
  | response ok status statusText body =>
    cases ok with
    | false => simp [FetchResult.failed] at h
    | true =>
      cases body with
      | error e => simp [FetchResult.failed] at h
      | ok d => exact ⟨d, status, statusText, rfl⟩

theorem makeApiCall_frame (g : Gateway) (w : World) (now : Nat) (url p : String) :
    (makeApiCall g w now url p).2.useMongoDb = g.useMongoDb
      ∧ (makeApiCall g w now url p).2.env = g.env
      ∧ (makeApiCall g w now url p).2.fetchCalls = g.fetchCalls + 1
      ∧ (makeApiCall g w now url p).2.cache = g.cache
      ∧ (makeApiCall g w now url p).2.mongoCache = g.mongoCache
      ∧ (makeApiCall g w now url p).2.fileCache = g.fileCache := by
  cases hfailed : (w.fetch url).failed with
  | true =>
    obtain ⟨err, herr⟩ := makeApiCall_failed_state g w now url p hfailed
    obtain ⟨h1, h2, _, h4, h5, h6, h7⟩ :=
      handleProviderFailure_frame { g with fetchCalls := g.fetchCalls + 1 } w now p err
    rw [herr]
    exact ⟨h1, h2, h4, h5, h6, h7⟩
  | false =>
    obtain ⟨d, hd⟩ := fetchResult_succeeded_of_not_failed _ hfailed
    obtain ⟨h1, h2, _, _, h5, h6, h7, _, h9⟩ := successState_frame g w now p
    rw [makeApiCall_success g w now url p d hd]
    exact ⟨h1, h2, h9, h5, h6, h7⟩

theorem atMostOneCall_frame {g : Gateway} {w : World} {now : Nat} {name : String} {s : Gateway}
    (h : AtMostOneCall g w now name s) :
    s.useMongoDb = g.useMongoDb ∧ s.env = g.env
      ∧ g.fetchCalls ≤ s.fetchCalls ∧ s.fetchCalls ≤ g.fetchCalls + 1
      ∧ s.cache = g.cache ∧ s.mongoCache = g.mongoCache ∧ s.fileCache = g.fileCache := by
  rcases h with h | ⟨url, h⟩
  · subst h
    exact ⟨rfl, rfl, le_refl _, Nat.le_succ _, rfl, rfl, rfl⟩
  · obtain ⟨h1, h2, h3, h4, h5, h6⟩ := makeApiCall_frame g w now url name
    subst h
    exact ⟨h1, h2, by omega, by omega, h4, h5, h6⟩

theorem getTwelveDataQuote_calls (g : Gateway) (w : World) (now : Nat) (symbol : String)
    (config : Config) :
    AtMostOneCall g w now "twelvedata" (getTwelveDataQuote g w now symbol config).2 := by
  unfold getTwelveDataQuote AtMostOneCall
  split
  · exact Or.inl rfl
  · right
    dsimp only
    split
    · next heq => exact ⟨_, (congrArg Prod.snd heq).symm⟩
    · next heq => exact ⟨_, (congrArg Prod.snd heq).symm⟩
    · next heq => split <;> exact ⟨_, (congrArg Prod.snd heq).symm⟩

theorem getFinnhubQuote_calls (g : Gateway) (w : World) (now : Nat) (symbol : String)
    (config : Config) :
    AtMostOneCall g w now "finnhub" (getFinnhubQuote g w now symbol config).2 := by
  unfold getFinnhubQuote AtMostOneCall
  split
  · exact Or.inl rfl
  · right
    dsimp only
    split
    · next heq => exact ⟨_, (congrArg Prod.snd heq).symm⟩
    · next heq => exact ⟨_, (congrArg Prod.snd heq).symm⟩
    · next heq => split <;> exact ⟨_, (congrArg Prod.snd heq).symm⟩

theorem getIEXCloudQuote_calls (g : Gateway) (w : World) (now : Nat) (symbol : String)
    (config : Config) :
    AtMostOneCall g w now "iexcloud" (getIEXCloudQuote g w now symbol config).2 := by
  unfold getIEXCloudQuote AtMostOneCall
  split
  · exact Or.inl rfl
  · right
    dsimp only
    split
    · next heq => exact ⟨_, (congrArg Prod.snd heq).symm⟩
    · next heq => exact ⟨_, (congrArg Prod.snd heq).symm⟩
    · next heq => split <;> exact ⟨_, (congrArg Prod.snd heq).symm⟩

theorem getPolygonQuote_calls (g : Gateway) (w : World) (now : Nat) (symbol : String)
    (config : Config) :
    AtMostOneCall g w now "polygon" (getPolygonQuote g w now symbol config).2 := by
  unfold getPolygonQuote AtMostOneCall
  split
  · exact Or.inl rfl
  · right
    dsimp only
    split
    · next heq => exact ⟨_, (congrArg Prod.snd heq).symm⟩
    · next heq => exact ⟨_, (congrArg Prod.snd heq).symm⟩
    · next heq => split <;> exact ⟨_, (congrArg Prod.snd heq).symm⟩

theorem getMarketStackQuote_calls (g : Gateway) (w : World) (now : Nat) (symbol : String)
    (config : Config) :
    AtMostOneCall g w now "marketstack" (getMarketStackQuote g w now symbol config).2 := by
  unfold getMarketStackQuote AtMostOneCall
  split
  · exact Or.inl rfl
  · right
    dsimp only
    split
    · next heq => exact ⟨_, (congrArg Prod.snd heq).symm⟩
    · next heq => exact ⟨_, (congrArg Prod.snd heq).symm⟩
    · next heq =>
      split
      · split <;> exact ⟨_, (congrArg Prod.snd heq).symm⟩
      · exact ⟨_, (congrArg Prod.snd heq).symm⟩

theorem getWorldTradingDataQuote_calls (g : Gateway) (w : World) (now : Nat) (symbol : String)
    (config : Config) :
    AtMostOneCall g w now "worldtradingdata" (getWorldTradingDataQuote g w now symbol config).2 := by
  unfold getWorldTradingDataQuote AtMostOneCall
  split
  · exact Or.inl rfl
  · right
    dsimp only
    split
    · next heq => exact ⟨_, (congrArg Prod.snd heq).symm⟩
    · next heq => exact ⟨_, (congrArg Prod.snd heq).symm⟩
    · next heq =>
      split
      · split <;> exact ⟨_, (congrArg Prod.snd heq).symm⟩
      · exact ⟨_, (congrArg Prod.snd heq).symm⟩

theorem getAlphaVantageQuote_calls (g : Gateway) (w : World) (now : Nat) (symbol : String)
    (config : Config) :
    AtMostOneCall g w now "alphavantage" (getAlphaVantageQuote g w now symbol config).2.2 := by
  unfold getAlphaVantageQuote AtMostOneCall
  split
  · exact Or.inl rfl
  · split
    · exact Or.inl rfl
    · right
      dsimp only
      split
      · next heq => exact ⟨_, (congrArg Prod.snd heq).symm⟩
      · next heq => exact ⟨_, (congrArg Prod.snd heq).symm⟩
      · next heq => exact ⟨_, (congrArg Prod.snd heq).symm⟩

theorem callAdapter_calls (g : Gateway) (w : World) (now : Nat) (symbol : String)
    (config : Config) (provider : String) :
    AtMostOneCall g w now provider (callAdapter g w now symbol config provider).2 := by
  unfold callAdapter
  split
  · next hp => subst hp; exact getAlphaVantageQuote_calls g w now symbol config
  · split
    · next hp => subst hp; exact getTwelveDataQuote_calls g w now symbol config
    · split
      · next hp => subst hp; exact getFinnhubQuote_calls g w now symbol config
      · split
        · next hp => subst hp; exact getIEXCloudQuote_calls g w now symbol config
        · split
          · next hp => subst hp; exact getPolygonQuote_calls g w now symbol config
          · split
            · next hp => subst hp; exact getWorldTradingDataQuote_calls g w now symbol config
            · split
              · next hp => subst hp; exact getMarketStackQuote_calls g w now symbol config
              · exact Or.inl rfl

theorem getStockQuote_fetchCalls (g : Gateway) (w : World) (now : Nat) (symbol : String) :
    g.fetchCalls ≤ (getStockQuote g w now symbol).2.fetchCalls
      ∧ (getStockQuote g w now symbol).2.fetchCalls ≤ g.fetchCalls + 1 := by
  cases hc : (getCachedData g w now ("quote_" ++ symbol)).1 with
  | some q =>
    rw [getStockQuote_of_hit g w now symbol q hc]
    have h := (getCachedData_frame g w now ("quote_" ++ symbol)).2.2.2.2.2.2.2.2.2.2
    simp only [h]
    omega
  | none =>
    have hst := getCachedData_miss_state g w now _ hc
    have h0 := (checkAndResetRateLimits_frame g w now).2.2.2.2.2.2.2.2
    unfold getStockQuote
    simp only
    cases hcd : getCachedData g w now ("quote_" ++ symbol) with
    | mk r g1 =>
      rw [hcd] at hc hst
      simp only at hc hst
      subst hc
      subst hst
      simp only
      cases hcfg : getApiConfig (checkAndResetRateLimits g1 w now) w now with
      | error e => simp only [h0]; omega
      | ok config =>
        simp only
        have hb := (getBestProvider_frame (checkAndResetRateLimits g1 w now) w now
          config).2.2.2.2.1
        cases hbest : getBestProvider (checkAndResetRateLimits g1 w now) w now config with
        | mk rb rest =>
          obtain ⟨config', g3⟩ := rest
          rw [hbest] at hb
          simp only at hb
          cases rb with
          | error e => simp only [hb, h0]; omega
          | ok o =>
            cases o with
            | none => simp only [hb, h0]; omega
            | some provider =>
              simp only
              split
              · simp only [hb, h0]; omega
              · have ha := atMostOneCall_frame (callAdapter_calls g3 w now symbol config' provider)
                cases hcall : callAdapter g3 w now symbol config' provider with
                | mk ra g4 =>
                  rw [hcall] at ha
                  simp only at ha
                  obtain ⟨_, _, a3, a4, _, _, _⟩ := ha
                  cases ra with
                  | error e => simp only; omega
                  | ok q =>
                    have hs := (setCachedData_frame g4 w now ("quote_" ++ symbol) q 5).2.2.1
                    simp only [hs]
                    omega

theorem digitChar_isDigit (d : Fin 10) : (digitChar d).isDigit = true := by
  revert d; decide

theorem digitChar_toNat (d : Fin 10) : (digitChar d).toNat - 48 = d.val := by
  revert d; decide

theorem digitChar_ne (d : Fin 10) :
    digitChar d ≠ '%' ∧ digitChar d ≠ '-' ∧ digitChar d ≠ '+' ∧ digitChar d ≠ 'I'
      ∧ (digitChar d).isWhitespace = false := by
  revert d; decide

theorem digitsValue_digits (l : List (Fin 10)) :
    digitsValue (l.map digitChar) = Nat.ofDigits 10 (l.reverse.map Fin.val) := by
  induction l using List.reverseRecOn with
  | nil => rfl
  | append_singleton l a ih =>
    unfold digitsValue at ih ⊢
    rw [List.map_append, List.foldl_append, ih]
    simp [Nat.ofDigits_cons, digitChar_toNat]
    omega

theorem takeWhile_digits (l : List (Fin 10)) :
    (l.map digitChar).takeWhile Char.isDigit = l.map digitChar
      ∧ (l.map digitChar).dropWhile Char.isDigit = [] := by
  have hall : ∀ a ∈ l.map digitChar, Char.isDigit a = true := by
    intro a ha
    obtain ⟨d, _, rfl⟩ := List.mem_map.mp ha
    exact digitChar_isDigit d
  have h1 := @List.takeWhile_append_of_pos _ _ _ ([] : List Char) hall
  have h2 := @List.dropWhile_append_of_pos _ _ _ ([] : List Char) hall
  simpa using And.intro h1 h2

theorem scan_digit_head (d : Fin 10) (r : List Char) :
    (digitChar d :: r).dropWhile Char.isWhitespace = digitChar d :: r
      ∧ scanSign (digitChar d :: r) = (false, digitChar d :: r)
      ∧ ("Infinity".toList).isPrefixOf (digitChar d :: r) = false := by
  fin_cases d <;> exact ⟨rfl, rfl, rfl⟩

theorem scanNumber_digits (sgn : Bool) (cs : List Char) (d : Fin 10) (ds fracs : List (Fin 10))
    (hs : scanSign cs = (sgn, (d :: ds).map digitChar ++
      (if fracs.isEmpty then [] else '.' :: fracs.map digitChar))) :
    (scanNumber cs).1
      = .val ((if sgn then -(((digitsValue (((d :: ds) ++ fracs).map digitChar) : Nat) : Rat)
                  / (10 : Rat) ^ fracs.length)
               else ((digitsValue (((d :: ds) ++ fracs).map digitChar) : Nat) : Rat)
                  / (10 : Rat) ^ fracs.length)) := by
  have hall : ∀ a ∈ (d :: ds).map digitChar, Char.isDigit a = true := by
    intro a ha
    obtain ⟨x, _, rfl⟩ := List.mem_map.mp ha
    exact digitChar_isDigit x
  unfold scanNumber
  simp only [hs]
  rw [List.map_cons, List.cons_append, (scan_digit_head d _).2.2]
  simp only [Bool.false_eq_true, if_false]
  rw [← List.cons_append, ← List.map_cons]
  rw [List.takeWhile_append_of_pos hall, List.dropWhile_append_of_pos hall]
  cases fracs with
  | nil =>
    simp [scanExponent]
  | cons f fs =>
    have ht := takeWhile_digits (f :: fs)
    rw [List.map_cons] at ht
    simp [scanExponent, ht.1, ht.2]

theorem numeral_chars_no_percent (n : Numeral) : '%' ∉ n.chars := by
  have hd : ∀ l : List (Fin 10), '%' ∉ l.map digitChar := by
    intro l hmem
    obtain ⟨x, _, hx⟩ := List.mem_map.mp hmem
    exact (digitChar_ne x).1 hx
  unfold Numeral.chars
  intro hmem
  rcases List.mem_append.mp hmem with h | h
  · cases hneg : n.neg <;> simp [hneg] at h
  · rcases List.mem_append.mp h with h | h
    · exact hd _ h
    · cases hf : n.fracDigits.isEmpty
      · simp only [hf, Bool.false_eq_true, if_false, List.mem_cons] at h
        rcases h with h | h
        · simp at h
        · exact hd _ h
      · simp [hf] at h

theorem parseFloat_numeral (n : Numeral) (hn : n.intDigits ≠ []) (s : String)
    (hs : s.toList = n.chars) : parseFloat (.str s) = .val n.value := by
  obtain ⟨neg, ints, fracs⟩ := n
  cases ints with
  | nil => exact absurd rfl hn
  | cons d ds =>
    have hpf : parseFloat (.str s) = (scanNumber (s.toList.dropWhile Char.isWhitespace)).1 := rfl
    rw [hpf, hs]
    have hval : ∀ sgn : Bool,
        JsNum.val (if sgn then -(((digitsValue (((d :: ds) ++ fracs).map digitChar) : Nat) : Rat)
                  / (10 : Rat) ^ fracs.length)
               else ((digitsValue (((d :: ds) ++ fracs).map digitChar) : Nat) : Rat)
                  / (10 : Rat) ^ fracs.length)
          = .val (Numeral.value ⟨sgn, d :: ds, fracs⟩) := by
      intro sgn
      unfold Numeral.value
      rw [digitsValue_digits]
    cases neg with
    | false =>
      have hc : (Numeral.chars ⟨false, d :: ds, fracs⟩)
          = digitChar d :: (ds.map digitChar ++
              (if fracs.isEmpty then [] else '.' :: fracs.map digitChar)) := rfl
      rw [hc, (scan_digit_head d _).1, ← hval false]
      exact scanNumber_digits false _ d ds fracs (scan_digit_head d _).2.1
    | true =>
      have hc : (Numeral.chars ⟨true, d :: ds, fracs⟩)
          = '-' :: digitChar d :: (ds.map digitChar ++
              (if fracs.isEmpty then [] else '.' :: fracs.map digitChar)) := rfl
      rw [hc, ← hval true]
      exact scanNumber_digits true _ d ds fracs rfl

theorem parseFloat_percent (n : Numeral) (hn : n.intDigits ≠ []) (pct : String)
    (hs : pct.toList = n.chars ++ ['%']) :
    parseFloat (.str (String.mk (pct.toList.erase '%'))) = .val n.value := by
  apply parseFloat_numeral n hn
  rw [hs, List.erase_append_right _ (numeral_chars_no_percent n)]
  simp

theorem getTwelveDataQuote_note (g : Gateway) (w : World) (now : Nat) (symbol : String)
    (config : Config) (q : Quote) (g4 : Gateway)
    (h : getTwelveDataQuote g w now symbol config = (.ok q, g4)) : q.note = none := by
  unfold getTwelveDataQuote at h
  split at h
  · simp at h
  · dsimp only at h
    split at h
    · simp at h
    · simp at h
    · split at h
      · simp only [Prod.mk.injEq, Except.ok.injEq] at h
        rw [← h.1]
      · simp at h

theorem getFinnhubQuote_note (g : Gateway) (w : World) (now : Nat) (symbol : String)
    (config : Config) (q : Quote) (g4 : Gateway)
    (h : getFinnhubQuote g w now symbol config = (.ok q, g4)) : q.note = none := by
  unfold getFinnhubQuote at h
  split at h
  · simp at h
  · dsimp only at h
    split at h
    · simp at h
    · simp at h
    · split at h
      · simp only [Prod.mk.injEq, Except.ok.injEq] at h
        rw [← h.1]
      · simp at h

theorem getIEXCloudQuote_note (g : Gateway) (w : World) (now : Nat) (symbol : String)
    (config : Config) (q : Quote) (g4 : Gateway)
    (h : getIEXCloudQuote g w now symbol config = (.ok q, g4)) : q.note = none := by
  unfold getIEXCloudQuote at h
  split at h
  · simp at h
  · dsimp only at h
    split at h
    · simp at h
    · simp at h
    · split at h
      · simp only [Prod.mk.injEq, Except.ok.injEq] at h
        rw [← h.1]
      · simp at h

theorem getWorldTradingDataQuote_note (g : Gateway) (w : World) (now : Nat) (symbol : String)
    (config : Config) (q : Quote) (g4 : Gateway)
    (h : getWorldTradingDataQuote g w now symbol config = (.ok q, g4)) : q.note = none := by
  unfold getWorldTradingDataQuote at h
  split at h
  · simp at h
  · dsimp only at h
    split at h
    · simp at h
    · simp at h
    · split at h
      · split at h
        · simp at h
        · simp only [Prod.mk.injEq, Except.ok.injEq] at h
          rw [← h.1]
      · simp at h

theorem getMarketStackQuote_note (g : Gateway) (w : World) (now : Nat) (symbol : String)
    (config : Config) (q : Quote) (g4 : Gateway)
    (h : getMarketStackQuote g w now symbol config = (.ok q, g4)) : q.note = none := by
  unfold getMarketStackQuote at h
  split at h
  · simp at h
  · dsimp only at h
    split at h
    · simp at h
    · simp at h
    · split at h
      · split at h
        · simp at h
        · simp only [Prod.mk.injEq, Except.ok.injEq] at h
          rw [← h.1]
      · simp at h

theorem alphaVantagePayload_note (w : World) (now : Nat) (config config' : Config)
    (data : JsValue) (q : Quote)
    (h : alphaVantagePayload w now config data = (.ok q, config')) : q.note = none := by
  unfold alphaVantagePayload at h
  split at h
  · simp at h
  · split at h
    · simp at h
    · split at h
      · split at h <;> simp at h
      · dsimp only at h
        split at h
        · split at h
          · simp only [Prod.mk.injEq, Except.ok.injEq] at h
            rw [← h.1]
          · simp at h
          · simp at h
          · simp at h
        · simp at h

theorem getAlphaVantageQuote_note (g : Gateway) (w : World) (now : Nat) (symbol : String)
    (config : Config) (q : Quote) (c4 : Config) (g4 : Gateway)
    (h : getAlphaVantageQuote g w now symbol config = (.ok q, c4, g4)) : q.note = none := by
  unfold getAlphaVantageQuote at h
  split at h
  · simp at h
  · split at h
    · simp at h
    · dsimp only at h
      split at h
      · simp at h
      · simp at h
      · next data g1 heq =>
        simp only [Prod.mk.injEq] at h
        exact alphaVantagePayload_note w now config _ data q (Prod.ext h.1 rfl)

theorem jsGet_map_names {α : Type} (f : String → α) (names : List String) (p : String)
    (hp : p ∈ names) : jsGet p (names.map (fun n => (n, f n))) = some (f p) := by
  induction names with
  | nil => simp at hp
  | cons n rest ih =>
    simp only [List.map_cons, jsGet]
    by_cases h : n = p
    · simp [h]
    · simp only [h, if_false]
      rcases List.mem_cons.mp hp with h1 | h1
      · exact absurd h1.symm h
      · exact ih h1

theorem callAdapter_state_of_succeeded (g : Gateway) (w : World) (now : Nat) (symbol : String)
    (config : Config) (provider : String) (pc : ProviderConfig) (data : JsValue)
    (hfetch : ∀ url, (w.fetch url).succeeded data)
    (hpc : jsGet provider config.providers = some pc) (hnp : ¬ ResetPending now pc)
    (hcase : provider ∈ adapterNames) :
    (callAdapter g w now symbol config provider).2 = successState g w now provider := by
  have hlim : (timeTruthy pc.resetTime && decide ((now : Int) < pc.resetTime.getD 0)) = false := by
    cases hr : pc.resetTime with
    | none => simp [timeTruthy]
    | some t =>
      have : ¬ ((now : Int) < t) := fun hlt => hnp ⟨t, hr, hlt⟩
      simp [this]
  unfold callAdapter
  split
  · next hp =>
    subst hp
    unfold getAlphaVantageQuote
    simp only [hpc, hlim, Bool.false_eq_true, if_false]
    rw [makeApiCall_success g w now _ "alphavantage" data (hfetch _)]
  · split
    · next hp =>
      subst hp
      unfold getTwelveDataQuote
      simp only [hpc]
      rw [makeApiCall_success g w now _ "twelvedata" data (hfetch _)]
      simp only
      split <;> rfl
    · split
      · next hp =>
        subst hp
        unfold getFinnhubQuote
        simp only [hpc]
        rw [makeApiCall_success g w now _ "finnhub" data (hfetch _)]
        simp only
        split <;> rfl
      · split
        · next hp =>
          subst hp
          unfold getIEXCloudQuote
          simp only [hpc]
          rw [makeApiCall_success g w now _ "iexcloud" data (hfetch _)]
          simp only
          split <;> rfl
        · split
          · next hp =>
            subst hp
            unfold getPolygonQuote
            simp only [hpc]
            rw [makeApiCall_success g w now _ "polygon" data (hfetch _)]
            simp only
            split <;> rfl
          · split
            · next hp =>
              subst hp
              unfold getWorldTradingDataQuote
              simp only [hpc]
              rw [makeApiCall_success g w now _ "worldtradingdata" data (hfetch _)]
              simp only
              split
              · split <;> rfl
              · rfl
            · split
              · next hp =>
                subst hp
                unfold getMarketStackQuote
                simp only [hpc]
                rw [makeApiCall_success g w now _ "marketstack" data (hfetch _)]
                simp only
                split
                · split <;> rfl
                · rfl
              · next h1 h2 h3 h4 h5 h6 h7 =>
                simp [adapterNames] at hcase
                rcases hcase with h | h | h | h | h | h | h
                · exact absurd h h1
                · exact absurd h h2
                · exact absurd h h3
                · exact absurd h h4
                · exact absurd h h5
                · exact absurd h h6
                · exact absurd h h7

theorem getCachedData_congr (g g' : Gateway) (w : World) (now : Nat) (key : String)
    (h1 : g'.cache = g.cache) (h2 : g'.useMongoDb = g.useMongoDb)
    (h3 : g'.mongoCache = g.mongoCache) (h4 : g'.fileCache = g.fileCache) :
    (getCachedData g' w now key).1 = (getCachedData g w now key).1 := by
  unfold getCachedData
  rw [h1, h2, h3, h4]
  split
  · rfl
  · split
    · rfl
    · split <;> rfl

/-! ## The claims -/

/-- C1 (the code at the failing input): with the default configuration and every
provider's ledger count above its daily limit, `getStockQuote("AAPL")` raises
`No available API providers with remaining capacity` instead of returning a quote. -/
theorem C1_getStockQuote_raises_when_quota_exhausted :
    (getStockQuote (sampleGateway (usedLedger 0 1000000) none) {} 1000 "AAPL").1
      = .error noProviderError :=
  rfl

/-- C2 (the code at the failing input): with no cache entry and every provider
disabled in the configuration file, `getBestProvider` returns `null` and
`getStockQuote("AAPL")` raises instead of returning the offline sample quote. -/
theorem C2_getStockQuote_raises_when_all_disabled :
    (getCachedData (sampleGateway (freshLedger 0) (some allDisabledConfig)) {} 1000
        ("quote_" ++ "AAPL")).1 = none
      ∧ (getBestProvider (sampleGateway (freshLedger 0) (some allDisabledConfig)) {} 1000
          allDisabledConfig).1 = .ok none
      ∧ (getStockQuote (sampleGateway (freshLedger 0) (some allDisabledConfig)) {} 1000 "AAPL").1
          = .error noProviderError :=
  ⟨rfl, rfl, rfl⟩

/-- C3: on a cache miss with a loaded configuration and a selected provider
(`getBestProvider` returned a non-empty name), whenever the selected provider's
adapter throws, for whatever reason, `getStockQuote(symbol)` returns exactly
`getOfflineSampleQuote(symbol)` instead of raising; this is what happens whenever
the upstream call fails (`fetch` rejects, non-2xx status, unparsable body); the
returned quote has provider `offline-sample`. -/
theorem C3_adapter_failure_returns_offline_sample (g : Gateway) (w : World) (now : Nat)
    (symbol : String) (config config' : Config) (g3 : Gateway) (provider : String)
    (hmiss : (getCachedData g w now ("quote_" ++ symbol)).1 = none)
    (hcfg : getApiConfig (checkAndResetRateLimits g w now) w now = .ok config)
    (hbest : getBestProvider (checkAndResetRateLimits g w now) w now config
      = (.ok (some provider), config', g3))
    (hname : provider ≠ "") :
    (∀ e g4, callAdapter g3 w now symbol config' provider = (.error e, g4) →
        getStockQuote g w now symbol = (.ok (getOfflineSampleQuote symbol now w.random), g4))
      ∧ ((∀ url, (w.fetch url).failed = true) →
          ∃ g4, getStockQuote g w now symbol
            = (.ok (getOfflineSampleQuote symbol now w.random), g4))
      ∧ (getOfflineSampleQuote symbol now w.random).provider = "offline-sample" := by
  refine ⟨?_, ?_, rfl⟩
  · intro e g4 hfail
    exact getStockQuote_of_adapter_error g w now symbol config config' g3 g4 provider e
      hmiss hcfg hbest hname hfail
  · intro hf
    obtain ⟨e, g4, hfail⟩ := callAdapter_of_failed g3 w now symbol config' provider hf
    exact ⟨g4, getStockQuote_of_adapter_error g w now symbol config config' g3 g4 provider e
      hmiss hcfg hbest hname hfail⟩

/-- Witness for C3: default configuration, fresh ledger, the network is down:
`twelvedata` is selected, its call fails, the offline sample comes back. -/
theorem C3_witness :
    (getCachedData (sampleGateway (freshLedger 0) none) networkDown 1000 ("quote_" ++ "AAPL")).1
        = none
      ∧ (getBestProvider (checkAndResetRateLimits (sampleGateway (freshLedger 0) none)
            networkDown 1000) networkDown 1000 (defaultConfig [] 1000)).1
          = .ok (some "twelvedata")
      ∧ ∃ g4, getStockQuote (sampleGateway (freshLedger 0) none) networkDown 1000 "AAPL"
          = (.ok (getOfflineSampleQuote "AAPL" 1000 networkDown.random), g4) :=
  ⟨rfl, rfl,
   (C3_adapter_failure_returns_offline_sample (sampleGateway (freshLedger 0) none) networkDown
      1000 "AAPL" (defaultConfig [] 1000) _ _ "twelvedata" rfl rfl rfl (by decide)).2.1
      (fun _ => rfl)⟩

/-- C4 (the code at the failing input): a quote stored at time 0 with a ttl of
5 minutes gets `expiresAt = 300000` in the durable tier, yet `getCachedData`
still returns it from the in-process map at `now = 300000` and a day later; a
process whose in-process map is empty reads the same durable entry as absent. -/
theorem C4_in_process_tier_ignores_expiry :
    (jsGet "quote_MSFT"
        ((setCachedData (sampleGateway [] none) {} 0 "quote_MSFT" sampleQuote 5).fileCache.getD
          [])).map (fun c => c.expiresAt) = some 300000
      ∧ (getCachedData (setCachedData (sampleGateway [] none) {} 0 "quote_MSFT" sampleQuote 5)
          {} 300000 "quote_MSFT").1 = some sampleQuote
      ∧ (getCachedData (setCachedData (sampleGateway [] none) {} 0 "quote_MSFT" sampleQuote 5)
          {} 86400000 "quote_MSFT").1 = some sampleQuote
      ∧ (getCachedData
          { setCachedData (sampleGateway [] none) {} 0 "quote_MSFT" sampleQuote 5 with cache := [] }
          {} 300000 "quote_MSFT").1 = none :=
  ⟨rfl, rfl, rfl, rfl⟩

/-- C5: for every key, value `v` and ttl, `setCachedData(key, v, ttl)` followed by
`getCachedData(key)` returns `v`, whatever the storage faults during the write
(`w`) and the read (`w'`) and whatever the two clock readings are. -/
theorem C5_set_then_get_returns_value (g : Gateway) (w w' : World) (now now' : Nat)
    (key : String) (v : Quote) (ttlMinutes : Int) :
    (getCachedData (setCachedData g w now key v ttlMinutes) w' now' key).1 = some v := by
  unfold getCachedData
  simp only [setCachedData_cache, jsHas_jsSet_self, if_true, jsGet_jsSet_self]

/-- C6: when every configured provider has a ledger record, `getBestProvider(config)`
returns; a returned provider `p` is configured, passes `checkProviderAvailability`
and `hasCapacity`, and its priority is at most that of every configured provider
passing both checks; the result is `null` exactly when no configured provider
passes both checks.  With A (priority 2) before B (priority 1): both eligible
gives B, B out of quota gives A, both out of quota or both disabled gives `null`. -/
theorem C6_getBestProvider_lowest_priority_eligible (g : Gateway) (w : World) (now : Nat)
    (config : Config)
    (hled : ∀ n ∈ config.providers.map Prod.fst, (jsGet n g.rateLimits).isSome = true) :
    (∃ r c' g', getBestProvider g w now config = (.ok r, c', g')
      ∧ (∀ p, r = some p →
          p ∈ config.providers.map Prod.fst ∧ PassesChecks g w now config p
            ∧ ∀ q ∈ config.providers.map Prod.fst, PassesChecks g w now config q →
                priorityOf config p ≤ priorityOf config q)
      ∧ (r = none ↔ ∀ q ∈ config.providers.map Prod.fst, ¬ PassesChecks g w now config q))
    ∧ (getBestProvider (sampleGateway (sampleLedger 0 0) none) {} 1000
          (sampleConfig (sampleProvider true 2) (sampleProvider true 1))).1
        = .ok (some "providerB")
    ∧ (getBestProvider (sampleGateway (sampleLedger 0 10) none) {} 1000
          (sampleConfig (sampleProvider true 2) (sampleProvider true 1))).1
        = .ok (some "providerA")
    ∧ (getBestProvider (sampleGateway (sampleLedger 10 10) none) {} 1000
          (sampleConfig (sampleProvider true 2) (sampleProvider true 1))).1 = .ok none
    ∧ (getBestProvider (sampleGateway (sampleLedger 0 0) none) {} 1000
          (sampleConfig (sampleProvider false 2) (sampleProvider false 1))).1 = .ok none := by
  refine ⟨?_, rfl, rfl, rfl, rfl⟩
  obtain ⟨r, c', g', h⟩ := getBestProvider_total g w now config hled
  have hsome : ∀ p, r = some p →
      p ∈ config.providers.map Prod.fst ∧ PassesChecks g w now config p
        ∧ ∀ q ∈ config.providers.map Prod.fst, PassesChecks g w now config q →
            priorityOf config p ≤ priorityOf config q := by
    intro p hp
    subst hp
    obtain ⟨n1, n2, hn, hel, h1, h2⟩ := getBestProvider_some_spec g w now config p c' g' h
    refine ⟨by rw [hn]; simp, (isEligible_iff g w now config p).mp hel, ?_⟩
    intro q hq hpq
    have hqe := (isEligible_iff g w now config q).mpr hpq
    rw [hn] at hq
    rcases List.mem_append.mp hq with hq | hq
    · exact le_of_lt (h1 q hq hqe)
    · rcases List.mem_cons.mp hq with hq | hq
      · subst hq; exact le_refl _
      · exact h2 q hq hqe
  refine ⟨r, c', g', h, hsome, ?_⟩
  constructor
  · intro hr
    subst hr
    intro q hq hpq
    have := getBestProvider_none_spec g w now config c' g' h q hq
    rw [(isEligible_iff g w now config q).mpr hpq] at this
    simp at this
  · intro hnone
    cases r with
    | none => rfl
    | some p =>
      obtain ⟨hp, hpass, _⟩ := hsome p rfl
      exact absurd hpass (hnone p hp)

/-- Witness for C6: the default table with a fresh ledger (all eight names
have a record): the call returns, and what it returns passes both checks. -/
theorem C6_witness :
    (∀ n ∈ (defaultConfig [] 1000).providers.map Prod.fst,
        (jsGet n (sampleGateway (freshLedger 0) none).rateLimits).isSome = true)
      ∧ ∃ r c' g',
          getBestProvider (sampleGateway (freshLedger 0) none) {} 1000 (defaultConfig [] 1000)
            = (.ok r, c', g')
          ∧ ∀ p, r = some p →
              PassesChecks (sampleGateway (freshLedger 0) none) {} 1000 (defaultConfig [] 1000) p :=
  ⟨by decide,
   match (C6_getBestProvider_lowest_priority_eligible (sampleGateway (freshLedger 0) none) {} 1000
      (defaultConfig [] 1000) (by decide)).1 with
   | ⟨r, c', g', h, hsome, _⟩ => ⟨r, c', g', h, fun p hp => (hsome p hp).2.1⟩⟩

/-- C7: when every configured provider has a ledger record and some configured
provider passes both checks, `getBestProvider(config)` returns a provider `p`
that splits the configuration order as `before ++ p :: after` such that every
eligible provider in `before` has a strictly larger priority and every eligible
provider in `after` has a larger or equal priority: among the eligible providers
sharing the lowest priority, the first in configuration order is returned. -/
theorem C7_getBestProvider_ties_keep_config_order (g : Gateway) (w : World) (now : Nat)
    (config : Config)
    (hled : ∀ n ∈ config.providers.map Prod.fst, (jsGet n g.rateLimits).isSome = true)
    (q0 : String) (hq0 : q0 ∈ config.providers.map Prod.fst)
    (hpass : PassesChecks g w now config q0) :
    ∃ p c' g' before after,
      getBestProvider g w now config = (.ok (some p), c', g')
        ∧ config.providers.map Prod.fst = before ++ p :: after
        ∧ PassesChecks g w now config p
        ∧ (∀ q ∈ before, PassesChecks g w now config q →
            priorityOf config p < priorityOf config q)
        ∧ (∀ q ∈ after, PassesChecks g w now config q →
            priorityOf config p ≤ priorityOf config q) := by
  obtain ⟨r, c', g', h⟩ := getBestProvider_total g w now config hled
  cases r with
  | none =>
    have := getBestProvider_none_spec g w now config c' g' h q0 hq0
    rw [(isEligible_iff g w now config q0).mpr hpass] at this
    simp at this
  | some p =>
    obtain ⟨n1, n2, hn, hel, h1, h2⟩ := getBestProvider_some_spec g w now config p c' g' h
    exact ⟨p, c', g', n1, n2, h, hn, (isEligible_iff g w now config p).mp hel,
      fun q hq hpq => h1 q hq ((isEligible_iff g w now config q).mpr hpq),
      fun q hq hpq => h2 q hq ((isEligible_iff g w now config q).mpr hpq)⟩

/-- Witness for C7: A and B both eligible with the same priority 1. -/
theorem C7_witness :
    ∃ p c' g' before after,
      getBestProvider (sampleGateway (sampleLedger 0 0) none) {} 1000
          (sampleConfig (sampleProvider true 1) (sampleProvider true 1)) = (.ok (some p), c', g')
        ∧ (sampleConfig (sampleProvider true 1) (sampleProvider true 1)).providers.map Prod.fst
            = before ++ p :: after
        ∧ PassesChecks (sampleGateway (sampleLedger 0 0) none) {} 1000
            (sampleConfig (sampleProvider true 1) (sampleProvider true 1)) p
        ∧ (∀ q ∈ before, PassesChecks (sampleGateway (sampleLedger 0 0) none) {} 1000
              (sampleConfig (sampleProvider true 1) (sampleProvider true 1)) q →
            priorityOf (sampleConfig (sampleProvider true 1) (sampleProvider true 1)) p
              < priorityOf (sampleConfig (sampleProvider true 1) (sampleProvider true 1)) q)
        ∧ (∀ q ∈ after, PassesChecks (sampleGateway (sampleLedger 0 0) none) {} 1000
              (sampleConfig (sampleProvider true 1) (sampleProvider true 1)) q →
            priorityOf (sampleConfig (sampleProvider true 1) (sampleProvider true 1)) p
              ≤ priorityOf (sampleConfig (sampleProvider true 1) (sampleProvider true 1)) q) :=
  C7_getBestProvider_ties_keep_config_order (sampleGateway (sampleLedger 0 0) none) {} 1000
    (sampleConfig (sampleProvider true 1) (sampleProvider true 1)) (by decide)
    "providerB" (by decide) ⟨rfl, rfl⟩

/-- C8: for a provider that is enabled, whose `resetTime` is null or already
past, and that has a ledger record, `hasCapacity(provider, config)` returns
`rateLimits[provider].requests < config.providers[provider].dailyLimit`. -/
theorem C8_hasCapacity_is_quota_test (g : Gateway) (now : Nat) (provider : String)
    (config : Config) (pc : ProviderConfig) (limits : RateLimitState)
    (hpc : jsGet provider config.providers = some pc) (hen : pc.enabled = true)
    (hrt : ¬ ResetPending now pc) (hl : jsGet provider g.rateLimits = some limits) :
    (hasCapacity g now provider config).1 = .ok (decide (limits.requests < pc.dailyLimit)) :=
  hasCapacity_of_no_pending g now provider config pc limits hpc hen hrt hl

/-- Witness for C8: `providerB` with 10 of 10 requests used has no capacity. -/
theorem C8_witness :
    (hasCapacity (sampleGateway (sampleLedger 0 10) none) 1000 "providerB"
        (sampleConfig (sampleProvider true 2) (sampleProvider true 1))).1
      = .ok (decide ((10 : Int) < 10)) :=
  C8_hasCapacity_is_quota_test (sampleGateway (sampleLedger 0 10) none) 1000 "providerB"
    (sampleConfig (sampleProvider true 2) (sampleProvider true 1)) (sampleProvider true 1)
    { requests := 10, lastReset := 0 } rfl rfl
    (by rintro ⟨t, ht, _⟩; simp [sampleProvider] at ht) rfl

/-- C9: for a provider whose `resetTime` is non-null and still in the future,
`hasCapacity(provider, config)` returns `false` whatever the ledger holds (even
without a ledger record) and whatever `dailyLimit` is, and `getBestProvider`
does not return that provider. -/
theorem C9_pending_reset_blocks_provider (g : Gateway) (w : World) (now : Nat)
    (provider : String) (config : Config) (pc : ProviderConfig)
    (hpc : jsGet provider config.providers = some pc) (hrt : ResetPending now pc) :
    (hasCapacity g now provider config).1 = .ok false
      ∧ (getBestProvider g w now config).1 ≠ .ok (some provider) := by
  have hcap : (hasCapacity g now provider config).1 = .ok false := by
    rw [hasCapacity_result]
    obtain ⟨t, ht, hlt⟩ := hrt
    have ht0 : t ≠ 0 := by
      intro h0
      rw [h0] at hlt
      exact absurd hlt (not_lt.mpr (Int.ofNat_nonneg now))
    have hlim : (pc.view now).limitedNow = true := by
      simp [ProviderConfig.view, ht, timeTruthy, ht0, hlt]
    simp only [viewOf, hpc, Option.map_some', capacityOf, hlim, if_true]
    split <;> rfl
  refine ⟨hcap, ?_⟩
  intro hsel
  have hfull : getBestProvider g w now config
      = (.ok (some provider), (getBestProvider g w now config).2.1,
          (getBestProvider g w now config).2.2) := by
    rw [← hsel]
  obtain ⟨_, _, _, hel, _, _⟩ := getBestProvider_some_spec g w now config provider _ _ hfull
  have := ((isEligible_iff g w now config provider).mp hel).2
  rw [hcap] at this
  simp at this

/-- Witness for C9: the default Alpha Vantage record (reset pending for 24
hours) has no capacity although its ledger count is 0, and is not selected. -/
theorem C9_witness :
    (hasCapacity (sampleGateway (freshLedger 0) none) 1000 "alphavantage"
        (defaultConfig [] 1000)).1 = .ok false
      ∧ (getBestProvider (sampleGateway (freshLedger 0) none) {} 1000 (defaultConfig [] 1000)).1
          ≠ .ok (some "alphavantage") :=
  C9_pending_reset_blocks_provider (sampleGateway (freshLedger 0) none) {} 1000 "alphavantage"
    (defaultConfig [] 1000) _ rfl ⟨_, rfl, by decide⟩

/-- C10: for an enabled provider with no pending `resetTime` whose ledger record
starts at `requests = 0`, after `N` calls of `incrementRateLimit(provider)`
(each under any storage faults and clock) `hasCapacity(provider, config)` returns
`N < dailyLimit`; in particular it is `true` for every `N` below the limit and
`false` at `N = dailyLimit`. -/
theorem C10_capacity_after_N_calls (g : Gateway) (calls : List (World × Nat)) (now : Nat)
    (provider : String) (config : Config) (pc : ProviderConfig) (lastReset : Int)
    (hpc : jsGet provider config.providers = some pc) (hen : pc.enabled = true)
    (hrt : ¬ ResetPending now pc)
    (h0 : jsGet provider g.rateLimits = some { requests := 0, lastReset := lastReset }) :
    (hasCapacity (incrementMany g provider calls) now provider config).1
        = .ok (decide ((calls.length : Int) < pc.dailyLimit))
      ∧ ((calls.length : Int) = pc.dailyLimit →
          (hasCapacity (incrementMany g provider calls) now provider config).1 = .ok false) := by
  have hget := incrementMany_get provider lastReset calls g 0 h0
  have h := hasCapacity_of_no_pending (incrementMany g provider calls) now provider config pc _
    hpc hen hrt hget
  simp only [zero_add] at h
  refine ⟨h, ?_⟩
  intro hN
  rw [h, hN]
  simp

/-- Witness for C10: two calls against a daily limit of 10 leave capacity. -/
theorem C10_witness :
    (hasCapacity (incrementMany (sampleGateway (sampleLedger 0 0) none) "providerA"
        [({}, 5), ({ fileWriteFails := true }, 6)]) 1000 "providerA"
        (sampleConfig (sampleProvider true 2) (sampleProvider true 1))).1
      = .ok (decide (((2 : Nat) : Int) < 10)) :=
  (C10_capacity_after_N_calls (sampleGateway (sampleLedger 0 0) none)
    [({}, 5), ({ fileWriteFails := true }, 6)] 1000 "providerA"
    (sampleConfig (sampleProvider true 2) (sampleProvider true 1)) (sampleProvider true 2) 0
    rfl rfl (by rintro ⟨t, ht, _⟩; simp [sampleProvider] at ht) rfl).1

/-- C11: for each of the eight ledger providers, `checkAndResetRateLimits` at
time `now` sets `requests = 0` and `lastReset = now` when `now - lastReset` is at
least 24 hours and leaves the record unchanged when it is less; hence the
counter is reset exactly when the 24-hour window has elapsed.  A window started
25 hours ago is reset. -/
theorem C11_reset_exactly_after_24_hours (g : Gateway) (w : World) (now : Nat)
    (provider : String) (r : RateLimitState) (hp : provider ∈ providerNames)
    (hr : jsGet provider g.rateLimits = some r) :
    (dayMs ≤ (now : Int) - r.lastReset →
        jsGet provider (checkAndResetRateLimits g w now).rateLimits
          = some { requests := 0, lastReset := (now : Int) })
      ∧ ((now : Int) - r.lastReset < dayMs →
          jsGet provider (checkAndResetRateLimits g w now).rateLimits = some r)
      ∧ ((now : Int) - r.lastReset = 25 * 60 * 60 * 1000 →
          jsGet provider (checkAndResetRateLimits g w now).rateLimits
            = some { requests := 0, lastReset := (now : Int) }) := by
  have hget := checkAndResetRateLimits_get g w now provider
  simp only [hp, if_true, hr, Option.map_some'] at hget
  have hyes : dayMs ≤ (now : Int) - r.lastReset →
      jsGet provider (checkAndResetRateLimits g w now).rateLimits
        = some { requests := 0, lastReset := (now : Int) } := by
    intro h
    rw [hget, resetRecord, if_pos ((shouldResetRateLimit_iff now r.lastReset).mpr h)]
  refine ⟨hyes, ?_, ?_⟩
  · intro h
    have hno : ¬ shouldResetRateLimit now r.lastReset = true :=
      fun hs => absurd ((shouldResetRateLimit_iff now r.lastReset).mp hs) (not_le.mpr h)
    rw [hget, resetRecord, if_neg hno]
  · intro h
    apply hyes
    rw [h]
    decide

/-- Witness for C11: at `now` = 25 hours, a ledger whose records all started at
time 0 with one million requests has `twelvedata` back at zero. -/
theorem C11_witness :
    jsGet "twelvedata"
        (checkAndResetRateLimits (sampleGateway (usedLedger 0 1000000) none) {} 90000000).rateLimits
      = some { requests := 0, lastReset := ((90000000 : Nat) : Int) } :=
  (C11_reset_exactly_after_24_hours (sampleGateway (usedLedger 0 1000000) none) {} 90000000
    "twelvedata" { requests := 1000000, lastReset := 0 } (by decide) rfl).1 (by decide)

/-- C12: `incrementRateLimit(p)` raises the `requests` of `p`'s record by exactly 1,
keeps its `lastReset`, and leaves every other provider's record as it was; and
while `now - lastReset` is below 24 hours neither `incrementRateLimit` (for any
provider) nor `checkAndResetRateLimits` lowers a record's `requests` or moves its
`lastReset`. -/
theorem C12_requests_grow_within_window (g : Gateway) (w : World) (now : Nat) (p : String)
    (r : RateLimitState) (hr : jsGet p g.rateLimits = some r) :
    jsGet p (incrementRateLimit g w now p).rateLimits
        = some { requests := r.requests + 1, lastReset := r.lastReset }
      ∧ (∀ q, q ≠ p →
          jsGet q (incrementRateLimit g w now p).rateLimits = jsGet q g.rateLimits)
      ∧ (∀ p' : String, ∃ r', jsGet p (incrementRateLimit g w now p').rateLimits = some r'
          ∧ r.requests ≤ r'.requests ∧ r'.lastReset = r.lastReset)
      ∧ ((now : Int) - r.lastReset < dayMs →
          jsGet p (checkAndResetRateLimits g w now).rateLimits = some r) := by
  have hinc := incrementRateLimit_get g w now p r hr
  refine ⟨hinc, fun q hq => incrementRateLimit_get_other g w now p q hq, ?_, ?_⟩
  · intro p'
    by_cases h : p = p'
    · subst h
      exact ⟨_, hinc, by simp, rfl⟩
    · exact ⟨r, by rw [incrementRateLimit_get_other g w now p' p h, hr], le_refl _, rfl⟩
  · intro h
    have hget := checkAndResetRateLimits_get g w now p
    have hno : ¬ shouldResetRateLimit now r.lastReset = true :=
      fun hs => absurd ((shouldResetRateLimit_iff now r.lastReset).mp hs) (not_le.mpr h)
    rw [hget, hr]
    simp [resetRecord, hno]

/-- Witness for C12: one recorded call for `providerA` at 3 of 10 requests. -/
theorem C12_witness :
    jsGet "providerA"
        (incrementRateLimit (sampleGateway (sampleLedger 3 5) none) {} 1000 "providerA").rateLimits
      = some { requests := 3 + 1, lastReset := 0 } :=
  (C12_requests_grow_within_window (sampleGateway (sampleLedger 3 5) none) {} 1000 "providerA"
    { requests := 3, lastReset := 0 } rfl).1

/-- C13: start from a store whose loaded configuration has the provider enabled
and from failure count 0, and apply `k` network-class failures under fault-free
storage.  The failure count is then `k mod 3`.  For `k < 3` the stored
configuration is unchanged, the provider is still enabled and the count is `k`.
For `k ≥ 3` the loaded configuration has the provider auto-disabled: `enabled =
false`, `disabledUntil` = the time of the last tripping failure + 30 minutes, the
reason set, and `checkProviderAvailability` false.  After exactly three failures
`disabledUntil` is the third failure's time + 30 minutes and the count is 0. -/
theorem C13_three_network_failures_auto_disable (g : Gateway) (p : String)
    (calls : List (World × Nat × JsError)) (hen : EnabledIn g p) (h0 : failureCount g p = 0)
    (hall : ∀ c ∈ calls, c.1.reliable = true ∧ isNetworkError c.2.2 = true) :
    failureCount (failMany g p calls) p = calls.length % 3
      ∧ (calls.length < 3 →
          (failMany g p calls).mongoConfig = g.mongoConfig
            ∧ (failMany g p calls).fileConfig = g.fileConfig
            ∧ EnabledIn (failMany g p calls) p
            ∧ failureCount (failMany g p calls) p = calls.length)
      ∧ (3 ≤ calls.length → ∃ c, calls[lastTripIndex calls.length]? = some c
          ∧ AutoDisabled (failMany g p calls) p ((c.2.1 : Int) + PROVIDER_DISABLE_DURATION))
      ∧ (∀ c1 c2 c3, calls = [c1, c2, c3] →
          AutoDisabled (failMany g p calls) p ((c3.2.1 : Int) + 30 * 60 * 1000)
            ∧ failureCount (failMany g p calls) p = 0) := by
  obtain ⟨i1, i2, i3, i4, i5⟩ := failMany_inv g p hen h0 calls hall
  refine ⟨i3, ?_, i5, ?_⟩
  · intro hk
    refine ⟨(i4 hk).1, (i4 hk).2, enabledIn_congr hen i1 i2 (i4 hk).1 (i4 hk).2, ?_⟩
    rw [i3]
    exact Nat.mod_eq_of_lt hk
  · intro c1 c2 c3 hc
    subst hc
    obtain ⟨c, hc, hdis⟩ := i5 (by simp)
    have : c = c3 := by
      simp [lastTripIndex] at hc
      exact hc.symm
    subst this
    exact ⟨hdis, by rw [i3]; simp⟩

/-- Witness for C13: three time-outs for `providerA` at times 1000, 2000, 3000
leave it auto-disabled until 3000 + 30 minutes with the count back at 0. -/
theorem C13_witness :
    AutoDisabled (failMany abGateway "providerA" threeFailures) "providerA"
        (((3000 : Nat) : Int) + 30 * 60 * 1000)
      ∧ failureCount (failMany abGateway "providerA" threeFailures) "providerA" = 0 :=
  (C13_three_network_failures_auto_disable abGateway "providerA" threeFailures
    abGateway_enabledIn rfl (by decide)).2.2.2 _ _ _ rfl

/-- C14 (the code at the failing input): `providerA` is auto-disabled by three
time-outs at times 1000, 2000, 3000, so `disabledUntil = 1803000`.  At
`now = 2000000`, after the window, the loaded record still has `enabled = false`
with both fields set, `checkProviderAvailability` returns `false` and returns the
configuration and the store untouched: nothing is cleared or persisted. -/
theorem C14_auto_disabled_provider_is_never_reenabled :
    ((getApiConfig (failMany abGateway "providerA" threeFailures) {} 2000000).toOption.bind
        (fun c => jsGet "providerA" c.providers)).map
          (fun pc => (pc.enabled, pc.disabledUntil, pc.disabledReason))
        = some (false, some 1803000, some autoDisableReason)
      ∧ (getApiConfig (failMany abGateway "providerA" threeFailures) {} 2000000).toOption.map
          (fun c => (checkProviderAvailability (failMany abGateway "providerA" threeFailures) {}
            2000000 "providerA" c).1) = some false
      ∧ (getApiConfig (failMany abGateway "providerA" threeFailures) {} 2000000).toOption.map
          (fun c => decide ((checkProviderAvailability (failMany abGateway "providerA" threeFailures)
            {} 2000000 "providerA" c).2.1 = c)) = some true
      ∧ (getApiConfig (failMany abGateway "providerA" threeFailures) {} 2000000).toOption.map
          (fun c => (checkProviderAvailability (failMany abGateway "providerA" threeFailures) {}
            2000000 "providerA" c).2.2.fileConfig)
        = some (failMany abGateway "providerA" threeFailures).fileConfig := by
  refine ⟨by decide, by decide, by decide, by decide⟩

/-- C15: an error whose message contains none of the network tokens and whose
code is none of them leaves the whole gateway state (failure counters,
stored configuration) unchanged in `handleProviderFailure`, and so does any
sequence of such errors; `HTTP 500: Internal Server Error` is such an error, and
a non-OK response whose `HTTP <status>: <statusText>` message has no network
token changes nothing in `makeApiCall` but the count of requests sent. -/
theorem C15_application_errors_do_not_count (g : Gateway) (p : String)
    (calls : List (World × Nat × JsError))
    (happ : ∀ c ∈ calls, ∀ t ∈ networkErrors,
      strIncludes c.2.2.message t = false ∧ c.2.2.code ≠ some t) :
    failMany g p calls = g
      ∧ (∀ c ∈ calls, (handleProviderFailure g c.1 c.2.1 p c.2.2).2 = g)
      ∧ isNetworkError { message := "HTTP 500: Internal Server Error" } = false
      ∧ (∀ (w : World) (now : Nat) (url : String) (status : Nat) (statusText : String)
          (body : Except JsError JsValue),
          w.fetch url = .response false status statusText body →
          isNetworkError { message := "HTTP " ++ toString status ++ ": " ++ statusText } = false →
          (makeApiCall g w now url p).2 = { g with fetchCalls := g.fetchCalls + 1 }) := by
  have hall : ∀ c ∈ calls, isNetworkError c.2.2 = false :=
    fun c hc => (isNetworkError_eq_false_iff c.2.2).mpr (happ c hc)
  refine ⟨failMany_not_network g p calls hall, ?_, by decide, ?_⟩
  · intro c hc
    exact handleProviderFailure_not_network g c.1 c.2.1 p c.2.2 (hall c hc)
  · intro w now url status statusText body hf hnet
    unfold makeApiCall
    simp only [hf, Bool.not_false, if_true]
    have := handleProviderFailure_not_network { g with fetchCalls := g.fetchCalls + 1 } w now p
      { message := "HTTP " ++ toString status ++ ": " ++ statusText } hnet
    revert this
    generalize handleProviderFailure { g with fetchCalls := g.fetchCalls + 1 } w now p
      { message := "HTTP " ++ toString status ++ ": " ++ statusText } = res
    obtain ⟨r, g1⟩ := res
    intro h
    simp only at h
    subst h
    cases r <;> rfl

/-- Witness for C15: five HTTP 500 errors in a row for `providerA`. -/
theorem C15_witness :
    failMany abGateway "providerA"
        (List.replicate 5 ({}, 1000, { message := "HTTP 500: Internal Server Error" }))
      = abGateway :=
  (C15_application_errors_do_not_count abGateway "providerA"
    (List.replicate 5 ({}, 1000, { message := "HTTP 500: Internal Server Error" }))
    (by decide)).1

/-- C16: a successful `makeApiCall` (OK status, body parses) returns the data and
leaves the provider's failure count at 0 whatever it was before, so any call
followed by a success ends at count 0; and from count 0 the sequence failure,
failure, success, failure, failure leaves the stored configuration untouched
(no auto-disable) with a count of at most 2. -/
theorem C16_success_clears_failure_count (g : Gateway) (p : String)
    (c1 c2 c3 c4 c5 : World × Nat × String) (data : JsValue)
    (h3 : (c3.1.fetch c3.2.2).succeeded data) :
    (makeApiCall g c3.1 c3.2.1 c3.2.2 p).1 = .ok (.success data)
      ∧ failureCount (makeApiCall g c3.1 c3.2.1 c3.2.2 p).2 p = 0
      ∧ failureCount (callMany g p [c1, c3]) p = 0
      ∧ (failureCount g p = 0 →
          (c1.1.fetch c1.2.2).failed = true → (c2.1.fetch c2.2.2).failed = true →
          (c4.1.fetch c4.2.2).failed = true → (c5.1.fetch c5.2.2).failed = true →
          (callMany g p [c1, c2, c3, c4, c5]).mongoConfig = g.mongoConfig
            ∧ (callMany g p [c1, c2, c3, c4, c5]).fileConfig = g.fileConfig
            ∧ failureCount (callMany g p [c1, c2, c3, c4, c5]) p ≤ 2) := by
  have hs : ∀ st : Gateway, makeApiCall st c3.1 c3.2.1 c3.2.2 p
      = (.ok (.success data), successState st c3.1 c3.2.1 p) :=
    fun st => makeApiCall_success st c3.1 c3.2.1 c3.2.2 p data h3
  refine ⟨by rw [hs], ?_, ?_, ?_⟩
  · rw [hs]
    exact (successState_frame g c3.1 c3.2.1 p).2.2.2.2.2.2.2.1
  · simp only [callMany, List.foldl_cons, List.foldl_nil, hs]
    exact (successState_frame _ c3.1 c3.2.1 p).2.2.2.2.2.2.2.1
  · intro h0 f1 f2 f4 f5
    simp only [callMany, List.foldl_cons, List.foldl_nil, hs]
    obtain ⟨a1, a2, a3⟩ := makeApiCall_failed_small g c1.1 c1.2.1 c1.2.2 p f1 (by omega)
    obtain ⟨b1, b2, _⟩ := makeApiCall_failed_small (makeApiCall g c1.1 c1.2.1 c1.2.2 p).2
      c2.1 c2.2.1 c2.2.2 p f2 (by omega)
    obtain ⟨_, _, s3, s4, _, _, _, s8, _⟩ :=
      successState_frame (makeApiCall (makeApiCall g c1.1 c1.2.1 c1.2.2 p).2
        c2.1 c2.2.1 c2.2.2 p).2 c3.1 c3.2.1 p
    obtain ⟨d1, d2, d3⟩ := makeApiCall_failed_small
      (successState (makeApiCall (makeApiCall g c1.1 c1.2.1 c1.2.2 p).2
        c2.1 c2.2.1 c2.2.2 p).2 c3.1 c3.2.1 p) c4.1 c4.2.1 c4.2.2 p f4 (by omega)
    obtain ⟨e1, e2, e3⟩ := makeApiCall_failed_small
      (makeApiCall (successState (makeApiCall (makeApiCall g c1.1 c1.2.1 c1.2.2 p).2
        c2.1 c2.2.1 c2.2.2 p).2 c3.1 c3.2.1 p) c4.1 c4.2.1 c4.2.2 p).2
      c5.1 c5.2.1 c5.2.2 p f5 (by omega)
    refine ⟨?_, ?_, by omega⟩
    · rw [e1, d1, s3, b1, a1]
    · rw [e2, d2, s4, b2, a2]

/-- Witness for C16: time-out, time-out, a good answer, time-out, time-out for
`providerA`: the configuration file is as before and the count is at most 2. -/
theorem C16_witness :
    (callMany abGateway "providerA"
        [(networkDown, 1000, "u"), (networkDown, 2000, "u"), (respondsWith .null, 3000, "u"),
         (networkDown, 4000, "u"), (networkDown, 5000, "u")]).fileConfig = abGateway.fileConfig
      ∧ failureCount (callMany abGateway "providerA"
        [(networkDown, 1000, "u"), (networkDown, 2000, "u"), (respondsWith .null, 3000, "u"),
         (networkDown, 4000, "u"), (networkDown, 5000, "u")]) "providerA" ≤ 2 :=
  ((C16_success_clears_failure_count abGateway "providerA"
      (networkDown, 1000, "u") (networkDown, 2000, "u") (respondsWith .null, 3000, "u")
      (networkDown, 4000, "u") (networkDown, 5000, "u") .null ⟨200, "OK", rfl⟩).2.2.2
      rfl rfl rfl rfl rfl).2

/-- C17 (as amended): when `getStockQuote(symbol)` misses the cache, a provider is
selected and its adapter returns a quote `q`, the call returns `q`; the
provider's `requests` is exactly one more than after the call's
`checkAndResetRateLimits` step, hence one more than before the call when its
24-hour window has not elapsed; its failure count is 0; exactly one upstream
request was sent; the in-process map holds `q` under `quote_` + symbol; and the
durable entry written for that key (Mongo, or the file when its write succeeds)
expires at `now` + 5 minutes. -/
theorem C17_success_records_call_and_caches (g : Gateway) (w : World) (now : Nat)
    (symbol : String) (config config' : Config) (g3 g4 : Gateway) (provider : String) (q : Quote)
    (hmiss : (getCachedData g w now ("quote_" ++ symbol)).1 = none)
    (hcfg : getApiConfig (checkAndResetRateLimits g w now) w now = .ok config)
    (hbest : getBestProvider (checkAndResetRateLimits g w now) w now config
      = (.ok (some provider), config', g3))
    (hname : provider ≠ "")
    (hok : callAdapter g3 w now symbol config' provider = (.ok q, g4)) :
    (getStockQuote g w now symbol).1 = .ok q
      ∧ (∃ r, jsGet provider (checkAndResetRateLimits g w now).rateLimits = some r
          ∧ jsGet provider (getStockQuote g w now symbol).2.rateLimits
              = some { requests := r.requests + 1, lastReset := r.lastReset })
      ∧ (∀ r0, jsGet provider g.rateLimits = some r0 → (now : Int) - r0.lastReset < dayMs →
          jsGet provider (getStockQuote g w now symbol).2.rateLimits
            = some { requests := r0.requests + 1, lastReset := r0.lastReset })
      ∧ jsGet provider (getStockQuote g w now symbol).2.providerFailureCount = some 0
      ∧ (getStockQuote g w now symbol).2.fetchCalls = g.fetchCalls + 1
      ∧ jsGet ("quote_" ++ symbol) (getStockQuote g w now symbol).2.cache = some q
      ∧ ((g.useMongoDb && !w.mongoThrows) = true →
          (jsGet ("quote_" ++ symbol) (getStockQuote g w now symbol).2.mongoCache).map
            (fun c => c.expiresAt) = some ((now : Int) + 5 * 60 * 1000))
      ∧ ((g.useMongoDb && !w.mongoThrows) = false → w.fileWriteFails = false →
          (jsGet ("quote_" ++ symbol)
            ((getStockQuote g w now symbol).2.fileCache.getD [])).map
            (fun c => c.expiresAt) = some ((now : Int) + 5 * 60 * 1000)) := by
  have hres := getStockQuote_of_adapter_ok g w now symbol config config' g3 g4 provider q
    hmiss hcfg hbest hname hok
  have hg4 := callAdapter_ok_state g3 w now symbol config' provider q g4 hok
  subst hg4
  obtain ⟨b1, _, b3, b4, b5, _, _, _⟩ :=
    getBestProvider_frame (checkAndResetRateLimits g w now) w now config
  rw [hbest] at b1 b3 b4 b5
  simp only at b1 b3 b4 b5
  obtain ⟨r1, _, _, _, _, _, _, r8, r9⟩ := checkAndResetRateLimits_frame g w now
  obtain ⟨s1, _, _, _, _, _, _, s8, s9⟩ := successState_frame g3 w now provider
  obtain ⟨f1, f2, f3, _, _⟩ :=
    setCachedData_frame (successState g3 w now provider) w now ("quote_" ++ symbol) q 5
  obtain ⟨_, _, _, hel, _, _⟩ :=
    getBestProvider_some_spec (checkAndResetRateLimits g w now) w now config provider config' g3
      hbest
  obtain ⟨r, hr⟩ := Option.isSome_iff_exists.mp (isEligible_ledger _ _ _ _ hel)
  have hfinal : jsGet provider (getStockQuote g w now symbol).2.rateLimits
      = some { requests := r.requests + 1, lastReset := r.lastReset } := by
    rw [hres]
    simp only
    rw [f1, successState_rateLimits]
    exact incrementRateLimit_get g3 w now provider r (by rw [b3]; exact hr)
  have hdur := setCachedData_durable (successState g3 w now provider) w now
    ("quote_" ++ symbol) q 5
  rw [s1, b1, r1] at hdur
  refine ⟨by rw [hres], ⟨r, hr, hfinal⟩, ?_, ?_, ?_, ?_, ?_, ?_⟩
  · intro r0 hr0 hwin
    have hget := checkAndResetRateLimits_get g w now provider
    have hno : ¬ shouldResetRateLimit now r0.lastReset = true :=
      fun hs => absurd ((shouldResetRateLimit_iff now r0.lastReset).mp hs) (not_le.mpr hwin)
    have hsame : jsGet provider (checkAndResetRateLimits g w now).rateLimits = some r0 := by
      rw [hget, hr0]
      by_cases hp : provider ∈ providerNames
      · simp [hp, resetRecord, hno]
      · simp [hp]
    rw [hsame] at hr
    injection hr with hr
    subst hr
    exact hfinal
  · rw [hres]
    simp only
    rw [f2]
    have : failureCount (successState g3 w now provider) provider = 0 := s8
    unfold successState
    simp [jsGet_jsSet_self]
  · rw [hres]
    simp only
    rw [f3, s9, b5, r9]
  · rw [hres]
    simp only
    rw [setCachedData_cache, jsGet_jsSet_self]
  · intro h
    rw [hres]
    exact hdur.1 h
  · intro h hf
    rw [hres]
    exact hdur.2 h hf

/-- Witness for C17 (as amended): default configuration, fresh ledger, TwelveData
answers: the call is served by `twelvedata` and its count goes from 0 to 1. -/
theorem C17_witness :
    ∃ r, jsGet "twelvedata"
          (checkAndResetRateLimits (sampleGateway (freshLedger 0) none)
            (respondsWith twelveDataBody) 1000).rateLimits = some r
      ∧ jsGet "twelvedata"
          (getStockQuote (sampleGateway (freshLedger 0) none) (respondsWith twelveDataBody)
            1000 "MSFT").2.rateLimits
          = some { requests := r.requests + 1, lastReset := r.lastReset } :=
  (C17_success_records_call_and_caches (sampleGateway (freshLedger 0) none)
    (respondsWith twelveDataBody) 1000 "MSFT" (defaultConfig [] 1000) _ _ _ "twelvedata" _
    rfl rfl rfl (by decide) rfl).2.1

/-- C17 (counterexample to the claim as stated): `twelvedata` has 7 requests in
a window that started 25 hours ago; `getStockQuote("MSFT")` misses the cache, is
served by `twelvedata`, and leaves its counter at 1, not at 8. -/
theorem C17_counter_not_increased_after_reset :
    (getCachedData (sampleGateway (usedLedger 0 7) none) (respondsWith twelveDataBody) 90000000
        ("quote_" ++ "MSFT")).1.isNone = true
      ∧ (getStockQuote (sampleGateway (usedLedger 0 7) none) (respondsWith twelveDataBody)
          90000000 "MSFT").1.toOption.map (fun q => q.provider) = some "twelvedata"
      ∧ (jsGet "twelvedata" (sampleGateway (usedLedger 0 7) none).rateLimits).map
          (fun r => r.requests) = some 7
      ∧ (jsGet "twelvedata"
          (getStockQuote (sampleGateway (usedLedger 0 7) none) (respondsWith twelveDataBody)
            90000000 "MSFT").2.rateLimits).map (fun r => r.requests) = some 1
      ∧ (jsGet "twelvedata"
          (getStockQuote (sampleGateway (usedLedger 0 7) none) (respondsWith twelveDataBody)
            90000000 "MSFT").2.rateLimits).map (fun r => r.requests)
          ≠ (jsGet "twelvedata" (sampleGateway (usedLedger 0 7) none).rateLimits).map
              (fun r => r.requests + 1) := by
  refine ⟨by decide, by decide, by decide, by decide, by decide⟩

/-- C18: when the cache answers `quote_` + symbol with `q` (in-process map, or an
unexpired durable entry), `getStockQuote(symbol)` returns `q`, sends no upstream
request and changes no rate-limit counter, failure counter, stored ledger or
stored configuration.  Consequently, after a first call that missed the cache and
was served by a provider with quote `q`, a second call for the same symbol (at any
later time) returns `q` again and the two calls together sent exactly one
upstream request. -/
theorem C18_cache_hit_sends_no_request (g : Gateway) (w : World) (now : Nat) (symbol : String)
    (q : Quote) (hhit : (getCachedData g w now ("quote_" ++ symbol)).1 = some q) :
    ((getStockQuote g w now symbol).1 = .ok q
      ∧ (getStockQuote g w now symbol).2.fetchCalls = g.fetchCalls
      ∧ (getStockQuote g w now symbol).2.rateLimits = g.rateLimits
      ∧ (getStockQuote g w now symbol).2.providerFailureCount = g.providerFailureCount
      ∧ (getStockQuote g w now symbol).2.mongoConfig = g.mongoConfig
      ∧ (getStockQuote g w now symbol).2.fileConfig = g.fileConfig
      ∧ (getStockQuote g w now symbol).2.mongoRateLimits = g.mongoRateLimits
      ∧ (getStockQuote g w now symbol).2.fileRateLimits = g.fileRateLimits)
    ∧ (∀ (g0 : Gateway) (w1 w2 : World) (now1 now2 : Nat) (config config' : Config)
        (g3 g4 : Gateway) (provider : String) (q1 : Quote),
        (getCachedData g0 w1 now1 ("quote_" ++ symbol)).1 = none →
        getApiConfig (checkAndResetRateLimits g0 w1 now1) w1 now1 = .ok config →
        getBestProvider (checkAndResetRateLimits g0 w1 now1) w1 now1 config
          = (.ok (some provider), config', g3) →
        provider ≠ "" →
        callAdapter g3 w1 now1 symbol config' provider = (.ok q1, g4) →
        (getStockQuote g0 w1 now1 symbol).1 = .ok q1
          ∧ (getStockQuote (getStockQuote g0 w1 now1 symbol).2 w2 now2 symbol).1 = .ok q1
          ∧ (getStockQuote (getStockQuote g0 w1 now1 symbol).2 w2 now2 symbol).2.fetchCalls
              = g0.fetchCalls + 1) := by
  constructor
  · have hres := getStockQuote_of_hit g w now symbol q hhit
    obtain ⟨_, _, h3, h4, h5, h6, _, _, h9, h10, h11⟩ :=
      getCachedData_frame g w now ("quote_" ++ symbol)
    rw [hres]
    exact ⟨rfl, h11, h9, h10, h3, h4, h5, h6⟩
  · intro g0 w1 w2 now1 now2 config config' g3 g4 provider q1 hmiss hcfg hbest hname hok
    obtain ⟨a1, a2, a3⟩ := getStockQuote_success_facts g0 w1 now1 symbol config config' g3 g4
      provider q1 hmiss hcfg hbest hname hok
    have hget := getCachedData_of_memory (getStockQuote g0 w1 now1 symbol).2 w2 now2
      ("quote_" ++ symbol) q1 a3
    have hres := getStockQuote_of_hit (getStockQuote g0 w1 now1 symbol).2 w2 now2 symbol q1
      (by rw [hget])
    rw [hres, hget]
    exact ⟨a1, rfl, a2⟩

/-- Witness for C18: a gateway whose in-process map holds a quote for MSFT
answers from it although the network is down, without sending a request; and a
call served by TwelveData followed by a second call sends one request in all. -/
theorem C18_witness :
    (getStockQuote { sampleGateway (freshLedger 0) none with cache := [("quote_MSFT", sampleQuote)] }
        networkDown 1000 "MSFT").1 = .ok sampleQuote
      ∧ (getStockQuote
          { sampleGateway (freshLedger 0) none with cache := [("quote_MSFT", sampleQuote)] }
          networkDown 1000 "MSFT").2.fetchCalls = 0
      ∧ (getStockQuote
          (getStockQuote (sampleGateway (freshLedger 0) none) (respondsWith twelveDataBody)
            1000 "MSFT").2 networkDown 2000 "MSFT").2.fetchCalls
          = (sampleGateway (freshLedger 0) none).fetchCalls + 1 :=
  ⟨(C18_cache_hit_sends_no_request
      { sampleGateway (freshLedger 0) none with cache := [("quote_MSFT", sampleQuote)] }
      networkDown 1000 "MSFT" sampleQuote rfl).1.1,
   (C18_cache_hit_sends_no_request
      { sampleGateway (freshLedger 0) none with cache := [("quote_MSFT", sampleQuote)] }
      networkDown 1000 "MSFT" sampleQuote rfl).1.2.1,
   ((C18_cache_hit_sends_no_request
      { sampleGateway (freshLedger 0) none with cache := [("quote_MSFT", sampleQuote)] }
      networkDown 1000 "MSFT" sampleQuote rfl).2
      (sampleGateway (freshLedger 0) none) (respondsWith twelveDataBody) networkDown 1000 2000
      (defaultConfig [] 1000) _ _ _ "twelvedata" _ rfl rfl rfl (by decide) rfl).2.2⟩

/-- C19: for every symbol `s`, `getOfflineSampleQuote(s)` has symbol `s`,
provider `offline-sample` and a non-null note; the table has the ten symbols
AAPL, MSFT, GOOGL, TSLA, AMZN, NVDA, META, NFLX, CRM, UBER, and for a symbol in the
table the price, change and changePercent are the table values whatever the
random draws are (AAPL: 195.89, 2.45, 1.27). -/
theorem C19_offline_sample_quote_shape (s : String) (now : Nat) (rnd rnd' : Rat × Rat × Rat) :
    (getOfflineSampleQuote s now rnd).symbol = .str s
      ∧ (getOfflineSampleQuote s now rnd).provider = "offline-sample"
      ∧ (getOfflineSampleQuote s now rnd).note = some offlineNote
      ∧ sampleQuotes.map Prod.fst
          = ["AAPL", "MSFT", "GOOGL", "TSLA", "AMZN", "NVDA", "META", "NFLX", "CRM", "UBER"]
      ∧ (∀ d, jsGet s sampleQuotes = some d →
          (getOfflineSampleQuote s now rnd).price = .num (.val d.1)
            ∧ (getOfflineSampleQuote s now rnd).change = .num (.val d.2.1)
            ∧ (getOfflineSampleQuote s now rnd).changePercent = .num (.val d.2.2)
            ∧ getOfflineSampleQuote s now rnd = getOfflineSampleQuote s now rnd')
      ∧ (getOfflineSampleQuote "AAPL" now rnd).price = .num (.val 195.89)
      ∧ (getOfflineSampleQuote "AAPL" now rnd).change = .num (.val 2.45)
      ∧ (getOfflineSampleQuote "AAPL" now rnd).changePercent = .num (.val 1.27) := by
  refine ⟨rfl, rfl, rfl, rfl, ?_, rfl, rfl, rfl⟩
  intro d hd
  simp [getOfflineSampleQuote, hd]

/-- Witness for C19: the MSFT row of the table. -/
theorem C19_witness :
    (getOfflineSampleQuote "MSFT" 1000 (0, 0, 0)).price = .num (.val 415.26)
      ∧ (getOfflineSampleQuote "MSFT" 1000 (0, 0, 0)).change = .num (.val (-3.22))
      ∧ (getOfflineSampleQuote "MSFT" 1000 (0, 0, 0)).changePercent = .num (.val (-0.77)) :=
  ⟨((C19_offline_sample_quote_shape "MSFT" 1000 (0, 0, 0) (1, 1, 1)).2.2.2.2.1
      (415.26, -3.22, -0.77) rfl).1,
   ((C19_offline_sample_quote_shape "MSFT" 1000 (0, 0, 0) (1, 1, 1)).2.2.2.2.1
      (415.26, -3.22, -0.77) rfl).2.1,
   ((C19_offline_sample_quote_shape "MSFT" 1000 (0, 0, 0) (1, 1, 1)).2.2.2.2.1
      (415.26, -3.22, -0.77) rfl).2.2.1⟩

/-- C20: when the Alpha Vantage adapter makes its call (record present, no reset
pending) and receives an OK response whose body has a truthy `Note` or
`Information` field and no truthy `Error Message`, it raises the daily-limit
error after setting, on the configuration object it was given, `callsToday` to
`dailyLimit` and `resetTime` to the time `t` that `Date` computes for the same
local time on the next calendar day.  That time is strictly in the future
provided the zone offset in force tomorrow exceeds the present one by less than
a day (it is `now` + 24 hours when the two are equal); the provider's failure
count is not raised (it is 0 afterwards), and `hasCapacity('alphavantage',
config)` is false on that configuration now and at every time before `t`. -/
theorem C20_rate_limit_payload_sets_resetTime (g : Gateway) (w : World) (now : Nat)
    (symbol : String) (config : Config) (pc : ProviderConfig) (data : JsValue)
    (hpc : jsGet "alphavantage" config.providers = some pc) (hnp : ¬ ResetPending now pc)
    (hfetch : ∀ url, (w.fetch url).succeeded data)
    (herr : (data.getOpt "Error Message").truthy = false)
    (hnote : (data.getOpt "Note").truthy = true ∨ (data.getOpt "Information").truthy = true)
    (hzone : w.tzOffsetLocal ((now : Int) + w.tzOffset (now : Int) + 24 * 60 * 60 * 1000)
      - w.tzOffset (now : Int) < dayMs) :
    ∃ config' g' pc' t,
      getAlphaVantageQuote g w now symbol config = (.error alphaVantageLimitError, config', g')
        ∧ jsGet "alphavantage" config'.providers = some pc'
        ∧ pc'.resetTime = some t
        ∧ t = tomorrowTime w now
        ∧ (now : Int) < t
        ∧ (w.tzOffsetLocal ((now : Int) + w.tzOffset (now : Int) + 24 * 60 * 60 * 1000)
            = w.tzOffset (now : Int) → t = (now : Int) + dayMs)
        ∧ pc'.callsToday = pc.dailyLimit
        ∧ failureCount g' "alphavantage" = 0
        ∧ failureCount g' "alphavantage" ≤ failureCount g "alphavantage"
        ∧ (hasCapacity g' now "alphavantage" config').1 = .ok false
        ∧ (∀ now' : Nat, (now' : Int) < t →
            (hasCapacity g' now' "alphavantage" config').1 = .ok false) := by
  have hfut : (now : Int) < tomorrowTime w now := by
    unfold tomorrowTime
    unfold dayMs at hzone
    simp only
    omega
  refine ⟨_, _, limitedRecord w now pc, tomorrowTime w now,
    getAlphaVantageQuote_rate_limit g w now symbol config pc data hpc hnp hfetch herr hnote,
    jsGet_jsSet_self _ _ _, rfl, rfl, hfut, ?_, rfl, ?_, ?_, ?_, ?_⟩
  · intro heq
    unfold tomorrowTime dayMs
    simp only
    rw [heq]
    omega
  · exact (successState_frame g w now "alphavantage").2.2.2.2.2.2.2.1
  · rw [(successState_frame g w now "alphavantage").2.2.2.2.2.2.2.1]
    exact Nat.zero_le _
  · exact hasCapacity_of_pending _ now "alphavantage" _ (limitedRecord w now pc)
      (jsGet_jsSet_self _ _ _) ⟨_, rfl, hfut⟩
  · intro now' hlt
    exact hasCapacity_of_pending _ now' "alphavantage" _ (limitedRecord w now pc)
      (jsGet_jsSet_self _ _ _) ⟨_, rfl, hlt⟩

/-- Witness for C20: a lone enabled Alpha Vantage record and a `Note` payload,
received at 12:00 New York time on the day before daylight-saving time starts
(2026-03-07 17:00 UTC): the reset time is 12:00 New York time on the next day,
23 hours later. -/
theorem C20_witness :
    ∃ config' g' pc' t,
      getAlphaVantageQuote (sampleGateway (freshLedger 0) none) springForwardWorld
          1772902800000 "MSFT" alphaVantageOnlyConfig
          = (.error alphaVantageLimitError, config', g')
        ∧ jsGet "alphavantage" config'.providers = some pc'
        ∧ pc'.resetTime = some t
        ∧ t = 1772985600000
        ∧ ((1772902800000 : Nat) : Int) < t
        ∧ (hasCapacity g' 1772902800000 "alphavantage" config').1 = .ok false :=
  match C20_rate_limit_payload_sets_resetTime (sampleGateway (freshLedger 0) none)
      springForwardWorld 1772902800000 "MSFT" alphaVantageOnlyConfig
      (sampleProvider true 1) alphaVantageNoteBody rfl
      (by rintro ⟨t, ht, _⟩; simp [sampleProvider] at ht)
      (fun _ => ⟨200, "OK", rfl⟩) rfl (Or.inl rfl) (by decide) with
  | ⟨config', g', pc', t, h1, h2, h3, h4, h5, _, _, _, _, h10, _⟩ =>
    ⟨config', g', pc', t, h1, h2, h3, h4.trans (by decide), h5, h10⟩

/-- C21 (the code at the failing input): the configuration file holds an enabled
Alpha Vantage record with `resetTime = null`, and Alpha Vantage answers
`getStockQuote("MSFT")` at time 1000 with its rate-limit `Note`.  The adapter
sets `resetTime = 1000 + 24 h` on the configuration object it was given, the
call falls back to the offline sample, and nothing saves that object: the
configuration file is unchanged, the next `getApiConfig` load has
`resetTime = null` for Alpha Vantage, and the next `getStockQuote` selects Alpha
Vantage again and sends a second request.  The auto-disable trip, in contrast,
is saved: after three network failures of `providerA` the next load has
`disabledUntil = 3000 + 30 min`. -/
theorem C21_rate_limit_trip_is_not_persisted :
    ((getAlphaVantageQuote alphaVantageGateway (respondsWith alphaVantageNoteBody) 1000 "MSFT"
        alphaVantageOnlyConfig).1.toOption.isNone = true
      ∧ (jsGet "alphavantage"
          (getAlphaVantageQuote alphaVantageGateway (respondsWith alphaVantageNoteBody) 1000 "MSFT"
            alphaVantageOnlyConfig).2.1.providers).map (fun pc => pc.resetTime)
          = some (some (1000 + 24 * 60 * 60 * 1000)))
    ∧ (getStockQuote alphaVantageGateway (respondsWith alphaVantageNoteBody) 1000 "MSFT").1.toOption.map
        (fun q => q.provider) = some "offline-sample"
    ∧ (getStockQuote alphaVantageGateway (respondsWith alphaVantageNoteBody) 1000 "MSFT").2.fileConfig
        = some alphaVantageOnlyConfig
    ∧ (getApiConfig
        (getStockQuote alphaVantageGateway (respondsWith alphaVantageNoteBody) 1000 "MSFT").2
        {} 2000).toOption.bind
          (fun c => (jsGet "alphavantage" c.providers).map (fun pc => pc.resetTime))
        = some none
    ∧ (getStockQuote
        (getStockQuote alphaVantageGateway (respondsWith alphaVantageNoteBody) 1000 "MSFT").2
        (respondsWith alphaVantageNoteBody) 2000 "MSFT").2.fetchCalls = 2
    ∧ (getApiConfig (failMany abGateway "providerA" threeFailures) {} 5000).toOption.bind
          (fun c => (jsGet "providerA" c.providers).map (fun pc => pc.disabledUntil))
        = some (some (3000 + 30 * 60 * 1000)) := by
  refine ⟨⟨by decide, by decide⟩, by decide, by decide, by decide, by decide, by decide⟩

/-- C22 (the code at the failing input): the environment supplies `env-key` for
TwelveData and the persisted configuration holds `stored-key`.  Loaded from the
document store, `getApiConfig` returns the record with `stored-key`: the Mongo
branch returns the document before the environment overrides are reached.
Loaded from the file with the same content, it returns `env-key`. -/
theorem C22_document_store_skips_env_override :
    needsOverride (envKeyGateway true).env "twelvedata" = true
      ∧ (getApiConfig (envKeyGateway true) {} 1000).toOption.bind
          (fun c => (jsGet "twelvedata" c.providers).map (fun pc => pc.apiKey))
          = some (some "stored-key")
      ∧ (getApiConfig (envKeyGateway false) {} 1000).toOption.bind
          (fun c => (jsGet "twelvedata" c.providers).map (fun pc => pc.apiKey))
          = some (some "env-key") := by
  refine ⟨by decide, by decide, by decide⟩

/-- C23: every `getStockQuote` call sends at most one upstream request.  On a
cache miss the adapter of the provider returned by `getBestProvider` is the only
one invoked: it leaves the state as it was or performs one `makeApiCall` for
that provider; when it fails, the call returns the offline sample in exactly the
state the adapter left, so no other provider is tried. -/
theorem C23_at_most_one_upstream_call (g : Gateway) (w : World) (now : Nat) (symbol : String) :
    (getStockQuote g w now symbol).2.fetchCalls ≤ g.fetchCalls + 1
      ∧ (∀ (config config' : Config) (g3 g4 : Gateway) (provider : String) (e : JsError),
          (getCachedData g w now ("quote_" ++ symbol)).1 = none →
          getApiConfig (checkAndResetRateLimits g w now) w now = .ok config →
          getBestProvider (checkAndResetRateLimits g w now) w now config
            = (.ok (some provider), config', g3) →
          provider ≠ "" →
          callAdapter g3 w now symbol config' provider = (.error e, g4) →
          getStockQuote g w now symbol = (.ok (getOfflineSampleQuote symbol now w.random), g4)
            ∧ g3.fetchCalls = g.fetchCalls
            ∧ AtMostOneCall g3 w now provider g4
            ∧ g4.fetchCalls ≤ g.fetchCalls + 1) := by
  refine ⟨(getStockQuote_fetchCalls g w now symbol).2, ?_⟩
  intro config config' g3 g4 provider e hmiss hcfg hbest hname hfail
  have hres := getStockQuote_of_adapter_error g w now symbol config config' g3 g4 provider e
    hmiss hcfg hbest hname hfail
  have hb := (getBestProvider_frame (checkAndResetRateLimits g w now) w now config).2.2.2.2.1
  rw [hbest] at hb
  simp only at hb
  have h0 := (checkAndResetRateLimits_frame g w now).2.2.2.2.2.2.2.2
  have hcalls := callAdapter_calls g3 w now symbol config' provider
  rw [hfail] at hcalls
  have hf := (atMostOneCall_frame hcalls).2.2.2.1
  simp only at hf
  exact ⟨hres, by rw [hb, h0], hcalls, by rw [hb, h0] at hf; exact hf⟩

/-- Witness for C23: default configuration, fresh ledger; TwelveData (the best
eligible provider) times out while every other upstream would answer: the call
returns the offline sample after one request. -/
theorem C23_witness :
    (getStockQuote (sampleGateway (freshLedger 0) none) twelveDataDown 1000 "MSFT").2.fetchCalls
        ≤ (sampleGateway (freshLedger 0) none).fetchCalls + 1
      ∧ getStockQuote (sampleGateway (freshLedger 0) none) twelveDataDown 1000 "MSFT"
          = (.ok (getOfflineSampleQuote "MSFT" 1000 twelveDataDown.random),
              (callAdapter (sampleGateway (freshLedger 0) none) twelveDataDown 1000 "MSFT"
                (defaultConfig [] 1000) "twelvedata").2)
      ∧ (callAdapter (sampleGateway (freshLedger 0) none) twelveDataDown 1000 "MSFT"
          (defaultConfig [] 1000) "twelvedata").2.fetchCalls = 1
      ∧ (callAdapter (sampleGateway (freshLedger 0) none) twelveDataDown 1000 "MSFT"
          (defaultConfig [] 1000) "finnhub").1.toOption.map (fun q => q.provider)
          = some "finnhub" :=
  ⟨(C23_at_most_one_upstream_call (sampleGateway (freshLedger 0) none) twelveDataDown 1000
      "MSFT").1,
   ((C23_at_most_one_upstream_call (sampleGateway (freshLedger 0) none) twelveDataDown 1000
      "MSFT").2 (defaultConfig [] 1000) _ _ _ "twelvedata" _ rfl rfl rfl (by decide) rfl).1,
   by decide, by decide⟩

/-- C24: when the Alpha Vantage adapter makes its call and receives an OK
response without error or rate-limit field whose `Global Quote` object writes
`10. change percent` as a decimal numeral followed by `%`, and `05. price` and
`09. change` as decimal numerals, it returns a quote whose changePercent, price
and change are the numbers those numerals denote (numbers are exact rationals
here, without floating-point rounding), whose symbol is the `01. symbol` field
and whose provider is `alphavantage`. -/
theorem C24_alphavantage_quote_mapping (g : Gateway) (w : World) (now : Nat) (symbol : String)
    (config : Config) (pc : ProviderConfig) (data : JsValue) (gq : List (String × JsValue))
    (pct sp sc : String) (npct np nc : Numeral)
    (hpc : jsGet "alphavantage" config.providers = some pc) (hnp : ¬ ResetPending now pc)
    (hfetch : ∀ url, (w.fetch url).succeeded data)
    (herr : (data.getOpt "Error Message").truthy = false)
    (hnote : (data.getOpt "Note").truthy = false)
    (hinfo : (data.getOpt "Information").truthy = false)
    (hgq : data.getOpt "Global Quote" = .obj gq)
    (hpct : jsGet "10. change percent" gq = some (.str pct))
    (hpcts : pct.toList = npct.chars ++ ['%']) (hnpct : npct.intDigits ≠ [])
    (hsp : jsGet "05. price" gq = some (.str sp))
    (hsps : sp.toList = np.chars) (hnp' : np.intDigits ≠ [])
    (hsc : jsGet "09. change" gq = some (.str sc))
    (hscs : sc.toList = nc.chars) (hnc : nc.intDigits ≠ []) :
    ∃ q config' g',
      getAlphaVantageQuote g w now symbol config = (.ok q, config', g')
        ∧ q.changePercent = .num (.val npct.value)
        ∧ q.price = .num (.val np.value)
        ∧ q.change = .num (.val nc.value)
        ∧ q.provider = "alphavantage"
        ∧ q.symbol = (jsGet "01. symbol" gq).getD .undefined
        ∧ q.note = none := by
  have hlim : (timeTruthy pc.resetTime && decide ((now : Int) < pc.resetTime.getD 0)) = false := by
    cases hr : pc.resetTime with
    | none => simp [timeTruthy]
    | some t =>
      have : ¬ ((now : Int) < t) := fun hlt => hnp ⟨t, hr, hlt⟩
      simp [this]
  have hobj : ∃ fields, data = .obj fields := by
    cases data with
    | obj fields => exact ⟨fields, rfl⟩
    | undefined => simp [JsValue.getOpt] at hgq
    | null => simp [JsValue.getOpt] at hgq
    | bool b => simp [JsValue.getOpt] at hgq
    | num n => simp [JsValue.getOpt] at hgq
    | str s => simp [JsValue.getOpt] at hgq
    | arr xs => simp [JsValue.getOpt] at hgq
  obtain ⟨fields, hd⟩ := hobj
  subst hd
  have hget : (JsValue.obj fields).get "Error Message"
      = .ok ((JsValue.obj fields).getOpt "Error Message") := rfl
  have hpayload : alphaVantagePayload w now config (.obj fields)
      = (.ok { symbol := (jsGet "01. symbol" gq).getD .undefined,
               price := .num (.val np.value),
               change := .num (.val nc.value),
               changePercent := .num (.val npct.value),
               timestamp := now, provider := "alphavantage" }, config) := by
    have ht : (JsValue.obj gq).truthy = true := rfl
    have h1 : (JsValue.obj gq).getOpt "10. change percent" = .str pct := by
      simp [JsValue.getOpt, hpct]
    have h2 : (JsValue.obj gq).getOpt "05. price" = .str sp := by
      simp [JsValue.getOpt, hsp]
    have h3 : (JsValue.obj gq).getOpt "09. change" = .str sc := by
      simp [JsValue.getOpt, hsc]
    have h4 : (JsValue.obj gq).getOpt "01. symbol" = (jsGet "01. symbol" gq).getD .undefined := rfl
    unfold alphaVantagePayload
    simp only [hget, herr, hnote, hinfo, hgq, Bool.false_eq_true, if_false, Bool.or_self,
      ht, if_true, h1, h2, h3, h4,
      parseFloat_percent npct hnpct pct hpcts, parseFloat_numeral np hnp' sp hsps,
      parseFloat_numeral nc hnc sc hscs]
  refine ⟨{ symbol := (jsGet "01. symbol" gq).getD .undefined,
             price := .num (.val np.value),
             change := .num (.val nc.value),
             changePercent := .num (.val npct.value),
             timestamp := now, provider := "alphavantage" },
    config, successState g w now "alphavantage", ?_, rfl, rfl, rfl, rfl, rfl, rfl⟩
  unfold getAlphaVantageQuote
  simp only [hpc, hlim, Bool.false_eq_true, if_false]
  rw [makeApiCall_success g w now _ "alphavantage" (.obj fields) (hfetch _)]
  simp only [hpayload]

/-- Witness for C24: the payload `415.2600`, `-3.2200`, `-0.7700%` yields price
415.26, change -3.22 and changePercent -0.77. -/
theorem C24_witness :
    ∃ q config' g',
      getAlphaVantageQuote alphaVantageGateway (respondsWith alphaVantageQuoteBody) 1000 "MSFT"
          alphaVantageOnlyConfig = (.ok q, config', g')
        ∧ q.changePercent = .num (.val (Numeral.value ⟨true, [0], [7, 7, 0, 0]⟩))
        ∧ q.price = .num (.val (Numeral.value ⟨false, [4, 1, 5], [2, 6, 0, 0]⟩))
        ∧ q.change = .num (.val (Numeral.value ⟨true, [3], [2, 2, 0, 0]⟩))
        ∧ q.provider = "alphavantage"
        ∧ Numeral.value ⟨true, [0], [7, 7, 0, 0]⟩ = -0.77
        ∧ Numeral.value ⟨false, [4, 1, 5], [2, 6, 0, 0]⟩ = 415.26
        ∧ Numeral.value ⟨true, [3], [2, 2, 0, 0]⟩ = -3.22 :=
  match C24_alphavantage_quote_mapping alphaVantageGateway (respondsWith alphaVantageQuoteBody)
      1000 "MSFT" alphaVantageOnlyConfig (sampleProvider true 1) alphaVantageQuoteBody
      alphaVantageQuoteFields "-0.7700%" "415.2600" "-3.2200"
      ⟨true, [0], [7, 7, 0, 0]⟩ ⟨false, [4, 1, 5], [2, 6, 0, 0]⟩ ⟨true, [3], [2, 2, 0, 0]⟩
      rfl (by rintro ⟨t, ht, _⟩; simp [sampleProvider] at ht)
      (fun _ => ⟨200, "OK", rfl⟩) rfl rfl rfl rfl rfl (by decide) (by decide)
      rfl (by decide) (by decide) rfl (by decide) (by decide) with
  | ⟨q, config', g', h1, h2, h3, h4, h5, _, _⟩ =>
    ⟨q, config', g', h1, h2, h3, h4, h5,
      by
        have h : Nat.ofDigits 10 ((([0] : List (Fin 10)) ++ [7, 7, 0, 0]).reverse.map Fin.val)
            = 7700 := by decide
        unfold Numeral.value
        simp only [h]
        norm_num,
      by
        have h : Nat.ofDigits 10 ((([4, 1, 5] : List (Fin 10)) ++ [2, 6, 0, 0]).reverse.map Fin.val)
            = 4152600 := by decide
        unfold Numeral.value
        simp only [h]
        norm_num,
      by
        have h : Nat.ofDigits 10 ((([3] : List (Fin 10)) ++ [2, 2, 0, 0]).reverse.map Fin.val)
            = 32200 := by decide
        unfold Numeral.value
        simp only [h]
        norm_num⟩

/-- C25: when the Polygon adapter receives an OK response whose body has a
`results` object, it returns a quote with the requested symbol, price
`parseFloat(results.p)` (the number itself when `p` is a number), change 0,
changePercent 0, provider `polygon` and the advisory note; a quote returned by
any of the other six adapters has no note. -/
theorem C25_polygon_quote_carries_note (g : Gateway) (w : World) (now : Nat) (symbol : String)
    (config : Config) (pc : ProviderConfig) (data : JsValue) (results : List (String × JsValue))
    (hpc : jsGet "polygon" config.providers = some pc)
    (hfetch : ∀ url, (w.fetch url).succeeded data)
    (hres : data.getOpt "results" = .obj results) :
    (∃ q g', getPolygonQuote g w now symbol config = (.ok q, g')
        ∧ q.symbol = .str symbol
        ∧ q.price = .num (parseFloat ((jsGet "p" results).getD .undefined))
        ∧ (∀ n, jsGet "p" results = some (.num n) → q.price = .num n)
        ∧ q.change = .num (.val 0)
        ∧ q.changePercent = .num (.val 0)
        ∧ q.provider = "polygon"
        ∧ q.note = some polygonNote)
      ∧ (∀ (g0 : Gateway) (w0 : World) (t : Nat) (s : String) (c : Config) (q : Quote)
          (c' : Config) (g' : Gateway),
          (getAlphaVantageQuote g0 w0 t s c = (.ok q, c', g') → q.note = none)
            ∧ (getTwelveDataQuote g0 w0 t s c = (.ok q, g') → q.note = none)
            ∧ (getFinnhubQuote g0 w0 t s c = (.ok q, g') → q.note = none)
            ∧ (getIEXCloudQuote g0 w0 t s c = (.ok q, g') → q.note = none)
            ∧ (getWorldTradingDataQuote g0 w0 t s c = (.ok q, g') → q.note = none)
            ∧ (getMarketStackQuote g0 w0 t s c = (.ok q, g') → q.note = none)) := by
  constructor
  · refine ⟨{ symbol := .str symbol,
              price := .num (parseFloat ((jsGet "p" results).getD .undefined)),
              change := .num (.val 0), changePercent := .num (.val 0),
              timestamp := now, provider := "polygon", note := some polygonNote },
      successState g w now "polygon", ?_, rfl, rfl, ?_, rfl, rfl, rfl, rfl⟩
    · have ht : (JsValue.obj results).truthy = true := rfl
      have hp : (JsValue.obj results).getOpt "p" = (jsGet "p" results).getD .undefined := rfl
      unfold getPolygonQuote
      simp only [hpc]
      rw [makeApiCall_success g w now _ "polygon" data (hfetch _)]
      simp only [hres, ht, if_true, hp, polygonNote]
    · intro n hn
      simp [hn, parseFloat]
  · intro g0 w0 t s c q c' g'
    exact ⟨getAlphaVantageQuote_note g0 w0 t s c q c' g',
      getTwelveDataQuote_note g0 w0 t s c q g', getFinnhubQuote_note g0 w0 t s c q g',
      getIEXCloudQuote_note g0 w0 t s c q g', getWorldTradingDataQuote_note g0 w0 t s c q g',
      getMarketStackQuote_note g0 w0 t s c q g'⟩

/-- Witness for C25: a Polygon last-trade payload with `p = 415`. -/
theorem C25_witness :
    ∃ q g', getPolygonQuote (sampleGateway (freshLedger 0) (some polygonOnlyConfig))
          (respondsWith polygonBody) 1000 "MSFT" polygonOnlyConfig = (.ok q, g')
        ∧ q.symbol = .str "MSFT"
        ∧ q.price = .num (.val 415)
        ∧ q.provider = "polygon"
        ∧ q.note = some polygonNote :=
  match (C25_polygon_quote_carries_note (sampleGateway (freshLedger 0) (some polygonOnlyConfig))
      (respondsWith polygonBody) 1000 "MSFT" polygonOnlyConfig (sampleProvider true 1)
      polygonBody [("T", .str "MSFT"), ("p", .num (.val 415))] rfl
      (fun _ => ⟨200, "OK", rfl⟩) rfl).1 with
  | ⟨q, g', h1, h2, _, h4, _, _, h7, h8⟩ => ⟨q, g', h1, h2, h4 (.val 415) rfl, h7, h8⟩

/-- C26: with `key` absent from the in-process map, `getCachedData(key)` reads
the durable tier (the Mongo collection when in use, then the cache file): an
entry that exists with `expiresAt` later than now is returned and inserted as
`key -> data` into the in-process map, the Mongo entry taking precedence; with
no such entry in either store the result is null and the state is unchanged.
Hence the result is non-null exactly when such an entry exists. -/
theorem C26_durable_read_repopulates_map (g : Gateway) (w : World) (now : Nat) (key : String)
    (hmiss : jsHas key g.cache = false) :
    (∀ c, LiveEntry now (mongoEntry g w key) c →
        getCachedData g w now key = (some c.data, { g with cache := jsSet key c.data g.cache }))
      ∧ (∀ c, (¬ ∃ m, LiveEntry now (mongoEntry g w key) m) → LiveEntry now (fileEntry g w key) c →
          getCachedData g w now key = (some c.data, { g with cache := jsSet key c.data g.cache }))
      ∧ ((¬ ∃ m, LiveEntry now (mongoEntry g w key) m) → (¬ ∃ c, LiveEntry now (fileEntry g w key) c) →
          getCachedData g w now key = (none, g))
      ∧ ((getCachedData g w now key).1.isSome = true ↔
          (∃ m, LiveEntry now (mongoEntry g w key) m) ∨ (∃ c, LiveEntry now (fileEntry g w key) c))
      ∧ (∀ q, (getCachedData g w now key).1 = some q →
          jsGet key (getCachedData g w now key).2.cache = some q)
      ∧ ((getCachedData g w now key).1 = none → (getCachedData g w now key).2.cache = g.cache) := by
  have hm : ∀ c, LiveEntry now (mongoEntry g w key) c →
      getCachedData g w now key = (some c.data, { g with cache := jsSet key c.data g.cache }) := by
    intro c hc
    obtain ⟨he, hlt⟩ := hc
    unfold mongoEntry at he
    unfold getCachedData
    simp only [hmiss, Bool.false_eq_true, if_false]
    split at he
    · next hu => simp [hu, he, Option.filter, hlt]
    · simp at he
  have hmnone : (¬ ∃ m, LiveEntry now (mongoEntry g w key) m) →
      (if g.useMongoDb && !w.mongoThrows then
          (jsGet key g.mongoCache).filter (fun c => decide ((now : Int) < c.expiresAt))
        else none) = none := by
    intro hno
    split
    · next hu =>
      cases hj : jsGet key g.mongoCache with
      | none => rfl
      | some m =>
        by_cases hlt : (now : Int) < m.expiresAt
        · exact absurd ⟨m, by simp [mongoEntry, hu, hj], hlt⟩ hno
        · simp [Option.filter, hlt]
    · rfl
  have hf : ∀ c, (¬ ∃ m, LiveEntry now (mongoEntry g w key) m) → LiveEntry now (fileEntry g w key) c →
      getCachedData g w now key = (some c.data, { g with cache := jsSet key c.data g.cache }) := by
    intro c hno hc
    obtain ⟨he, hlt⟩ := hc
    unfold fileEntry at he
    unfold getCachedData
    simp only [hmiss, Bool.false_eq_true, if_false, hmnone hno, he]
    simp [Option.filter, hlt]
  have hn : (¬ ∃ m, LiveEntry now (mongoEntry g w key) m) →
      (¬ ∃ c, LiveEntry now (fileEntry g w key) c) → getCachedData g w now key = (none, g) := by
    intro hno hnof
    unfold getCachedData
    simp only [hmiss, Bool.false_eq_true, if_false, hmnone hno]
    cases hj : jsGet key (readJsonFile w g.fileCache []) with
    | none => rfl
    | some c =>
      by_cases hlt : (now : Int) < c.expiresAt
      · exact absurd ⟨c, hj, hlt⟩ hnof
      · simp [Option.filter, hlt]
  have hcases : (∃ m, LiveEntry now (mongoEntry g w key) m
        ∧ getCachedData g w now key = (some m.data, { g with cache := jsSet key m.data g.cache }))
      ∨ (∃ c, LiveEntry now (fileEntry g w key) c
        ∧ getCachedData g w now key = (some c.data, { g with cache := jsSet key c.data g.cache }))
      ∨ ((¬ ∃ m, LiveEntry now (mongoEntry g w key) m) ∧ (¬ ∃ c, LiveEntry now (fileEntry g w key) c)
        ∧ getCachedData g w now key = (none, g)) := by
    by_cases h1 : ∃ m, LiveEntry now (mongoEntry g w key) m
    · obtain ⟨m, hm1⟩ := h1
      exact Or.inl ⟨m, hm1, hm m hm1⟩
    · by_cases h2 : ∃ c, LiveEntry now (fileEntry g w key) c
      · obtain ⟨c, hc⟩ := h2
        exact Or.inr (Or.inl ⟨c, hc, hf c h1 hc⟩)
      · exact Or.inr (Or.inr ⟨h1, h2, hn h1 h2⟩)
  refine ⟨hm, hf, hn, ?_, ?_, ?_⟩
  · rcases hcases with ⟨m, hl, he⟩ | ⟨c, hl, he⟩ | ⟨h1, h2, he⟩
    · rw [he]; exact ⟨fun _ => Or.inl ⟨m, hl⟩, fun _ => rfl⟩
    · rw [he]; exact ⟨fun _ => Or.inr ⟨c, hl⟩, fun _ => rfl⟩
    · rw [he]
      constructor
      · intro h; simp at h
      · rintro (h | h)
        · exact absurd h h1
        · exact absurd h h2
  · intro q hq
    rcases hcases with ⟨m, _, he⟩ | ⟨c, _, he⟩ | ⟨_, _, he⟩
    · rw [he] at hq ⊢
      simp only [Option.some.injEq] at hq
      subst hq
      exact jsGet_jsSet_self _ _ _
    · rw [he] at hq ⊢
      simp only [Option.some.injEq] at hq
      subst hq
      exact jsGet_jsSet_self _ _ _
    · rw [he] at hq
      simp at hq
  · intro hnone
    rcases hcases with ⟨m, _, he⟩ | ⟨c, _, he⟩ | ⟨_, _, he⟩
    · rw [he] at hnone; simp at hnone
    · rw [he] at hnone; simp at hnone
    · rw [he]

/-- Witness for C26: the cache file holds a quote for MSFT until time 5000 and
the in-process map is empty: a read at time 1000 returns it and fills the map,
a read at time 5000 returns null. -/
theorem C26_witness :
    getCachedData fileCachedGateway {} 1000 "quote_MSFT"
        = (some sampleQuote,
            { fileCachedGateway with cache := jsSet "quote_MSFT" sampleQuote fileCachedGateway.cache })
      ∧ getCachedData fileCachedGateway {} 5000 "quote_MSFT" = (none, fileCachedGateway) :=
  ⟨(C26_durable_read_repopulates_map fileCachedGateway {} 1000 "quote_MSFT" rfl).2.1
      { data := sampleQuote, expiresAt := 5000 }
      (by rintro ⟨m, hm, _⟩; simp [mongoEntry, fileCachedGateway, sampleGateway] at hm)
      ⟨rfl, by decide⟩,
   (C26_durable_read_repopulates_map fileCachedGateway {} 5000 "quote_MSFT" rfl).2.2.1
      (by rintro ⟨m, hm, _⟩; simp [mongoEntry, fileCachedGateway, sampleGateway] at hm)
      (by
        rintro ⟨c, hc, hlt⟩
        have h5 : c.expiresAt = 5000 := by
          have := congrArg (Option.map (fun e => e.expiresAt)) hc
          simpa [fileEntry, fileCachedGateway, sampleGateway, readJsonFile, jsGet] using this.symm
        rw [h5] at hlt
        exact absurd hlt (by decide))⟩

/-- C27: after `loadRateLimits`, each of the eight provider names has a ledger
record.  With `data` the persisted rate-limit data (as `getRateLimitData`
returns it): Alpha Vantage has `requests = 25` whenever `data` has an Alpha
Vantage record, whatever count it holds; any other provider with a record in
`data` has that record's count; both keep the persisted `lastReset`; a provider
without a record in `data` starts at `requests = 0` with `lastReset = now`. -/
theorem C27_loadRateLimits_forces_alphavantage (g : Gateway) (w : World) (now : Nat)
    (p : String) (hp : p ∈ providerNames) :
    (jsGet p (loadRateLimits g w now).rateLimits).isSome = true
      ∧ (∀ r, jsGet "alphavantage" (getRateLimitData g w now).entries = some r →
          jsGet "alphavantage" (loadRateLimits g w now).rateLimits
            = some { requests := 25, lastReset := r.lastReset })
      ∧ (∀ r, p ≠ "alphavantage" → jsGet p (getRateLimitData g w now).entries = some r →
          jsGet p (loadRateLimits g w now).rateLimits = some r)
      ∧ (jsGet p (getRateLimitData g w now).entries = none →
          jsGet p (loadRateLimits g w now).rateLimits
            = some { requests := 0, lastReset := (now : Int) })
      ∧ (loadRateLimits g w now).rateLimits.map Prod.fst = providerNames := by
  have hget : ∀ q, q ∈ providerNames → jsGet q (loadRateLimits g w now).rateLimits
      = some (match jsGet q (getRateLimitData g w now).entries with
        | some r => { requests := if q = "alphavantage" then 25 else r.requests,
                      lastReset := r.lastReset }
        | none => { requests := 0, lastReset := (now : Int) }) := by
    intro q hq
    have h := jsGet_map_names (fun n => match jsGet n (getRateLimitData g w now).entries with
        | some r => ({ requests := if n = "alphavantage" then 25 else r.requests,
                       lastReset := r.lastReset } : RateLimitState)
        | none => { requests := 0, lastReset := (now : Int) }) providerNames q hq
    rw [← h]
    unfold loadRateLimits
    simp only
    congr 1
    apply List.map_congr_left
    intro n _
    cases jsGet n (getRateLimitData g w now).entries <;> rfl
  refine ⟨?_, ?_, ?_, ?_, ?_⟩
  · rw [hget p hp]; rfl
  · intro r hr
    rw [hget "alphavantage" (by decide), hr]
    rfl
  · intro r hne hr
    rw [hget p hp, hr]
    simp [hne]
  · intro hr
    rw [hget p hp, hr]
  · unfold loadRateLimits
    simp only [List.map_map]
    refine (List.map_congr_left ?_).trans (List.map_id _)
    intro n _
    simp only [Function.comp, id]
    cases jsGet n (getRateLimitData g w now).entries <;> rfl

/-- Witness for C27: the rate-limit file holds 3 requests for Alpha Vantage and
7 for TwelveData, and nothing for Finnhub. -/
theorem C27_witness :
    jsGet "alphavantage"
        (loadRateLimits { sampleGateway [] none with fileRateLimits := some partialRateLimitData }
          {} 1000).rateLimits = some { requests := 25, lastReset := 500 }
      ∧ jsGet "twelvedata"
        (loadRateLimits { sampleGateway [] none with fileRateLimits := some partialRateLimitData }
          {} 1000).rateLimits = some { requests := 7, lastReset := 600 }
      ∧ jsGet "finnhub"
        (loadRateLimits { sampleGateway [] none with fileRateLimits := some partialRateLimitData }
          {} 1000).rateLimits = some { requests := 0, lastReset := 1000 } :=
  ⟨(C27_loadRateLimits_forces_alphavantage
      { sampleGateway [] none with fileRateLimits := some partialRateLimitData } {} 1000
      "alphavantage" (by decide)).2.1 { requests := 3, lastReset := 500 } rfl,
   (C27_loadRateLimits_forces_alphavantage
      { sampleGateway [] none with fileRateLimits := some partialRateLimitData } {} 1000
      "twelvedata" (by decide)).2.2.1 { requests := 7, lastReset := 600 } (by decide) rfl,
   (C27_loadRateLimits_forces_alphavantage
      { sampleGateway [] none with fileRateLimits := some partialRateLimitData } {} 1000
      "finnhub" (by decide)).2.2.2.1 rfl⟩

/-- C28: when the HTTP response is OK and its body parses, `makeApiCall` reports
success and raises the provider's `requests` count by one; the adapter that
made the call leaves exactly that state behind whatever it then does with the
payload, so the count is also raised when it rejects the payload.  Rejected
payloads that cost a request: an Alpha Vantage `Error Message`, an Alpha Vantage
rate-limit note, a body without `Global Quote`, an empty `data` array.  A
`getStockQuote` call that ends in the offline sample can therefore raise the
count from 0 to 1. -/
theorem C28_rejected_payload_still_counts (g : Gateway) (w : World) (now : Nat)
    (config : Config) (provider : String) (pc : ProviderConfig) (data : JsValue)
    (r : RateLimitState)
    (hfetch : ∀ url, (w.fetch url).succeeded data)
    (hr : jsGet provider g.rateLimits = some r)
    (hpc : jsGet provider config.providers = some pc) (hnp : ¬ ResetPending now pc)
    (hcase : provider ∈ adapterNames) :
    (∀ url, ∃ g', makeApiCall g w now url provider = (.ok (.success data), g')
        ∧ jsGet provider g'.rateLimits
            = some { requests := r.requests + 1, lastReset := r.lastReset })
      ∧ (∀ symbol, jsGet provider (callAdapter g w now symbol config provider).2.rateLimits
            = some { requests := r.requests + 1, lastReset := r.lastReset })
      ∧ ((callAdapter alphaVantageGateway (respondsWith alphaVantageErrorBody) 1000 "MSFT"
            alphaVantageOnlyConfig "alphavantage").1.toOption.isNone = true
          ∧ (callAdapter alphaVantageGateway (respondsWith alphaVantageNoteBody) 1000 "MSFT"
            alphaVantageOnlyConfig "alphavantage").1.toOption.isNone = true
          ∧ (callAdapter alphaVantageGateway (respondsWith (.obj [])) 1000 "MSFT"
            alphaVantageOnlyConfig "alphavantage").1.toOption.isNone = true
          ∧ (callAdapter (sampleGateway (freshLedger 0) (some worldTradingDataOnlyConfig))
            (respondsWith emptyDataBody) 1000 "MSFT" worldTradingDataOnlyConfig
            "worldtradingdata").1.toOption.isNone = true)
      ∧ ((getStockQuote alphaVantageGateway (respondsWith alphaVantageErrorBody) 1000
            "MSFT").1.toOption.map (fun q => q.provider) = some "offline-sample"
          ∧ (jsGet "alphavantage" alphaVantageGateway.rateLimits).map (fun x => x.requests)
            = some 0
          ∧ (jsGet "alphavantage" (getStockQuote alphaVantageGateway
              (respondsWith alphaVantageErrorBody) 1000 "MSFT").2.rateLimits).map
              (fun x => x.requests) = some 1) := by
  have hcount : jsGet provider (successState g w now provider).rateLimits
      = some { requests := r.requests + 1, lastReset := r.lastReset } := by
    rw [successState_rateLimits]
    exact incrementRateLimit_get g w now provider r hr
  refine ⟨?_, ?_, ⟨by decide, by decide, by decide, by decide⟩, ⟨by decide, by decide, by decide⟩⟩
  · intro url
    exact ⟨_, makeApiCall_success g w now url provider data (hfetch url), hcount⟩
  · intro symbol
    rw [callAdapter_state_of_succeeded g w now symbol config provider pc data hfetch hpc hnp hcase]
    exact hcount

/-- Witness for C28: a WorldTradingData call answered with an empty `data`
array is rejected by the adapter and still raises the count from 0 to 1. -/
theorem C28_witness :
    (callAdapter (sampleGateway (freshLedger 0) (some worldTradingDataOnlyConfig))
        (respondsWith emptyDataBody) 1000 "MSFT" worldTradingDataOnlyConfig
        "worldtradingdata").1.toOption.isNone = true
      ∧ jsGet "worldtradingdata"
          (callAdapter (sampleGateway (freshLedger 0) (some worldTradingDataOnlyConfig))
            (respondsWith emptyDataBody) 1000 "MSFT" worldTradingDataOnlyConfig
            "worldtradingdata").2.rateLimits
          = some { requests := 0 + 1, lastReset := 0 } :=
  ⟨by decide,
   (C28_rejected_payload_still_counts (sampleGateway (freshLedger 0) (some worldTradingDataOnlyConfig))
      (respondsWith emptyDataBody) 1000 worldTradingDataOnlyConfig "worldtradingdata"
      (sampleProvider true 1) emptyDataBody { requests := 0, lastReset := 0 }
      (fun _ => ⟨200, "OK", rfl⟩) rfl rfl
      (by rintro ⟨t, ht, _⟩; simp [sampleProvider] at ht) (by decide)).2.1 "MSFT"⟩

/-- C29: when `getStockQuote(symbol)` falls back to the offline sample (cache
miss, a provider selected, its adapter throws), the state it leaves has the
in-process map, the Mongo cache collection and the cache file exactly as
before, so no entry for `quote_` + symbol was added and any later cache read
for that key (or any other) answers as it would have before the call. -/
theorem C29_fallback_stores_nothing (g : Gateway) (w : World) (now : Nat) (symbol : String)
    (config config' : Config) (g3 g4 : Gateway) (provider : String) (e : JsError)
    (hmiss : (getCachedData g w now ("quote_" ++ symbol)).1 = none)
    (hcfg : getApiConfig (checkAndResetRateLimits g w now) w now = .ok config)
    (hbest : getBestProvider (checkAndResetRateLimits g w now) w now config
      = (.ok (some provider), config', g3))
    (hname : provider ≠ "")
    (hfail : callAdapter g3 w now symbol config' provider = (.error e, g4)) :
    (getStockQuote g w now symbol).1 = .ok (getOfflineSampleQuote symbol now w.random)
      ∧ (getStockQuote g w now symbol).2.cache = g.cache
      ∧ (getStockQuote g w now symbol).2.mongoCache = g.mongoCache
      ∧ (getStockQuote g w now symbol).2.fileCache = g.fileCache
      ∧ jsGet ("quote_" ++ symbol) (getStockQuote g w now symbol).2.cache = none
      ∧ (∀ (w' : World) (now' : Nat) (key : String),
          (getCachedData (getStockQuote g w now symbol).2 w' now' key).1
            = (getCachedData g w' now' key).1) := by
  have hres := getStockQuote_of_adapter_error g w now symbol config config' g3 g4 provider e
    hmiss hcfg hbest hname hfail
  obtain ⟨r1, _, _, _, r5, r6, r7, _, _⟩ := checkAndResetRateLimits_frame g w now
  obtain ⟨b1, _, _, _, _, b6, b7, b8⟩ :=
    getBestProvider_frame (checkAndResetRateLimits g w now) w now config
  rw [hbest] at b1 b6 b7 b8
  simp only at b1 b6 b7 b8
  have hcalls := callAdapter_calls g3 w now symbol config' provider
  rw [hfail] at hcalls
  obtain ⟨a1, _, _, _, a5, a6, a7⟩ := atMostOneCall_frame hcalls
  simp only at a1 a5 a6 a7
  have c1 : g4.cache = g.cache := by rw [a5, b6, r5]
  have c2 : g4.mongoCache = g.mongoCache := by rw [a6, b7, r6]
  have c3 : g4.fileCache = g.fileCache := by rw [a7, b8, r7]
  have c4 : g4.useMongoDb = g.useMongoDb := by rw [a1, b1, r1]
  have hnot : jsGet ("quote_" ++ symbol) g.cache = none := by
    cases hj : jsGet ("quote_" ++ symbol) g.cache with
    | none => rfl
    | some q =>
      rw [getCachedData_of_memory g w now _ q hj] at hmiss
      simp at hmiss
  rw [hres]
  refine ⟨rfl, c1, c2, c3, ?_, ?_⟩
  · simp only [c1, hnot]
  · intro w' now' key
    exact getCachedData_congr g g4 w' now' key c1 c4 c2 c3

/-- Witness for C29: default configuration, fresh ledger, network down: the
call returns the offline sample and the cache tiers stay empty. -/
theorem C29_witness :
    (getStockQuote (sampleGateway (freshLedger 0) none) networkDown 1000 "MSFT").1
        = .ok (getOfflineSampleQuote "MSFT" 1000 networkDown.random)
      ∧ (getStockQuote (sampleGateway (freshLedger 0) none) networkDown 1000 "MSFT").2.cache
          = (sampleGateway (freshLedger 0) none).cache
      ∧ (getStockQuote (sampleGateway (freshLedger 0) none) networkDown 1000 "MSFT").2.fileCache
          = (sampleGateway (freshLedger 0) none).fileCache
      ∧ (getCachedData
          (getStockQuote (sampleGateway (freshLedger 0) none) networkDown 1000 "MSFT").2
          {} 2000 "quote_MSFT").1.isNone = true :=
  match C29_fallback_stores_nothing (sampleGateway (freshLedger 0) none) networkDown 1000 "MSFT"
      (defaultConfig [] 1000) _ _ _ "twelvedata" _ rfl rfl rfl (by decide) rfl with
  | ⟨h1, h2, _, h4, _, h6⟩ => ⟨h1, h2, h4, by rw [h6 {} 2000 "quote_MSFT"]; rfl⟩

/-- C30 (as amended): when `getBestProvider` selects a provider name outside
the seven adapter cases (`quandl` in the default table), `getStockQuote` returns
the offline sample, sends no upstream request and changes no failure counter;
the ledger is the one left by the call's own `checkAndResetRateLimits` step, so
no counter is raised and a record whose 24-hour window has not elapsed is
unchanged. -/
theorem C30_unknown_provider_offline_sample (g : Gateway) (w : World) (now : Nat)
    (symbol : String) (config config' : Config) (g3 : Gateway) (provider : String)
    (hmiss : (getCachedData g w now ("quote_" ++ symbol)).1 = none)
    (hcfg : getApiConfig (checkAndResetRateLimits g w now) w now = .ok config)
    (hbest : getBestProvider (checkAndResetRateLimits g w now) w now config
      = (.ok (some provider), config', g3))
    (hname : provider ≠ "")
    (hcase : provider ∉ adapterNames) :
    (getStockQuote g w now symbol).1 = .ok (getOfflineSampleQuote symbol now w.random)
      ∧ (getStockQuote g w now symbol).2.fetchCalls = g.fetchCalls
      ∧ (getStockQuote g w now symbol).2.providerFailureCount = g.providerFailureCount
      ∧ (getStockQuote g w now symbol).2.rateLimits = (checkAndResetRateLimits g w now).rateLimits
      ∧ (∀ p r, jsGet p g.rateLimits = some r → (now : Int) - r.lastReset < dayMs →
          jsGet p (getStockQuote g w now symbol).2.rateLimits = some r)
      ∧ (∀ p r, jsGet p g.rateLimits = some r →
          ∃ r', jsGet p (getStockQuote g w now symbol).2.rateLimits = some r'
            ∧ r'.requests ≤ max r.requests 0) := by
  have hcall : callAdapter g3 w now symbol config' provider
      = (.error { message := "Unknown provider: " ++ provider }, g3) := by
    simp only [adapterNames, List.mem_cons, List.mem_singleton, not_or, List.not_mem_nil,
      or_false] at hcase
    obtain ⟨h1, h2, h3, h4, h5, h6, h7⟩ := hcase
    unfold callAdapter
    simp only [h1, h2, h3, h4, h5, h6, h7, if_false]
  have hres := getStockQuote_of_adapter_error g w now symbol config config' g3 g3 provider _
    hmiss hcfg hbest hname hcall
  obtain ⟨_, _, _, _, _, _, _, r8, r9⟩ := checkAndResetRateLimits_frame g w now
  obtain ⟨_, _, b3, b4, b5, _, _, _⟩ :=
    getBestProvider_frame (checkAndResetRateLimits g w now) w now config
  rw [hbest] at b3 b4 b5
  simp only at b3 b4 b5
  rw [hres]
  refine ⟨rfl, by simp only [b5, r9], by simp only [b4, r8], b3, ?_, ?_⟩
  · intro p r hr hlt
    simp only [b3, checkAndResetRateLimits_get, hr, Option.map_some']
    have hno : shouldResetRateLimit now r.lastReset = false := by
      cases hs : shouldResetRateLimit now r.lastReset with
      | false => rfl
      | true =>
        rw [shouldResetRateLimit_iff] at hs
        omega
    split <;> simp [resetRecord, hno]
  · intro p r hr
    simp only [b3, checkAndResetRateLimits_get, hr, Option.map_some']
    split
    · refine ⟨_, rfl, ?_⟩
      unfold resetRecord
      split
      · exact le_max_right _ _
      · exact le_max_left _ _
    · exact ⟨r, rfl, le_max_left _ _⟩

/-- Witness for C30: default table, every provider but Quandl above its limit:
Quandl is selected, the call returns the offline sample without a request and
the Quandl record is unchanged. -/
theorem C30_witness :
    (getStockQuote (sampleGateway quandlLedger none) (respondsWith twelveDataBody) 1000 "MSFT").1
        = .ok (getOfflineSampleQuote "MSFT" 1000 (respondsWith twelveDataBody).random)
      ∧ (getStockQuote (sampleGateway quandlLedger none) (respondsWith twelveDataBody) 1000
          "MSFT").2.fetchCalls = (sampleGateway quandlLedger none).fetchCalls
      ∧ jsGet "quandl" (getStockQuote (sampleGateway quandlLedger none)
          (respondsWith twelveDataBody) 1000 "MSFT").2.rateLimits
          = some { requests := 0, lastReset := 0 } :=
  match C30_unknown_provider_offline_sample (sampleGateway quandlLedger none)
      (respondsWith twelveDataBody) 1000 "MSFT" (defaultConfig [] 1000) _ _ "quandl"
      rfl rfl rfl (by decide) (by decide) with
  | ⟨h1, h2, _, _, h5, _⟩ =>
    ⟨h1, h2, h5 "quandl" { requests := 0, lastReset := 0 } rfl (by decide)⟩

/-- C30 (counterexample to the claim as stated): the configuration holds only
Quandl, whose record shows 7 requests in a window that started 25 hours ago.
`getStockQuote("MSFT")` selects Quandl, sends no request and returns the offline
sample, but its `checkAndResetRateLimits` step has set the Quandl counter from
7 to 0: a rate-limit counter was changed. -/
theorem C30_counter_reset_on_unknown_provider :
    (getBestProvider
        (checkAndResetRateLimits (sampleGateway (usedLedger 0 7) (some quandlOnlyConfig))
          (respondsWith twelveDataBody) 90000000)
        (respondsWith twelveDataBody) 90000000 quandlOnlyConfig).1 = .ok (some "quandl")
      ∧ (getStockQuote (sampleGateway (usedLedger 0 7) (some quandlOnlyConfig))
          (respondsWith twelveDataBody) 90000000 "MSFT").1.toOption.map (fun q => q.provider)
          = some "offline-sample"
      ∧ (getStockQuote (sampleGateway (usedLedger 0 7) (some quandlOnlyConfig))
          (respondsWith twelveDataBody) 90000000 "MSFT").2.fetchCalls = 0
      ∧ (jsGet "quandl" (sampleGateway (usedLedger 0 7) (some quandlOnlyConfig)).rateLimits).map
          (fun r => r.requests) = some 7
      ∧ (jsGet "quandl"
          (getStockQuote (sampleGateway (usedLedger 0 7) (some quandlOnlyConfig))
            (respondsWith twelveDataBody) 90000000 "MSFT").2.rateLimits).map
          (fun r => r.requests) = some 0 := by
  refine ⟨rfl, by decide, by decide, by decide, by decide⟩

end AITrader
